import Mathlib

/-! # Makita battery tools: checksum engine, capacity decoders and lock decision

A shallow embedding of `src/src/config.h`, `src/src/makita_data.cpp`,
`src/src/makita_comm.cpp`, `src/src/makita_commands.cpp` and
`src/src/makita_unlock.cpp`.

Conventions.
* A C `byte` is a `Nat`; every store into a `byte` is written with an explicit `% 256`.
  Arithmetic on promoted operands is done in `Nat`/`Int`; the places where the C `int`
  could overflow are named in the comment of the definition concerned.
* A byte buffer (`byte*`) is a `List Nat`; `msg[i]` is `msg.getD i 0` and `msg[i] = v` is
  `msg.set i v`.  Pointer arithmetic `data + 8` is `data.drop 8`.
* The one-wire bus and the power pin are modelled by a history of events and a device
  that answers from the history (see `Device`).
-/

namespace Makita

/-! ## config.h -/

/-- The nibble swap of `config.h:15`,
`#define SWAP_NIBBLES(x) ((x & 0x0F) << 4 | (x & 0xF0) >> 4)`.
In C the shifts bind tighter than the bitwise or. -/
def SWAP_NIBBLES (x : Nat) : Nat :=
  ((x &&& 0x0F) <<< 4) ||| ((x &&& 0xF0) >>> 4)

/-! ## The C `int` and `float` of the target -/

/-- The value of a C `int` of `intBits` bits that holds the bit pattern of `x` (two's
complement). -/
def intValue (intBits : Nat) (x : Int) : Int :=
  (x + 2 ^ (intBits - 1)) % 2 ^ intBits - 2 ^ (intBits - 1)

/-- The integer nearest to a rational, the even one of the two when it lies half way. -/
def roundTiesEven (q : ℚ) : Int :=
  if q - Int.floor q < 1 / 2 then Int.floor q
  else if 1 / 2 < q - Int.floor q then Int.floor q + 1
  else if Int.floor q % 2 = 0 then Int.floor q else Int.floor q + 1

/-- The `float` (IEEE 754 binary32, 24 significant bits) nearest to a rational, ties to
even: what a decimal constant with suffix `f` denotes and what one `float` operation
returns for its exact result.  The exponent is not bounded: overflow and subnormal
numbers are not modelled. -/
def float32 (x : ℚ) : ℚ :=
  if x = 0 then 0
  else roundTiesEven (x / 2 ^ (Int.log 2 |x| - 23)) * 2 ^ (Int.log 2 |x| - 23)

/-! ## makita_data.cpp: utility and capacity helpers -/

/-- The table `static signed char cAdd[5] = { 0, -1, -2, 2, 1 }` of `round5`. -/
def cAdd : List Int := [0, -1, -2, 2, 1]

/-- The function `round5` (`makita_data.cpp:11-14`): `return in + cAdd[in % 5];`.
The C remainder truncates towards zero (`Int.tmod`).  For a negative argument the C
code indexes the table out of bounds; the embedding is meant for `in >= 0` only. -/
def round5 (n : Int) : Int :=
  n + cAdd.getD (Int.tmod n 5).toNat 0

/-- The function `voltage_to_soc` (`makita_data.cpp:17-23`), in `float` arithmetic.  The
argument is the value of the `float` `voltage`; `4.20f`, `3.00f`, `3.0f` and `83.33f` are
the floats nearest to these decimals, and the difference and the product are each rounded
to a float.  The conversion `(uint8_t)` of a `float` drops the fraction; it is only
reached with a positive product, where that is the floor. -/
def voltage_to_soc (voltage : ℚ) : Nat :=
  if voltage ≥ float32 4.20 then 100
  else if voltage ≤ float32 3.00 then 0
  else (Int.toNat (Int.floor (float32 (float32 (voltage - float32 3.0) * float32 83.33))))
    % 256

/-- The function `is_new_capacity_format` (`makita_data.cpp:27-30`).
`byte swapped = SWAP_NIBBLES(cap_byte)` is a store into a byte. -/
def is_new_capacity_format (cap_byte : Nat) : Bool :=
  let swapped := SWAP_NIBBLES cap_byte % 256
  decide (swapped > 60) && decide (cap_byte ≤ 8) && decide (cap_byte > 0)

/-- The function `get_capacity_mah` (`makita_data.cpp:32-38`); the result is a
`uint32_t`. -/
def get_capacity_mah (cap_byte : Nat) : Nat :=
  if is_new_capacity_format cap_byte then
    (cap_byte * 1000) % 2 ^ 32
  else
    (SWAP_NIBBLES cap_byte * 100) % 2 ^ 32

/-- The function `get_capacity_for_model` (`makita_data.cpp:40-46`).  The product
`cap_byte * 10` is only formed for `cap_byte <= 8`, so it fits every C `int`. -/
def get_capacity_for_model (cap_byte : Nat) : Int :=
  if is_new_capacity_format cap_byte then
    (cap_byte : Int) * 10
  else
    round5 (SWAP_NIBBLES cap_byte : Nat)

/-! ## makita_data.cpp: checksum functions -/

/-- The function `calcNybbleSum` (`makita_data.cpp:184-194`).

The loop `for (int i = startByte; i <= end; i++)` with
`end = lastLowOnly ? endByte - 1 : endByte` visits the indices `startByte, ..., end`,
that is `stop - startByte` of them with `stop = end + 1` (none when `stop <= startByte`).
The accumulator `sum` is kept exact here.  That is what the source computes as long as
the sum fits the `int`, in particular on a 32-byte record, where every sum is at most
240; `calcNybbleSum_int` keeps the accumulator in an `int`. -/
def calcNybbleSum (msg : List Nat) (startByte endByte : Nat) (lastLowOnly : Bool) : Nat :=
  let stop := if lastLowOnly then endByte else endByte + 1
  let sum := (List.range' startByte (stop - startByte)).foldl
    (fun s i => s + ((msg.getD i 0 &&& 0x0F) + (msg.getD i 0 >>> 4))) 0
  let sum := if lastLowOnly then sum + (msg.getD endByte 0 &&& 0x0F) else sum
  ((if sum > 255 then 255 else sum) &&& 0x0F) % 256

/-- The function `calcNybbleSum` (`makita_data.cpp:184-194`) with the accumulator
`int sum` of `intBits` bits: every `sum += ...` wraps in two's complement.  For a negative
`sum` the test `sum > 255` fails and `sum & 0x0F` is the residue of `sum` modulo 16.  The
indices are kept exact: the loop counter `int i` walks the range as long as the last
index is below `INT_MAX`. -/
def calcNybbleSum_int (intBits : Nat) (msg : List Nat) (startByte endByte : Nat)
    (lastLowOnly : Bool) : Nat :=
  let stop := if lastLowOnly then endByte else endByte + 1
  let sum : Int := (List.range' startByte (stop - startByte)).foldl
    (fun s i => intValue intBits
      (s + (((msg.getD i 0 &&& 0x0F) + (msg.getD i 0 >>> 4) : Nat) : Int))) 0
  let sum := if lastLowOnly then
      intValue intBits (sum + ((msg.getD endByte 0 &&& 0x0F : Nat) : Int))
    else sum
  (Int.toNat ((if sum > 255 then 255 else sum) % 16)) % 256

/-- The function `verifyMsgChecksums` (`makita_data.cpp:196-216`). -/
def verifyMsgChecksums (msg : List Nat) : Bool :=
  if msg.getD 20 0 = 0xFF ∧ msg.getD 21 0 = 0xFF then false
  else
    let chk1 := calcNybbleSum msg 0 7 false
    let chk2 := calcNybbleSum msg 8 15 false
    let chk3 := calcNybbleSum msg 16 20 true
    let primary_ok := decide (chk1 = msg.getD 20 0 >>> 4) &&
                      decide (chk2 = msg.getD 21 0 &&& 0x0F) &&
                      decide (chk3 = msg.getD 21 0 >>> 4)
    let chk4 := calcNybbleSum msg 22 23 false
    let chk5 := calcNybbleSum msg 24 30 false
    let secondary_ok := decide (chk4 = msg.getD 31 0 &&& 0x0F) &&
                        decide (chk5 = msg.getD 31 0 >>> 4)
    primary_ok && secondary_ok

/-- The function `recalcMsgChecksums` (`makita_data.cpp:218-232`); the buffer written
in place is returned. -/
def recalcMsgChecksums (msg : List Nat) : List Nat :=
  let chk1 := calcNybbleSum msg 0 7 false
  let chk2 := calcNybbleSum msg 8 15 false
  let chk3 := calcNybbleSum msg 16 20 true
  let msg := msg.set 20 (((msg.getD 20 0 &&& 0x0F) ||| (chk1 <<< 4)) % 256)
  let msg := msg.set 21 (((chk2 &&& 0x0F) ||| (chk3 <<< 4)) % 256)
  let chk4 := calcNybbleSum msg 22 23 false
  let chk5 := calcNybbleSum msg 24 30 false
  msg.set 31 (((chk4 &&& 0x0F) ||| (chk5 <<< 4)) % 256)

/-! ## makita_unlock.cpp -/

/-- The function `clearErrorWithChecksum` (`makita_unlock.cpp:12-15`):
`msg[20] &= 0xF0; recalcMsgChecksums(msg);`. -/
def clearErrorWithChecksum (msg : List Nat) : List Nat :=
  recalcMsgChecksums (msg.set 20 ((msg.getD 20 0 &&& 0xF0) % 256))

/-! ## The one-wire bus and the power pin -/

/-- Marks kept in the history that are not actions on the bus or the power pin: the
Serial reports that carry an outcome, and ghost marks of the program points that the
properties below count.  Serial output that carries no outcome is not modelled. -/
inductive Note where
  /-- Ghost mark: `testmode_cmd` was entered. -/
  | testmode
  /-- Ghost mark: `send_da_cmd` was entered with this sub-command (`0x04`: error reset). -/
  | da (sub_cmd : Nat)
  /-- Ghost mark: `write_msg_to_eeprom` was entered. -/
  | eepromWrite
  /-- Serial `"  Cycle "`: a Phase 1 cycle of `unlockBattery` starts. -/
  | phase1Cycle
  /-- Serial `"  Write "`: a Phase 2 write attempt of `unlockBattery` starts. -/
  | phase2Write
  /-- Ghost mark: a Phase 3 cycle of `unlockBattery` starts. -/
  | phase3Cycle
  /-- Ghost mark: the value that `isBatteryLocked()` returned to `unlockBattery`. -/
  | lockCheck (locked : Bool)
  /-- Serial `"*** SUCCESS: Battery unlocked! ***"`. -/
  | unlocked
  /-- Serial `"Unlock failed. May need cell charging or PCB replacement."`. -/
  | unlockFailed
  /-- Serial `"Reset complete."`. -/
  | resetComplete
  deriving DecidableEq, Repr

/-- What the host does on the bus and on the power pin, with what the device answered. -/
inductive Event where
  /-- A call of `makita.reset()` and the value it returned (true: a device answered). -/
  | reset (present : Bool)
  /-- A call of `makita.write(v)`. -/
  | write (v : Nat)
  /-- A call of `makita.read()` and the byte it returned. -/
  | read (v : Nat)
  /-- A call of `set_enablepin(high)`. -/
  | enable (high : Bool)
  /-- A call of `delay(ms)`. -/
  | delay (ms : Nat)
  /-- A call of `delayMicroseconds(us)`. -/
  | delayMicroseconds (us : Nat)
  /-- A Serial report or a ghost mark, see `Note`. -/
  | note (n : Note)
  deriving DecidableEq, Repr

/-- The history of a session: its events, the most recent first. -/
abbrev History := List Event

/-- A device on the bus: whether it answers a reset pulse and which byte it returns on a
read, each as a function of everything that happened before. -/
structure Device where
  /-- The result of `makita.reset()` after the given history. -/
  present : History → Bool
  /-- The value of `makita.read()` after the given history (taken modulo 256). -/
  answer : History → Nat

/-- The call `makita.reset()` (`OneWire::reset`). -/
def makita_reset (dev : Device) (h : History) : Bool × History :=
  (dev.present h, Event.reset (dev.present h) :: h)

/-- The call `makita.write(v)` (`OneWire::write`). -/
def makita_write (v : Nat) (h : History) : History :=
  Event.write v :: h

/-- The call `makita.read()` (`OneWire::read`), which returns a `uint8_t`. -/
def makita_read (dev : Device) (h : History) : Nat × History :=
  (dev.answer h % 256, Event.read (dev.answer h % 256) :: h)

/-- The loop of `OneWire::write_bytes`, `for (i = 0; i < count; i++) write(buf[i]);`,
from index `i` on with `count` bytes left. -/
def makita_write_bytes (buf : List Nat) : Nat → Nat → History → History
  | 0, _, h => h
  | count + 1, i, h => makita_write_bytes buf count (i + 1) (makita_write (buf.getD i 0) h)

/-- The loop of `OneWire::read_bytes`, `for (i = 0; i < count; i++) buf[i] = read();`,
from index `i` on with `count` bytes left. -/
def makita_read_bytes (dev : Device) : Nat → Nat → List Nat → History → List Nat × History
  | 0, _, buf, h => (buf, h)
  | count + 1, i, buf, h =>
    makita_read_bytes dev count (i + 1) (buf.set i (makita_read dev h).1) (makita_read dev h).2

/-- The call `memset(buf, v, n)`. -/
def memset (buf : List Nat) (v : Nat) : Nat → List Nat
  | 0 => buf
  | n + 1 => (memset buf v n).set n v

/-! ## makita_comm.cpp -/

/-- The function `set_enablepin` (`makita_comm.cpp:16-18`). -/
def set_enablepin (high : Bool) (h : History) : History :=
  Event.enable high :: h

/-- The call `delay(ms)`. -/
def delay (ms : Nat) (h : History) : History :=
  Event.delay ms :: h

/-- The call `delayMicroseconds(us)`. -/
def delayMicroseconds (us : Nat) (h : History) : History :=
  Event.delayMicroseconds us :: h

/-- The function `trigger_power` (`makita_comm.cpp:20-25`). -/
def trigger_power (h : History) : History :=
  delay 500 (set_enablepin true (delay 200 (set_enablepin false h)))

/-- The reset loop of `cmd_and_read` (`makita_comm.cpp:31-37`),
`for (int i = 0; !makita.reset(); i++) { if (i == 5) { trigger_power(); return false; }
delay(500); }`, entered with loop counter `i = 5 - k`.  The result is true when a reset
succeeded and false when the function returns false from inside the loop. -/
def cmd_and_read_reset (dev : Device) : Nat → History → Bool × History
  | 0, h =>
    if (makita_reset dev h).1 then (true, (makita_reset dev h).2)
    else (false, trigger_power (makita_reset dev h).2)
  | k + 1, h =>
    if (makita_reset dev h).1 then (true, (makita_reset dev h).2)
    else cmd_and_read_reset dev k (delay 500 (makita_reset dev h).2)

/-- The function `cmd_and_read` (`makita_comm.cpp:27-60`).  The result is the returned
flag, the response buffer `rsp` and the history. -/
def cmd_and_read (dev : Device) (initial : Nat) (cmd : List Nat) (cmd_len : Nat)
    (rsp : List Nat) (rsp_len : Nat) (h : History) : Bool × List Nat × History :=
  let offset := if initial = 0x33 then 8 else 0
  let rsp := memset rsp 0xFF (rsp_len + offset)
  let r := cmd_and_read_reset dev 5 h
  if r.1 = false then (false, rsp, r.2)
  else
    let h := delayMicroseconds 310 r.2
    let p :=
      if offset ≠ 0 then
        let h := makita_write initial h
        let q := makita_read_bytes dev offset 0 rsp h
        (q.1, makita_write_bytes cmd cmd_len 0 q.2)
      else
        (rsp, makita_write_bytes cmd cmd_len 0 (makita_write initial h))
    let q := makita_read_bytes dev rsp_len offset p.1 p.2
    let rsp := q.1
    if rsp_len < 3 ∨ ¬(rsp.getD offset 0 = 0xFF ∧ rsp.getD (1 + offset) 0 = 0xFF ∧
        rsp.getD (2 + offset) 0 = 0xFF) then
      (true, rsp, q.2)
    else
      (false, rsp, trigger_power q.2)

/-- The function `cmd_and_read_33` (`makita_comm.cpp:62-64`). -/
def cmd_and_read_33 (dev : Device) (cmd : List Nat) (cmd_len : Nat) (rsp : List Nat)
    (rsp_len : Nat) (h : History) : Bool × List Nat × History :=
  cmd_and_read dev 0x33 cmd cmd_len rsp rsp_len h

/-! ## makita_commands.cpp -/

/-- The function `charger_33_cmd` (`makita_commands.cpp:69-72`). -/
def charger_33_cmd (dev : Device) (rsp : List Nat) (h : History) : Bool × List Nat × History :=
  cmd_and_read_33 dev [0xF0, 0x00] 2 rsp 32 h

/-- The loop of `try_charger`, `for (int i = 0; i < 20; i++) { if (charger_33_cmd(rsp))
return true; } return false;`, with `n = 20 - i` attempts left. -/
def try_charger_loop (dev : Device) : Nat → List Nat → History → Bool × List Nat × History
  | 0, rsp, h => (false, rsp, h)
  | n + 1, rsp, h =>
    if (charger_33_cmd dev rsp h).1 then (true, (charger_33_cmd dev rsp h).2)
    else try_charger_loop dev n (charger_33_cmd dev rsp h).2.1 (charger_33_cmd dev rsp h).2.2

/-- The function `try_charger` (`makita_commands.cpp:74-79`). -/
def try_charger (dev : Device) (rsp : List Nat) (h : History) : Bool × List Nat × History :=
  try_charger_loop dev 20 rsp h

/-! ## makita_data.cpp: lock status -/

/-- The function `isBatteryLocked` (`makita_data.cpp:236-249`).  The result is the
returned flag and the history. -/
def isBatteryLocked (dev : Device) (h : History) : Bool × History :=
  let data := memset (List.replicate 64 0) 0 64
  let r := try_charger dev data h
  if r.1 = false then (true, r.2.2)
  else
    let msg := r.2.1.drop 8
    let err := msg.getD 20 0 &&& 0x0F
    if err ≠ 0 ∧ err ≠ 5 then (true, r.2.2)
    else (!verifyMsgChecksums msg, r.2.2)

/-! ## makita_comm.cpp, continued -/

/-- The function `cmd_and_read_cc` (`makita_comm.cpp:66-68`). -/
def cmd_and_read_cc (dev : Device) (cmd : List Nat) (cmd_len : Nat) (rsp : List Nat)
    (rsp_len : Nat) (h : History) : Bool × List Nat × History :=
  cmd_and_read dev 0xcc cmd cmd_len rsp rsp_len h

/-- The loop of `warmup_battery` (`makita_comm.cpp:79-87`) with `n` rounds left; `dummy`
is the local buffer. -/
def warmup_loop (dev : Device) : Nat → List Nat → History → List Nat × History
  | 0, dummy, h => (dummy, h)
  | n + 1, dummy, h =>
    let h := delay 100 (makita_reset dev h).2
    let r := cmd_and_read_cc dev [0xD7, 0x0E, 0x00, 0x02] 4 dummy 3 h
    warmup_loop dev n r.2.1 (delay 50 r.2.2)

/-- The function `warmup_battery` (`makita_comm.cpp:71-92`).  The local `dummy[16]` is not
initialised in C; its content is never read. -/
def warmup_battery (dev : Device) (h : History) : History :=
  let dummy := List.replicate 16 0
  let h := delay 200 (trigger_power h)
  let r := warmup_loop dev 3 dummy h
  delay 100 (makita_reset dev r.2).2

/-! ## makita_commands.cpp, continued

The functions below that answer into the shared buffer `g_buf` take it as an argument
and return it. -/

/-- The function `f0513_second_command_tree` (`makita_commands.cpp:11-18`). -/
def f0513_second_command_tree (dev : Device) (h : History) : History :=
  let rsp := memset (List.replicate 16 0) 0 16
  let r := cmd_and_read_cc dev [0x99] 1 rsp 0 h
  delayMicroseconds 310 (makita_reset dev r.2.2).2

/-- The function `f0513_model_cmd` (`makita_commands.cpp:20-27`). -/
def f0513_model_cmd (dev : Device) (rsp : List Nat) (h : History) : List Nat × History :=
  let h := f0513_second_command_tree dev h
  let h := delayMicroseconds 90 (makita_write 0x31 h)
  let r0 := makita_read dev h
  let rsp := rsp.set 0 r0.1
  let h := delayMicroseconds 90 r0.2
  let r1 := makita_read dev h
  (rsp.set 1 r1.1, r1.2)

/-- The function `f0513_vcell_cmd` (`makita_commands.cpp:38-41`). -/
def f0513_vcell_cmd (dev : Device) (cmd_byte : Nat) (rsp : List Nat) (h : History) :
    Bool × List Nat × History :=
  cmd_and_read_cc dev [cmd_byte] 1 rsp 2 h

/-- The function `f0513_temp_cmd` (`makita_commands.cpp:43-46`). -/
def f0513_temp_cmd (dev : Device) (rsp : List Nat) (h : History) :
    Bool × List Nat × History :=
  cmd_and_read_cc dev [0x52] 1 rsp 2 h

/-- The function `is_f0513` (`makita_commands.cpp:48-52`).  The local `data[32]` is not
initialised in C; its bytes 0 and 1 are written before they are read. -/
def is_f0513 (dev : Device) (h : History) : Bool × History :=
  let r := f0513_model_cmd dev (List.replicate 32 0) h
  (!decide (r.1.getD 0 0 = 0xFF ∧ r.1.getD 1 0 = 0xFF), r.2)

/-- The function `read_data_request` (`makita_commands.cpp:64-67`). -/
def read_data_request (dev : Device) (rsp : List Nat) (h : History) :
    Bool × List Nat × History :=
  cmd_and_read_cc dev [0xD7, 0x00, 0x00, 0xFF] 4 rsp 29 h

/-- The function `testmode_cmd` (`makita_commands.cpp:83-86`). -/
def testmode_cmd (dev : Device) (g_buf : List Nat) (h : History) : List Nat × History :=
  (cmd_and_read_33 dev [0xD9, 0x96, 0xA5] 3 g_buf 29 (Event.note Note.testmode :: h)).2

/-- The function `exit_testmode_cmd` (`makita_commands.cpp:88-91`). -/
def exit_testmode_cmd (dev : Device) (g_buf : List Nat) (h : History) : List Nat × History :=
  (cmd_and_read_33 dev [0xD9, 0xFF, 0xFF] 3 g_buf 1 h).2

/-- The function `send_da_cmd` (`makita_commands.cpp:94-97`). -/
def send_da_cmd (dev : Device) (sub_cmd : Nat) (g_buf : List Nat) (h : History) :
    List Nat × History :=
  (cmd_and_read_33 dev [0xDA, sub_cmd] 2 g_buf 9 (Event.note (Note.da sub_cmd) :: h)).2

/-- The function `reset_error_cmd` (`makita_commands.h`):
`inline void reset_error_cmd() { send_da_cmd(0x04); }`. -/
def reset_error_cmd (dev : Device) (g_buf : List Nat) (h : History) : List Nat × History :=
  send_da_cmd dev 0x04 g_buf h

/-- The reset loops of `store_cmd_direct` (`makita_commands.cpp:110-113` and `129-132`),
`for (int i = 0; !makita.reset(); i++) { if (i == 5) return /* or break */; delay(100); }`,
entered with loop counter `i = 5 - k`.  The result is true when a reset succeeded. -/
def store_reset (dev : Device) : Nat → History → Bool × History
  | 0, h => makita_reset dev h
  | k + 1, h =>
    if (makita_reset dev h).1 then (true, (makita_reset dev h).2)
    else store_reset dev k (delay 100 (makita_reset dev h).2)

/-- The commit loop of `store_cmd_direct` (`makita_commands.cpp:128-142`) with `n`
attempts left; a failed reset loop only breaks out of the inner loop. -/
def store_commit (dev : Device) : Nat → List Nat → History → List Nat × History
  | 0, rsp, h => (rsp, h)
  | n + 1, rsp, h =>
    let h := delayMicroseconds 310 (store_reset dev 5 h).2
    let h := makita_write 0x33 h
    let q := makita_read_bytes dev 8 0 rsp h
    let h := makita_write 0xA5 (makita_write 0x55 q.2)
    store_commit dev n q.1 (delay 500 h)

/-- The function `store_cmd_direct` (`makita_commands.cpp:106-143`).  The local `rsp[16]`
is not initialised in C; its content is never read. -/
def store_cmd_direct (dev : Device) (data : List Nat) (h : History) : History :=
  let rsp := List.replicate 16 0
  let r := store_reset dev 5 h
  if r.1 = false then r.2
  else
    let h := delayMicroseconds 310 r.2
    let h := makita_write 0x33 h
    let q := makita_read_bytes dev 8 0 rsp h
    let h := makita_write 0x00 (makita_write 0x0F q.2)
    let h := makita_write_bytes data 32 0 h
    let h := delay 500 h
    (store_commit dev 3 q.1 h).2

/-- The function `write_msg_to_eeprom` (`makita_commands.cpp:146-157`). -/
def write_msg_to_eeprom (dev : Device) (msg : List Nat) (g_buf : List Nat) (h : History) :
    List Nat × History :=
  let t := testmode_cmd dev g_buf (Event.note Note.eepromWrite :: h)
  let h := delay 100 t.2
  let c := charger_33_cmd dev t.1 h
  let h := delay 100 c.2.2
  let h := store_cmd_direct dev msg h
  let h := delay 500 h
  let e := exit_testmode_cmd dev c.2.1 h
  let h := delay 200 e.2
  let h := trigger_power h
  (e.1, delay 300 h)

/-- The function `write_msg_safe` (`makita_commands.cpp:160-163`); the record written in
place is returned with the shared buffer and the history. -/
def write_msg_safe (dev : Device) (msg : List Nat) (g_buf : List Nat) (h : History) :
    List Nat × List Nat × History :=
  (recalcMsgChecksums msg, write_msg_to_eeprom dev (recalcMsgChecksums msg) g_buf h)

/-- The function `bl36_testmode` (`makita_commands.cpp:167-170`); the response pointer is
the command buffer itself and the response length is 0. -/
def bl36_testmode (dev : Device) (h : History) : Bool × History :=
  let r := cmd_and_read_cc dev [0x10, 0x21] 2 [0x10, 0x21] 0 h
  (r.1, r.2.2)

/-- The function `code_to_voltage_u16` (`makita_commands.cpp:172-176`).  The argument is
converted to `uint16_t`; the `float` arithmetic is done exactly, over the rationals. -/
def code_to_voltage_u16 (raw16 : Nat) : ℚ :=
  5.5 - ((raw16 % 65536 : Nat) : ℚ) / 11916

/-- The loop of `bl36_voltages` (`makita_commands.cpp:190-195`) from cell `i` on with `n`
cells left; the state is `(voltages, vTotal, max_v, min_v)`.  The `int` value
`(int)rsp[i * 2] | ((int)rsp[i * 2 + 1]) << 8` is only used through its conversion to
`uint16_t`. -/
def bl36_loop (rsp : List Nat) : Nat → Nat → List ℚ × ℚ × ℚ × ℚ → List ℚ × ℚ × ℚ × ℚ
  | 0, _, s => s
  | n + 1, i, (voltages, vTotal, max_v, min_v) =>
    let v := code_to_voltage_u16 (rsp.getD (i * 2) 0 ||| (rsp.getD (i * 2 + 1) 0 <<< 8))
    let voltages := voltages.set i v
    let vTotal := vTotal + v
    let max_v := if v > max_v then v else max_v
    let min_v := if v < min_v then v else min_v
    bl36_loop rsp n (i + 1) (voltages, vTotal, max_v, min_v)

/-- The function `bl36_voltages` (`makita_commands.cpp:178-202`).  In
`cmd_and_read(0xd4, rsp, 0, rsp, 20)` the command pointer is the response buffer and the
command length is 0. -/
def bl36_voltages (dev : Device) (voltages : List ℚ) (h : History) :
    Bool × List ℚ × History :=
  let rsp := memset (List.replicate 64 0) 0 64
  let t := bl36_testmode dev h
  if t.1 = false then (false, voltages, t.2)
  else
    let r := cmd_and_read dev 0xd4 rsp 0 rsp 20 t.2
    if r.1 = false then (false, voltages, r.2.2)
    else
      let s := bl36_loop r.2.1 10 0 (voltages, 0, -5, 5)
      let voltages := s.1.set 10 (s.2.2.1 - s.2.2.2)
      let voltages := voltages.set 11 s.2.1
      let voltages := voltages.set 12 0
      (true, voltages, r.2.2)

/-! ## makita_data.cpp: temperatures, voltages and the cached read

In this part a C `float` is a rational number: the arithmetic is exact, rounding is not
modelled (`voltage_to_soc` alone is embedded with the rounding of `float32`).
The width of the C `int` is not fixed by the sources; the functions that form
`(int)lo | ((int)hi) << 8` take the number of bits `intBits` of an `int` as argument. -/

/-- The function `overdischarge` (`makita_data.cpp:66-74`).  The result is the returned
byte and the history; `int val = rsp[0] << 1` is at most 510 and fits every C `int`. -/
def overdischarge (dev : Device) (h : History) : Nat × History :=
  let rsp := memset (List.replicate 4 0) 0 4
  let r := cmd_and_read_cc dev [0xD4, 0xBA, 0x00, 0x01] 4 rsp 2 h
  if r.2.1.getD 0 0 = 0xFF then (0, r.2.2)
  else
    let val := r.2.1.getD 0 0 <<< 1
    ((if val > 100 then 100 else val) % 256, r.2.2)

/-- The function `cell_temperature` (`makita_data.cpp:88-95`); the shift is done on an
`int32_t`. -/
def cell_temperature (dev : Device) (h : History) : ℚ × History :=
  let rsp := memset (List.replicate 4 0) 0 4
  let r := cmd_and_read_cc dev [0xD7, 0x0E, 0x00, 0x02] 4 rsp 3 h
  if r.2.1.getD 0 0 = 0xFF ∧ r.2.1.getD 1 0 = 0xFF then (-999, r.2.2)
  else (((r.2.1.getD 0 0 ||| (r.2.1.getD 1 0 <<< 8) : Nat) : ℚ) / 10 - 273.15, r.2.2)

/-- The function `mosfet_temperature` (`makita_data.cpp:97-104`). -/
def mosfet_temperature (dev : Device) (h : History) : ℚ × History :=
  let rsp := memset (List.replicate 4 0) 0 4
  let r := cmd_and_read_cc dev [0xD7, 0x10, 0x00, 0x02] 4 rsp 3 h
  if r.2.1.getD 0 0 = 0xFF ∧ r.2.1.getD 1 0 = 0xFF then (-999, r.2.2)
  else (((r.2.1.getD 0 0 ||| (r.2.1.getD 1 0 <<< 8) : Nat) : ℚ) / 10 - 273.15, r.2.2)

/-- The raw cell value of `get_voltage_info` (`makita_data.cpp:143-147`),
`((int)data[i] | ((int)data[i + 1]) << 8) / 1000.0f`. -/
def cell_volts (intBits : Nat) (data : List Nat) (i : Nat) : ℚ :=
  ((intValue intBits ((data.getD i 0 ||| (data.getD (i + 1) 0 <<< 8) : Nat) : Int) : Int) : ℚ)
    / 1000

/-- The second half of `get_voltage_info` (`makita_data.cpp:140-178`), from the test of
`data[2]` and `data[3]` on: no bus traffic, the result is the returned flag and the
output vector. -/
def get_voltage_info_output (intBits : Nat) (data : List Nat) (t_cell t_mosfet : ℚ)
    (output : List ℚ) : Bool × List ℚ :=
  if data.getD 2 0 = 0xFF ∧ data.getD 3 0 = 0xFF then (false, output)
  else
    let v_cell1 := cell_volts intBits data 2
    let v_cell2 := cell_volts intBits data 4
    let v_cell3 := cell_volts intBits data 6
    let v_cell4 := cell_volts intBits data 8
    let v_cell5 := cell_volts intBits data 10
    let doubled := v_cell1 > 5 ∨ v_cell2 > 5 ∨ v_cell3 > 5 ∨ v_cell4 > 5 ∨ v_cell5 > 5
    let v_cell1 := if doubled then v_cell1 / 2 else v_cell1
    let v_cell2 := if doubled then v_cell2 / 2 else v_cell2
    let v_cell3 := if doubled then v_cell3 / 2 else v_cell3
    let v_cell4 := if doubled then v_cell4 / 2 else v_cell4
    let v_cell5 := if doubled then v_cell5 / 2 else v_cell5
    let max_v := v_cell1
    let min_v := v_cell1
    let max_v := if v_cell2 > max_v then v_cell2 else max_v
    let max_v := if v_cell3 > max_v then v_cell3 else max_v
    let max_v := if v_cell4 > max_v then v_cell4 else max_v
    let max_v := if v_cell5 > max_v then v_cell5 else max_v
    let min_v := if v_cell2 < min_v then v_cell2 else min_v
    let min_v := if v_cell3 < min_v then v_cell3 else min_v
    let min_v := if v_cell4 < min_v then v_cell4 else min_v
    let min_v := if v_cell5 < min_v then v_cell5 else min_v
    let output := output.set 0 v_cell1
    let output := output.set 1 v_cell2
    let output := output.set 2 v_cell3
    let output := output.set 3 v_cell4
    let output := output.set 4 v_cell5
    let output := output.set 5 (max_v - min_v)
    let output := output.set 6 (v_cell1 + v_cell2 + v_cell3 + v_cell4 + v_cell5)
    let output := output.set 7 t_cell
    let output := output.set 8 t_mosfet
    (true, output)

/-- The legacy branch of `get_voltage_info` (`makita_data.cpp:126-138`): the five cell
queries into `data + 2`, ..., `data + 10` and the temperature query into `data + 14`.  The
result is the buffer, the cell temperature and the history. -/
def get_voltage_info_f0513 (intBits : Nat) (dev : Device) (data : List Nat) (h : History) :
    List Nat × ℚ × History :=
  let r := f0513_vcell_cmd dev 0x31 (data.drop 2) h
  let data := data.take 2 ++ r.2.1
  let r := f0513_vcell_cmd dev 0x32 (data.drop 4) r.2.2
  let data := data.take 4 ++ r.2.1
  let r := f0513_vcell_cmd dev 0x33 (data.drop 6) r.2.2
  let data := data.take 6 ++ r.2.1
  let r := f0513_vcell_cmd dev 0x34 (data.drop 8) r.2.2
  let data := data.take 8 ++ r.2.1
  let r := f0513_vcell_cmd dev 0x35 (data.drop 10) r.2.2
  let data := data.take 10 ++ r.2.1
  let r := f0513_temp_cmd dev (data.drop 14) r.2.2
  let data := data.take 14 ++ r.2.1
  let temp_raw : ℚ :=
    ((intValue intBits ((data.getD 14 0 ||| (data.getD 15 0 <<< 8) : Nat) : Int) : Int) : ℚ)
  let temp_100 := temp_raw / 100
  let temp_256 := temp_raw / 256
  (data, (if temp_100 > 45 then temp_256 else temp_100), r.2.2)

/-- The function `get_voltage_info` (`makita_data.cpp:108-179`).  The result is the
returned flag, the output vector and the history. -/
def get_voltage_info (intBits : Nat) (dev : Device) (output : List ℚ) (h : History) :
    Bool × List ℚ × History :=
  let data := memset (List.replicate 128 0) 0 128
  let r := read_data_request dev data h
  if r.2.1.getD 0 0 = 0xFF ∧ r.2.1.getD 1 0 = 0xFF then
    let f := get_voltage_info_f0513 intBits dev (memset r.2.1 0xFF 32) r.2.2
    let o := get_voltage_info_output intBits f.1 f.2.1 0 output
    (o.1, o.2, f.2.2)
  else
    let c := cell_temperature dev r.2.2
    let m := mosfet_temperature dev c.2
    let o := get_voltage_info_output intBits r.2.1 c.1 m.1 output
    (o.1, o.2, m.2)

/-- The cache `BatteryData` (`config.h:23-30`). -/
structure BatteryData where
  /-- The field `byte rom[8]`. -/
  rom : List Nat
  /-- The field `byte msg[32]`. -/
  msg : List Nat
  /-- The field `float voltages[9]`. -/
  voltages : List ℚ
  /-- The field `bool valid`. -/
  valid : Bool
  /-- The field `bool is_bl36`. -/
  is_bl36 : Bool
  /-- The field `uint8_t cell_count`. -/
  cell_count : Nat
  deriving DecidableEq

/-- The cache after `memset(&g_battery, 0, sizeof(g_battery))`. -/
def BatteryData.zero : BatteryData where
  rom := List.replicate 8 0
  msg := List.replicate 32 0
  voltages := List.replicate 9 0
  valid := false
  is_bl36 := false
  cell_count := 0

/-- The function `readAllBatteryData` (`makita_data.cpp:253-304`).  The cache is
overwritten at the start, so its former value is no argument; the result is the returned
flag, the cache `g_battery` and the history.  The local `bl36_data[13]` is not initialised
in C; it is read only after `bl36_voltages` has filled it. -/
def readAllBatteryData (intBits : Nat) (dev : Device) (h : History) :
    Bool × BatteryData × History :=
  let g := { BatteryData.zero with valid := false }
  let h := warmup_battery dev h
  let charger_data := memset (List.replicate 48 0) 0 48
  let t := try_charger dev charger_data h
  if t.1 = false then (false, g, t.2.2)
  else
    let g := { g with rom := t.2.1.take 8, msg := (t.2.1.drop 8).take 32 }
    let h := delay 100 (makita_reset dev t.2.2).2
    let h := delay 50 (cell_temperature dev h).2
    let h := delay 50 (cell_temperature dev h).2
    let v := get_voltage_info intBits dev g.voltages h
    let g := { g with voltages := v.2.1 }
    if v.1 then
      (true, { g with cell_count := 5, is_bl36 := false, valid := true }, v.2.2)
    else
      let b := bl36_voltages dev (List.replicate 13 0) v.2.2
      if b.1 then
        (true, { g with voltages := b.2.1.take 9, cell_count := 10, is_bl36 := true,
                        valid := true }, b.2.2)
      else
        (true, { g with valid := true, cell_count := 0 }, b.2.2)

/-! ## makita_unlock.cpp: reset and unlock -/

/-- The loop of `resetBatteryErrors` (`makita_unlock.cpp:126-131`) with `n` rounds left. -/
def resetBatteryErrors_loop (dev : Device) : Nat → List Nat → History → List Nat × History
  | 0, g_buf, h => (g_buf, h)
  | n + 1, g_buf, h =>
    let t := testmode_cmd dev g_buf (delay 300 h)
    let e := reset_error_cmd dev t.1 t.2
    resetBatteryErrors_loop dev n e.1 e.2

/-- The function `resetBatteryErrors` (`makita_unlock.cpp:124-133`). -/
def resetBatteryErrors (dev : Device) (g_buf : List Nat) (h : History) : List Nat × History :=
  let r := resetBatteryErrors_loop dev 3 g_buf h
  (r.1, Event.note Note.resetComplete :: r.2)

/-- The inner loop of Phase 1 of `unlockBattery` (`makita_unlock.cpp:147-152`) with `n`
repetitions left. -/
def unlock_phase1_reps (dev : Device) : Nat → List Nat → History → List Nat × History
  | 0, g_buf, h => (g_buf, h)
  | n + 1, g_buf, h =>
    let t := testmode_cmd dev g_buf (delay 200 h)
    let e := reset_error_cmd dev t.1 t.2
    unlock_phase1_reps dev n e.1 e.2

/-- Phase 1 of `unlockBattery` (`makita_unlock.cpp:142-159`) with `n` cycles left.  The
flag is true when the function has returned from inside the loop (success reported). -/
def unlock_phase1 (dev : Device) : Nat → List Nat → History → Bool × List Nat × History
  | 0, g_buf, h => (false, g_buf, h)
  | n + 1, g_buf, h =>
    let r := unlock_phase1_reps dev 5 g_buf (trigger_power (Event.note Note.phase1Cycle :: h))
    let c := isBatteryLocked dev r.2
    if c.1 = false then
      (true, r.1, Event.note Note.unlocked :: Event.note (Note.lockCheck c.1) :: c.2)
    else unlock_phase1 dev n r.1 (Event.note (Note.lockCheck c.1) :: c.2)

/-- The write loop of Phase 2 of `unlockBattery` (`makita_unlock.cpp:180-198`) with `n`
attempts left. -/
def unlock_phase2_writes (dev : Device) (raw_msg : List Nat) :
    Nat → List Nat → History → Bool × List Nat × History
  | 0, g_buf, h => (false, g_buf, h)
  | n + 1, g_buf, h =>
    let w := write_msg_to_eeprom dev raw_msg g_buf (Event.note Note.phase2Write :: h)
    let c := isBatteryLocked dev
      (delay 1000 (set_enablepin true (delay 2000 (set_enablepin false w.2))))
    if c.1 = false then
      (true, w.1, Event.note Note.unlocked :: Event.note (Note.lockCheck c.1) :: c.2)
    else unlock_phase2_writes dev raw_msg n w.1 (Event.note (Note.lockCheck c.1) :: c.2)

/-- Phase 2 of `unlockBattery` (`makita_unlock.cpp:164-199`). -/
def unlock_phase2 (dev : Device) (g_buf : List Nat) (h : History) :
    Bool × List Nat × History :=
  let charger_data := memset (List.replicate 48 0) 0 48
  let t := try_charger dev charger_data h
  if t.1 then
    unlock_phase2_writes dev (clearErrorWithChecksum (t.2.1.drop 8)) 3 g_buf t.2.2
  else (false, g_buf, t.2.2)

/-- The inner loop of Phase 3 of `unlockBattery` (`makita_unlock.cpp:209-214`) with `n`
repetitions left. -/
def unlock_phase3_reps (dev : Device) : Nat → List Nat → History → List Nat × History
  | 0, g_buf, h => (g_buf, h)
  | n + 1, g_buf, h =>
    let t := testmode_cmd dev g_buf h
    let e := reset_error_cmd dev t.1 (delay 100 t.2)
    unlock_phase3_reps dev n e.1 (delay 100 e.2)

/-- Phase 3 of `unlockBattery` (`makita_unlock.cpp:203-220`) with `n` cycles left. -/
def unlock_phase3 (dev : Device) : Nat → List Nat → History → Bool × List Nat × History
  | 0, g_buf, h => (false, g_buf, h)
  | n + 1, g_buf, h =>
    let r := unlock_phase3_reps dev 10 g_buf
      (delay 1000 (set_enablepin true (delay 2000 (set_enablepin false
        (Event.note Note.phase3Cycle :: h)))))
    let c := isBatteryLocked dev r.2
    if c.1 = false then
      (true, r.1, Event.note Note.unlocked :: Event.note (Note.lockCheck c.1) :: c.2)
    else unlock_phase3 dev n r.1 (Event.note (Note.lockCheck c.1) :: c.2)

/-- The function `unlockBattery` (`makita_unlock.cpp:135-223`).  The flag is true when
success was reported. -/
def unlockBattery (dev : Device) (g_buf : List Nat) (h : History) :
    Bool × List Nat × History :=
  let p1 := unlock_phase1 dev 5 g_buf h
  if p1.1 then p1
  else
    let p2 := unlock_phase2 dev p1.2.1 p1.2.2
    if p2.1 then p2
    else
      let p3 := unlock_phase3 dev 3 p2.2.1 p2.2.2
      if p3.1 then p3
      else (false, p3.2.1, Event.note Note.unlockFailed :: p3.2.2)

/-! ## The cycle counter -/

/-- The cycle count as the readers decode it (`makita_print.cpp:89-91`,
`makita_unlock.cpp:275-276` and `320-321`):
`(((int)SWAP_NIBBLES(msg[27])) | ((int)SWAP_NIBBLES(msg[26])) << 8) & 0x0FFF`.  The mask
keeps the low 12 bits, which do not depend on the width of `int`. -/
def cycle_count (msg : List Nat) : Nat :=
  (SWAP_NIBBLES (msg.getD 27 0) ||| (SWAP_NIBBLES (msg.getD 26 0) <<< 8)) &&& 0x0FFF

/-- The record as `resetCycleCount` encodes a count into it (`makita_unlock.cpp:305-312`)
when the `int` `new_cycles` is not negative; `resetCycleCount_typed` starts from the
typed digits and covers every value of the `int`. -/
def resetCycleCount_encode (msg : List Nat) (new_cycles : Nat) : List Nat :=
  let new_cycles := if new_cycles > 4095 then 4095 else new_cycles
  let msg := msg.set 26 (SWAP_NIBBLES ((new_cycles >>> 8) &&& 0xFF) % 256)
  msg.set 27 (SWAP_NIBBLES (new_cycles &&& 0xFF) % 256)

/-- The call `atoi(buf)` of `resetCycleCount` (`makita_unlock.cpp:304`) on a buffer of
decimal digits whose value is `typed` (up to 7 digits are accepted, lines 295-296).  The
library function accumulates the digits in an `int` of `intBits` bits with no overflow
check, so the result is `typed` wrapped in two's complement. -/
def atoi (intBits : Nat) (typed : Nat) : Int :=
  intValue intBits (typed : Int)

/-- The record as `resetCycleCount` stores the typed number `typed` into it
(`makita_unlock.cpp:304-312`).  On an `int`, `>> 8` is the arithmetic shift and `& 0xFF`
the residue modulo 256. -/
def resetCycleCount_typed (intBits : Nat) (msg : List Nat) (typed : Nat) : List Nat :=
  let new_cycles : Int := atoi intBits typed
  let new_cycles := if new_cycles > 4095 then 4095 else new_cycles
  let msg := msg.set 26 (SWAP_NIBBLES (Int.toNat ((new_cycles >>> (8 : Nat)) % 256)) % 256)
  msg.set 27 (SWAP_NIBBLES (Int.toNat (new_cycles % 256)) % 256)

/-! ## Describing a history -/

/-- The bytes that the device returns on `n` successive calls of `makita.read()`. -/
def readValues (dev : Device) : Nat → History → List Nat
  | 0, _ => []
  | n + 1, h => (makita_read dev h).1 :: readValues dev n (makita_read dev h).2

/-- The history after `n` successive calls of `makita.read()`. -/
def afterReads (dev : Device) : Nat → History → History
  | 0, h => h
  | n + 1, h => afterReads dev n (makita_read dev h).2

/-- The history at the moment `cmd_and_read` starts to read the response, `hr` being the
history after the successful reset: settle delay, selector byte, the 8 ROM bytes in
ROM-read-first mode (selector `0x33`), command bytes. -/
def cmd_and_read_sent (dev : Device) (initial : Nat) (cmd : List Nat) (cmd_len : Nat)
    (hr : History) : History :=
  if initial = 0x33 then
    makita_write_bytes cmd cmd_len 0
      (afterReads dev 8 (makita_write initial (delayMicroseconds 310 hr)))
  else
    makita_write_bytes cmd cmd_len 0 (makita_write initial (delayMicroseconds 310 hr))

/-- The history after `k + 1` reset pulses without answer, 500 ms apart. -/
def failedResets : Nat → History → History
  | 0, h => Event.reset false :: h
  | k + 1, h => failedResets k (delay 500 (Event.reset false :: h))

/-- The response buffer of `bl36_voltages` after its block read
`cmd_and_read(0xd4, rsp, 0, rsp, 20)`: bytes 0..19 are the 20-byte block. -/
def bl36_block (dev : Device) (h : History) : List Nat :=
  (cmd_and_read dev 0xd4 (memset (List.replicate 64 0) 0 64) 0
    (memset (List.replicate 64 0) 0 64) 20 (bl36_testmode dev h).2).2.1

/-- The history at the moment `readAllBatteryData` calls `get_voltage_info`, on the path
where the ROM and record read has succeeded (`makita_data.cpp:275-280`). -/
def readAll_voltage_start (dev : Device) (h : History) : History :=
  let t := try_charger dev (memset (List.replicate 48 0) 0 48) (warmup_battery dev h)
  let h := delay 100 (makita_reset dev t.2.2).2
  let h := delay 50 (cell_temperature dev h).2
  delay 50 (cell_temperature dev h).2

/-- Cell `j` of a 20-byte block as `bl36_voltages` decodes it. -/
def bl36_cell (rsp : List Nat) (j : Nat) : ℚ :=
  code_to_voltage_u16 (rsp.getD (j * 2) 0 ||| (rsp.getD (j * 2 + 1) 0 <<< 8))

/-- The raw response byte `rsp[0]` that `overdischarge` decides on. -/
def overdischarge_raw (dev : Device) (h : History) : Nat :=
  (cmd_and_read_cc dev [0xD4, 0xBA, 0x00, 0x01] 4 (memset (List.replicate 4 0) 0 4) 2 h).2.1.getD
    0 0

/-- The response buffer of a temperature query: `cmd_and_read_cc(cmd_params, 4, rsp, 3)`
on the zeroed 4-byte `rsp` (`makita_data.cpp:89-92` and `98-101`). -/
def temperature_rsp (dev : Device) (cmd : List Nat) (h : History) : Bool × List Nat × History :=
  cmd_and_read_cc dev cmd 4 (memset (List.replicate 4 0) 0 4) 3 h

/-- The end of `get_voltage_info` (`makita_data.cpp:159-177`): the output vector written
from the five reported cell voltages and the two temperatures. -/
def voltage_vector (output : List ℚ) (v_cell1 v_cell2 v_cell3 v_cell4 v_cell5 t_cell
    t_mosfet : ℚ) : List ℚ :=
  let max_v := v_cell1
  let min_v := v_cell1
  let max_v := if v_cell2 > max_v then v_cell2 else max_v
  let max_v := if v_cell3 > max_v then v_cell3 else max_v
  let max_v := if v_cell4 > max_v then v_cell4 else max_v
  let max_v := if v_cell5 > max_v then v_cell5 else max_v
  let min_v := if v_cell2 < min_v then v_cell2 else min_v
  let min_v := if v_cell3 < min_v then v_cell3 else min_v
  let min_v := if v_cell4 < min_v then v_cell4 else min_v
  let min_v := if v_cell5 < min_v then v_cell5 else min_v
  let output := output.set 0 v_cell1
  let output := output.set 1 v_cell2
  let output := output.set 2 v_cell3
  let output := output.set 3 v_cell4
  let output := output.set 4 v_cell5
  let output := output.set 5 (max_v - min_v)
  let output := output.set 6 (v_cell1 + v_cell2 + v_cell3 + v_cell4 + v_cell5)
  let output := output.set 7 t_cell
  let output := output.set 8 t_mosfet
  output

/-- Whether `get_voltage_info` halves the five cell voltages (`makita_data.cpp:150-151`). -/
def cells_doubled (intBits : Nat) (data : List Nat) : Prop :=
  cell_volts intBits data 2 > 5 ∨ cell_volts intBits data 4 > 5 ∨
    cell_volts intBits data 6 > 5 ∨ cell_volts intBits data 8 > 5 ∨
    cell_volts intBits data 10 > 5

instance (intBits : Nat) (data : List Nat) : Decidable (cells_doubled intBits data) := by
  unfold cells_doubled; infer_instance

/-- Cell `k` (0..4) as `get_voltage_info` reports it (`makita_data.cpp:143-157`). -/
def reported_cell (intBits : Nat) (data : List Nat) (k : Nat) : ℚ :=
  if cells_doubled intBits data then cell_volts intBits data (2 * k + 2) / 2
  else cell_volts intBits data (2 * k + 2)

/-- The number of commands in the inner loop of Phase 1 of `unlockBattery` with `n`
repetitions left for which `cmd_and_read_33` returns false (the results that
`testmode_cmd` and `send_da_cmd` drop). -/
def unlock_phase1_unanswered (dev : Device) : Nat → List Nat → History → Nat
  | 0, _, _ => 0
  | n + 1, g_buf, h =>
    let a := cmd_and_read_33 dev [0xD9, 0x96, 0xA5] 3 g_buf 29
      (Event.note Note.testmode :: delay 200 h)
    let t := testmode_cmd dev g_buf (delay 200 h)
    let b := cmd_and_read_33 dev [0xDA, 0x04] 2 t.1 9 (Event.note (Note.da 0x04) :: t.2)
    let e := reset_error_cmd dev t.1 t.2
    (if a.1 then 0 else 1) + (if b.1 then 0 else 1) + unlock_phase1_unanswered dev n e.1 e.2

/-- The number of attempts of `try_charger` with `n` attempts left for which
`charger_33_cmd` returns false. -/
def try_charger_failed (dev : Device) : Nat → List Nat → History → Nat
  | 0, _, _ => 0
  | n + 1, rsp, h =>
    if (charger_33_cmd dev rsp h).1 then 0
    else 1 + try_charger_failed dev n (charger_33_cmd dev rsp h).2.1
      (charger_33_cmd dev rsp h).2.2

/-! ## Counting in a history -/

/-- The number of times the command byte `0xF0` of the record read command
(`charger_33_cmd`) was written in a history. -/
def recordReadCount (h : History) : Nat :=
  h.count (Event.write 0xF0)

/-- The number of reset pulses in a history. -/
def resetCount (h : History) : Nat :=
  h.countP (fun e => match e with
    | Event.reset _ => true
    | _ => false)

/-- The number of bytes written to the bus in a history. -/
def writeCount (h : History) : Nat :=
  h.countP (fun e => match e with
    | Event.write _ => true
    | _ => false)

/-- The number of times the power was switched off in a history. -/
def powerOffCount (h : History) : Nat :=
  h.count (Event.enable false)

/-- The notes of a history, the most recent first. -/
def notes (h : History) : List Note :=
  h.filterMap (fun e => match e with
    | Event.note n => some n
    | _ => none)

/-! ## The notes of a run of `unlockBattery` -/

/-- The notes of one Phase 1 cycle before its lock check, the most recent first: five
repetitions of test mode then error reset, after the cycle mark. -/
def phase1CycleNotes : List Note :=
  (List.replicate 5 [Note.da 0x04, Note.testmode]).flatten ++ [Note.phase1Cycle]

/-- The notes of one Phase 2 write attempt before its lock check, the most recent first. -/
def phase2WriteNotes : List Note :=
  [Note.testmode, Note.eepromWrite, Note.phase2Write]

/-- The notes of one Phase 3 cycle before its lock check, the most recent first. -/
def phase3CycleNotes : List Note :=
  (List.replicate 10 [Note.da 0x04, Note.testmode]).flatten ++ [Note.phase3Cycle]

/-- The notes of `k` rounds `c` that each ended with a lock check reporting locked. -/
def lockedRounds (c : List Note) (k : Nat) : List Note :=
  (List.replicate k (Note.lockCheck true :: c)).flatten

/-- The notes of a run of `unlockBattery` that went through `k1` Phase 1 cycles, `k2`
Phase 2 writes and `k3` Phase 3 cycles, the most recent first: every lock check reported
locked, except the last one when the run ended with success. -/
def unlockNotes (success : Bool) (k1 k2 k3 : Nat) : List Note :=
  if success then
    Note.unlocked :: Note.lockCheck false ::
      (lockedRounds phase3CycleNotes k3 ++ lockedRounds phase2WriteNotes k2 ++
        lockedRounds phase1CycleNotes k1).tail
  else
    Note.unlockFailed ::
      (lockedRounds phase3CycleNotes k3 ++ lockedRounds phase2WriteNotes k2 ++
        lockedRounds phase1CycleNotes k1)

/-- The numbers of rounds a run of `unlockBattery` can go through: success in one of the
up to 5 Phase 1 cycles; or 5 cycles and success in one of the up to 3 Phase 2 writes; or 5
cycles, 3 writes (0 when the Phase 2 read failed) and success in one of the up to 3
Phase 3 cycles; or failure after 5 cycles, 3 or 0 writes and 3 cycles. -/
def unlockValid (success : Bool) (k1 k2 k3 : Nat) : Bool :=
  if success then
    (decide (1 ≤ k1) && decide (k1 ≤ 5) && decide (k2 = 0) && decide (k3 = 0)) ||
    (decide (k1 = 5) && decide (1 ≤ k2) && decide (k2 ≤ 3) && decide (k3 = 0)) ||
    (decide (k1 = 5) && (decide (k2 = 0) || decide (k2 = 3)) && decide (1 ≤ k3) &&
      decide (k3 ≤ 3))
  else
    decide (k1 = 5) && (decide (k2 = 0) || decide (k2 = 3)) && decide (k3 = 3)

/-! ## Scripted devices -/

/-- The number of bytes read so far in a history. -/
def readCount (h : History) : Nat :=
  h.countP (fun e => match e with
    | Event.read _ => true
    | _ => false)

/-- A device that answers every reset pulse and returns the bytes of `script` one after
the other, then `0xFF` for ever. -/
def scriptedDevice (script : List Nat) : Device where
  present := fun _ => true
  answer := fun h => script.getD (readCount h) 0xFF

/-- A device that never answers a reset pulse; its data line reads `0xFF`. -/
def absentDevice : Device where
  present := fun _ => false
  answer := fun _ => 0xFF

/-- An 8-byte ROM id. -/
def sampleRom : List Nat := [0x51, 0x0A, 0x11, 0x45, 0x01, 0x00, 0x00, 0xC2]

/-- A record with error nibble 1 and valid checksums. -/
def lockedRecord : List Nat :=
  (List.replicate 20 0 ++ [0x01, 0x10]) ++ List.replicate 10 0

/-- A record with error nibble 0 and valid checksums. -/
def unlockedRecord : List Nat := List.replicate 32 0

/-- The record `unlockedRecord` with its checksum byte 21 corrupted. -/
def corruptedRecord : List Nat :=
  (List.replicate 21 0 ++ [0x01]) ++ List.replicate 10 0

/-- A 20-byte block of ten cells with raw code `0x2E8C = 11916` each. -/
def tenCellBlock : List Nat :=
  [0x8C, 0x2E, 0x8C, 0x2E, 0x8C, 0x2E, 0x8C, 0x2E, 0x8C, 0x2E,
   0x8C, 0x2E, 0x8C, 0x2E, 0x8C, 0x2E, 0x8C, 0x2E, 0x8C, 0x2E]

/-- A 10-cell pack: it answers the warm-up reads, serves its ROM id and record, answers
the two discarded temperature reads, returns `0xFF` to the 5-cell data request and to the
legacy cell queries, and then serves `tenCellBlock`. -/
def tenCellDevice : Device :=
  scriptedDevice (List.replicate 9 0 ++ sampleRom ++ unlockedRecord ++ List.replicate 6 0
    ++ List.replicate 41 0xFF ++ tenCellBlock)

/-- A 29-byte answer to the data request of a 5-cell pack: cells of 4000, 4010, 4020,
4030 and 4040 mV. -/
def fiveCellData : List Nat :=
  [0x00, 0x00, 0xA0, 0x0F, 0xAA, 0x0F, 0xB4, 0x0F, 0xBE, 0x0F, 0xC8, 0x0F] ++
    List.replicate 17 0

/-- A 5-cell pack: it answers the warm-up reads, serves its ROM id and record, answers
the two discarded temperature reads, serves `fiveCellData` and two temperatures
(2981 = 298.1 K). -/
def fiveCellDevice : Device :=
  scriptedDevice (List.replicate 9 0 ++ sampleRom ++ unlockedRecord ++ List.replicate 6 0
    ++ fiveCellData ++ [0xA5, 0x0B, 0x00, 0xA5, 0x0B, 0x00])

/-- The history at which `readAllBatteryData` calls `bl36_voltages` on `tenCellDevice`. -/
def tenCellDecodeStart : History :=
  (get_voltage_info 16 tenCellDevice (List.replicate 9 0)
    (readAll_voltage_start tenCellDevice [])).2.2

/-- A device that answers every command of the first Phase 1 cycle of `unlockBattery`
(270 bytes that are not `0xFF`) and then serves a ROM id and an unlocked record. -/
def answeringDevice : Device :=
  scriptedDevice (List.replicate 270 0 ++ sampleRom ++ unlockedRecord)

/-- A device that returns `0xFF` to every command of the first Phase 1 cycle of
`unlockBattery` (270 bytes) and then serves a ROM id and an unlocked record. -/
def unansweredDevice : Device :=
  scriptedDevice (List.replicate 270 0xFF ++ sampleRom ++ unlockedRecord)

/-- A legacy-family device: its reply to the legacy identification command is `0x12 0x34`. -/
def legacyDevice : Device :=
  scriptedDevice [0x12, 0x34]

/-- A 10-cell pack whose 20-byte block is all zero: every raw code is 0. -/
def zeroBlockDevice : Device :=
  scriptedDevice (List.replicate 20 0)

/-- A data block of `get_voltage_info` (its first 12 bytes): cell 1 is 3600 (`0x0E10`),
cell 2 is `0x8000`, cells 3 to 5 are 3600. -/
def wideCellData : List Nat :=
  [0x00, 0x00, 0x10, 0x0E, 0x00, 0x80, 0x10, 0x0E, 0x10, 0x0E, 0x10, 0x0E]

/-- A 10-cell pack whose first cell has the block bytes `lo`, `hi` and whose other cells
have the bytes 0, 0. -/
def pairDevice (lo hi : Nat) : Device :=
  scriptedDevice ([lo, hi] ++ List.replicate 18 0)

/-- A 5-cell pack that answers the data request with `wideCellData` (29 bytes) and both
temperature queries with 2981 (298.1 K). -/
def wideCellDevice : Device :=
  scriptedDevice (wideCellData ++ List.replicate 17 0 ++ [0xA5, 0x0B, 0x00, 0xA5, 0x0B, 0x00])

/-! ## Records -/

/-- A 32-byte record: a buffer of exactly 32 bytes. -/
def IsRecord (r : List Nat) : Prop :=
  r.length = 32 ∧ ∀ b ∈ r, b < 256

instance (r : List Nat) : Decidable (IsRecord r) := by
  unfold IsRecord; infer_instance

/-- The sum of both nibbles of the bytes `a..b` of a buffer, `S(a..b)`. -/
def nybbleSum (msg : List Nat) (a b : Nat) : Nat :=
  ((List.range' a (b + 1 - a)).map (fun i => msg.getD i 0 % 16 + msg.getD i 0 / 16)).sum

/-- Nybble `k` (0..63) of a buffer: nybble `2 i` is the low nibble of byte `i` and nybble
`2 i + 1` its high nibble, so that nybbles 0..40 and 44..61 are the data nybbles that the
five checksums cover and 41..43, 62 and 63 are the checksum nybbles. -/
def nybble (msg : List Nat) (k : Nat) : Nat :=
  if k % 2 = 0 then msg.getD (k / 2) 0 % 16 else msg.getD (k / 2) 0 / 16

/-! ## Concrete records -/

/-- A locked record (error nibble 3) with stale checksum bytes 21 and 31. -/
def sampleRecord : List Nat :=
  [0xF1, 0x26, 0xBD, 0x13, 0x14, 0x58, 0x00, 0x00,
   0x94, 0x94, 0x40, 0x21, 0xD0, 0x80, 0x02, 0x4E,
   0x05, 0x01, 0xA0, 0x00, 0x03, 0x00, 0x00, 0x0D,
   0x16, 0xD0, 0x00, 0x32, 0x00, 0x00, 0x00, 0x00]

/-- The record `sampleRecord` with its five checksum nibbles recomputed. -/
def sampleRecordValid : List Nat :=
  [0xF1, 0x26, 0xBD, 0x13, 0x14, 0x58, 0x00, 0x00,
   0x94, 0x94, 0x40, 0x21, 0xD0, 0x80, 0x02, 0x4E,
   0x05, 0x01, 0xA0, 0x00, 0x63, 0x3A, 0x00, 0x0D,
   0x16, 0xD0, 0x00, 0x32, 0x00, 0x00, 0x00, 0x9D]

/-- A record with error nibble `0xF` whose three primary checksums are all `0xF`:
bytes 0 and 8 are `0x0F`, byte 20 is `0x0F`, every other byte is 0. -/
def sentinelRecord : List Nat :=
  [0x0F, 0x00, 0x00, 0x00, 0x00, 0x00, 0x00, 0x00,
   0x0F, 0x00, 0x00, 0x00, 0x00, 0x00, 0x00, 0x00,
   0x00, 0x00, 0x00, 0x00, 0x0F, 0x00, 0x00, 0x00,
   0x00, 0x00, 0x00, 0x00, 0x00, 0x00, 0x00, 0x00]

/-- The record `sampleRecordValid` with nybble 0 (the low nibble of byte 0) changed from 1
to 2. -/
def tamperedRecord : List Nat :=
  [0xF2, 0x26, 0xBD, 0x13, 0x14, 0x58, 0x00, 0x00,
   0x94, 0x94, 0x40, 0x21, 0xD0, 0x80, 0x02, 0x4E,
   0x05, 0x01, 0xA0, 0x00, 0x63, 0x3A, 0x00, 0x0D,
   0x16, 0xD0, 0x00, 0x32, 0x00, 0x00, 0x00, 0x9D]

end Makita

namespace Makita

/-! ## Nibble arithmetic -/

theorem and15 (x : Nat) : x &&& 0x0F = x % 16 :=
  Nat.and_pow_two_sub_one_eq_mod x 4

theorem shr4 (x : Nat) : x >>> 4 = x / 16 :=
  Nat.shiftRight_eq_div_pow x 4

set_option maxRecDepth 100000 in
theorem pack_table : ∀ lo, lo < 16 → ∀ hi, hi < 16 →
    ((lo &&& 0x0F) ||| (hi <<< 4)) % 256 = lo + 16 * hi := by
  decide

theorem pack_eq {lo hi : Nat} (hlo : lo < 16) (hhi : hi < 16) :
    ((lo &&& 0x0F) ||| (hi <<< 4)) % 256 = lo + 16 * hi :=
  pack_table lo hlo hi hhi

theorem pack_lo (x hi : Nat) (hhi : hi < 16) :
    ((x &&& 0x0F) ||| (hi <<< 4)) % 256 = x % 16 + 16 * hi := by
  have h := pack_eq (Nat.mod_lt x (by decide : 0 < 16)) hhi
  rw [and15 (x % 16), Nat.mod_mod] at h
  rw [and15 x]
  exact h

set_option maxRecDepth 100000 in
theorem swap_table : ∀ b, b < 256 →
    SWAP_NIBBLES (SWAP_NIBBLES b) = b ∧ SWAP_NIBBLES b < 256 ∧
      SWAP_NIBBLES b = 16 * (b % 16) + b / 16 := by
  decide

set_option maxRecDepth 100000 in
theorem clear_table : ∀ b, b < 256 → (b &&& 0xF0) % 256 = 16 * (b / 16) := by
  decide

/-! ## Buffers -/

theorem getD_set (l : List Nat) (i j v : Nat) :
    (l.set i v).getD j 0 = if i = j ∧ j < l.length then v else l.getD j 0 := by
  simp only [List.getD_eq_getElem?_getD, List.getElem?_set]
  by_cases hij : i = j
  · subst hij
    by_cases hl : i < l.length
    · simp [hl]
    · simp [hl, List.getElem?_eq_none (Nat.le_of_not_lt hl)]
  · simp [hij]

theorem getD_set_ne (l : List Nat) {i j : Nat} (v : Nat) (h : i ≠ j) :
    (l.set i v).getD j 0 = l.getD j 0 := by
  simp [getD_set, h]

theorem getD_set_self (l : List Nat) {i : Nat} (v : Nat) (h : i < l.length) :
    (l.set i v).getD i 0 = v := by
  simp [getD_set, h]

theorem ext_getD {l1 l2 : List Nat} (hlen : l1.length = l2.length)
    (h : ∀ i, i < l1.length → l1.getD i 0 = l2.getD i 0) : l1 = l2 := by
  apply List.ext_getElem hlen
  intro n h1 h2
  have := h n h1
  rwa [List.getD_eq_getElem _ _ h1, List.getD_eq_getElem _ _ h2] at this

theorem getD_lt_of_bytes {l : List Nat} (hb : ∀ b ∈ l, b < 256) (i : Nat) :
    l.getD i 0 < 256 := by
  by_cases hi : i < l.length
  · rw [List.getD_eq_getElem _ _ hi]
    exact hb _ (List.getElem_mem hi)
  · rw [List.getD_eq_default _ _ (Nat.le_of_not_lt hi)]
    decide

theorem bytes_set {l : List Nat} (hb : ∀ b ∈ l, b < 256) (i : Nat) {v : Nat} (hv : v < 256) :
    ∀ b ∈ l.set i v, b < 256 := by
  intro b hmem
  rcases List.mem_or_eq_of_mem_set hmem with h | h
  · exact hb b h
  · exact h ▸ hv

/-! ## The nybble sum -/

theorem foldl_add_eq_sum (f : Nat → Nat) (l : List Nat) (init : Nat) :
    l.foldl (fun s i => s + f i) init = init + (l.map f).sum := by
  induction l generalizing init with
  | nil => simp
  | cons x xs ih => simp [List.foldl_cons, ih, Nat.add_assoc]

theorem calcNybbleSum_full (msg : List Nat) (a b : Nat) :
    calcNybbleSum msg a b false = min (nybbleSum msg a b) 255 % 16 := by
  unfold calcNybbleSum nybbleSum
  simp only [Bool.false_eq_true, if_false, and15, shr4]
  rw [foldl_add_eq_sum (fun i => msg.getD i 0 % 16 + msg.getD i 0 / 16)]
  simp only [Nat.zero_add]
  split <;> omega

theorem calcNybbleSum_low (msg : List Nat) (a b : Nat) :
    calcNybbleSum msg a (b + 1) true =
      min (nybbleSum msg a b + msg.getD (b + 1) 0 % 16) 255 % 16 := by
  unfold calcNybbleSum nybbleSum
  simp only [if_true, and15, shr4]
  rw [foldl_add_eq_sum (fun i => msg.getD i 0 % 16 + msg.getD i 0 / 16)]
  simp only [Nat.zero_add]
  split <;> omega

theorem calcNybbleSum_lt (msg : List Nat) (a b : Nat) (l : Bool) :
    calcNybbleSum msg a b l < 16 := by
  unfold calcNybbleSum
  simp only [and15]
  omega

theorem nybbleSum_congr {m1 m2 : List Nat} {a b : Nat}
    (h : ∀ i, a ≤ i → i ≤ b → m1.getD i 0 = m2.getD i 0) :
    nybbleSum m1 a b = nybbleSum m2 a b := by
  unfold nybbleSum
  congr 1
  apply List.map_congr_left
  intro i hi
  rw [List.mem_range'_1] at hi
  rw [h i hi.1 (by omega)]

theorem calcNybbleSum_congr {m1 m2 : List Nat} {a b : Nat}
    (h : ∀ i, a ≤ i → i ≤ b → m1.getD i 0 = m2.getD i 0) :
    calcNybbleSum m1 a b false = calcNybbleSum m2 a b false := by
  rw [calcNybbleSum_full, calcNybbleSum_full, nybbleSum_congr h]

theorem calcNybbleSum_low_congr {m1 m2 : List Nat} {a b : Nat}
    (h : ∀ i, a ≤ i → i ≤ b → m1.getD i 0 = m2.getD i 0)
    (hlow : m1.getD (b + 1) 0 % 16 = m2.getD (b + 1) 0 % 16) :
    calcNybbleSum m1 a (b + 1) true = calcNybbleSum m2 a (b + 1) true := by
  rw [calcNybbleSum_low, calcNybbleSum_low, nybbleSum_congr h, hlow]

/-! ## What `recalcMsgChecksums` and `verifyMsgChecksums` compute -/

theorem calc_set_20_21 (r : List Nat) (x y a b : Nat) (ha : 22 ≤ a) :
    calcNybbleSum ((r.set 20 x).set 21 y) a b false = calcNybbleSum r a b false :=
  calcNybbleSum_congr (fun i h1 _ => by
    rw [getD_set_ne _ _ (by omega), getD_set_ne _ _ (by omega)])

theorem recalc_eq (r : List Nat) :
    recalcMsgChecksums r =
      ((r.set 20 (r.getD 20 0 % 16 + 16 * calcNybbleSum r 0 7 false)).set 21
        (calcNybbleSum r 8 15 false + 16 * calcNybbleSum r 16 20 true)).set 31
        (calcNybbleSum r 22 23 false + 16 * calcNybbleSum r 24 30 false) := by
  simp only [recalcMsgChecksums]
  rw [calc_set_20_21 r _ _ 22 23 (by omega), calc_set_20_21 r _ _ 24 30 (by omega),
    pack_lo _ _ (calcNybbleSum_lt r 0 7 false),
    pack_eq (calcNybbleSum_lt r 8 15 false) (calcNybbleSum_lt r 16 20 true),
    pack_eq (calcNybbleSum_lt r 22 23 false) (calcNybbleSum_lt r 24 30 false)]

theorem recalc_length (r : List Nat) : (recalcMsgChecksums r).length = r.length := by
  rw [recalc_eq]
  simp

theorem recalc_getD (r : List Nat) (hlen : r.length = 32) (j : Nat) :
    (recalcMsgChecksums r).getD j 0 =
      if j = 20 then r.getD 20 0 % 16 + 16 * calcNybbleSum r 0 7 false
      else if j = 21 then calcNybbleSum r 8 15 false + 16 * calcNybbleSum r 16 20 true
      else if j = 31 then calcNybbleSum r 22 23 false + 16 * calcNybbleSum r 24 30 false
      else r.getD j 0 := by
  rw [recalc_eq, getD_set, getD_set, getD_set]
  simp only [List.length_set, hlen]
  by_cases h31 : j = 31
  · subst h31; simp
  · by_cases h21 : j = 21
    · subst h21; simp
    · by_cases h20 : j = 20
      · subst h20; simp
      · simp [h31, h21, h20, Ne.symm h31, Ne.symm h21, Ne.symm h20]

theorem recalc_getD_other (r : List Nat) {j : Nat} (h20 : j ≠ 20) (h21 : j ≠ 21)
    (h31 : j ≠ 31) : (recalcMsgChecksums r).getD j 0 = r.getD j 0 := by
  rw [recalc_eq, getD_set_ne _ _ (Ne.symm h31), getD_set_ne _ _ (Ne.symm h21),
    getD_set_ne _ _ (Ne.symm h20)]

theorem recalc_low20 (r : List Nat) (hlen : r.length = 32) :
    (recalcMsgChecksums r).getD 20 0 % 16 = r.getD 20 0 % 16 := by
  rw [recalc_getD r hlen]
  simp only [if_true]
  omega

theorem recalc_bytes {r : List Nat} (hb : ∀ b ∈ r, b < 256) :
    ∀ b ∈ recalcMsgChecksums r, b < 256 := by
  rw [recalc_eq]
  have h1 := calcNybbleSum_lt r 0 7 false
  have h2 := calcNybbleSum_lt r 8 15 false
  have h3 := calcNybbleSum_lt r 16 20 true
  have h4 := calcNybbleSum_lt r 22 23 false
  have h5 := calcNybbleSum_lt r 24 30 false
  exact bytes_set (bytes_set (bytes_set hb 20 (by omega)) 21 (by omega)) 31 (by omega)

theorem recalc_isRecord {r : List Nat} (h : IsRecord r) : IsRecord (recalcMsgChecksums r) :=
  ⟨(recalc_length r).trans h.1, recalc_bytes h.2⟩

/-- The five checksums of a recomputed record are those of the record. -/
theorem calc_recalc (r : List Nat) (hlen : r.length = 32) :
    calcNybbleSum (recalcMsgChecksums r) 0 7 false = calcNybbleSum r 0 7 false ∧
    calcNybbleSum (recalcMsgChecksums r) 8 15 false = calcNybbleSum r 8 15 false ∧
    calcNybbleSum (recalcMsgChecksums r) 16 20 true = calcNybbleSum r 16 20 true ∧
    calcNybbleSum (recalcMsgChecksums r) 22 23 false = calcNybbleSum r 22 23 false ∧
    calcNybbleSum (recalcMsgChecksums r) 24 30 false = calcNybbleSum r 24 30 false := by
  refine ⟨?_, ?_, ?_, ?_, ?_⟩
  · exact calcNybbleSum_congr (fun i _ h2 =>
      recalc_getD_other r (by omega) (by omega) (by omega))
  · exact calcNybbleSum_congr (fun i _ h2 =>
      recalc_getD_other r (by omega) (by omega) (by omega))
  · exact calcNybbleSum_low_congr (fun i _ h2 =>
      recalc_getD_other r (by omega) (by omega) (by omega)) (recalc_low20 r hlen)
  · exact calcNybbleSum_congr (fun i h1 h2 =>
      recalc_getD_other r (by omega) (by omega) (by omega))
  · exact calcNybbleSum_congr (fun i h1 h2 =>
      recalc_getD_other r (by omega) (by omega) (by omega))

/-- The test of `verifyMsgChecksums`, nibble by nibble. -/
theorem verify_iff (r : List Nat) :
    verifyMsgChecksums r = true ↔
      ¬(r.getD 20 0 = 0xFF ∧ r.getD 21 0 = 0xFF) ∧
      calcNybbleSum r 0 7 false = r.getD 20 0 / 16 ∧
      calcNybbleSum r 8 15 false = r.getD 21 0 % 16 ∧
      calcNybbleSum r 16 20 true = r.getD 21 0 / 16 ∧
      calcNybbleSum r 22 23 false = r.getD 31 0 % 16 ∧
      calcNybbleSum r 24 30 false = r.getD 31 0 / 16 := by
  unfold verifyMsgChecksums
  split
  · rename_i h
    constructor
    · intro hf
      exact absurd hf (by decide)
    · intro hf
      exact absurd h hf.1
  · rename_i h
    simp only [and15, shr4, Bool.and_eq_true, decide_eq_true_eq]
    tauto

/-- A record is a fixed point of the recomputation exactly when its five stored checksum
nibbles are the recomputed ones. -/
theorem recalc_fixed_iff (r : List Nat) (hlen : r.length = 32) :
    recalcMsgChecksums r = r ↔
      (calcNybbleSum r 0 7 false = r.getD 20 0 / 16 ∧
      calcNybbleSum r 8 15 false = r.getD 21 0 % 16 ∧
      calcNybbleSum r 16 20 true = r.getD 21 0 / 16 ∧
      calcNybbleSum r 22 23 false = r.getD 31 0 % 16 ∧
      calcNybbleSum r 24 30 false = r.getD 31 0 / 16) := by
  have h1 := calcNybbleSum_lt r 0 7 false
  have h2 := calcNybbleSum_lt r 8 15 false
  have h3 := calcNybbleSum_lt r 16 20 true
  have h4 := calcNybbleSum_lt r 22 23 false
  have h5 := calcNybbleSum_lt r 24 30 false
  constructor
  · intro h
    have e20 := recalc_getD r hlen 20
    have e21 := recalc_getD r hlen 21
    have e31 := recalc_getD r hlen 31
    rw [h] at e20 e21 e31
    simp only [if_true, if_false, show (21 : Nat) ≠ 20 by decide,
      show (31 : Nat) ≠ 20 by decide, show (31 : Nat) ≠ 21 by decide] at e20 e21 e31
    omega
  · intro h
    apply ext_getD (recalc_length r)
    intro i _
    rw [recalc_getD r hlen]
    split
    · rename_i hi; subst hi; omega
    · split
      · rename_i hi; subst hi; omega
      · split
        · rename_i hi; subst hi; omega
        · rfl

theorem recalc_recalc (r : List Nat) (hlen : r.length = 32) :
    recalcMsgChecksums (recalcMsgChecksums r) = recalcMsgChecksums r := by
  rw [recalc_fixed_iff _ ((recalc_length r).trans hlen)]
  obtain ⟨c1, c2, c3, c4, c5⟩ := calc_recalc r hlen
  have e20 := recalc_getD r hlen 20
  have e21 := recalc_getD r hlen 21
  have e31 := recalc_getD r hlen 31
  simp only [if_true, if_false, show (21 : Nat) ≠ 20 by decide,
    show (31 : Nat) ≠ 20 by decide, show (31 : Nat) ≠ 21 by decide] at e20 e21 e31
  have h1 := calcNybbleSum_lt r 0 7 false
  have h2 := calcNybbleSum_lt r 8 15 false
  have h3 := calcNybbleSum_lt r 16 20 true
  have h4 := calcNybbleSum_lt r 22 23 false
  have h5 := calcNybbleSum_lt r 24 30 false
  rw [c1, c2, c3, c4, c5, e20, e21, e31]
  omega

theorem verify_recalc (r : List Nat) (hlen : r.length = 32) :
    verifyMsgChecksums (recalcMsgChecksums r) = true ↔
      ¬((recalcMsgChecksums r).getD 20 0 = 0xFF ∧
        (recalcMsgChecksums r).getD 21 0 = 0xFF) := by
  have hfix := recalc_recalc r hlen
  rw [recalc_fixed_iff _ ((recalc_length r).trans hlen)] at hfix
  rw [verify_iff]
  exact ⟨fun hv => hv.1, fun hs => ⟨hs, hfix⟩⟩

theorem verify_recalc_of_low (r : List Nat) (hlen : r.length = 32)
    (herr : r.getD 20 0 % 16 ≠ 15) : verifyMsgChecksums (recalcMsgChecksums r) = true := by
  rw [verify_recalc r hlen]
  intro hs
  have hlow := recalc_low20 r hlen
  rw [hs.1] at hlow
  omega

/-! ## Checksum engine: the claims -/

/-- C1: for every 32-byte record `r`, applying `recalcMsgChecksums` twice gives the same
32 bytes as applying it once. -/
theorem recalcMsgChecksums_idempotent (r : List Nat) (h : IsRecord r) :
    recalcMsgChecksums (recalcMsgChecksums r) = recalcMsgChecksums r :=
  recalc_recalc r h.1

/-- Witness of C1 on a concrete record whose checksum bytes are stale. -/
theorem recalcMsgChecksums_idempotent_witness :
    IsRecord sampleRecord ∧ recalcMsgChecksums sampleRecord ≠ sampleRecord ∧
      recalcMsgChecksums (recalcMsgChecksums sampleRecord) =
        recalcMsgChecksums sampleRecord :=
  ⟨by decide, by decide, recalcMsgChecksums_idempotent sampleRecord (by decide)⟩

/-- C2, as stated, fails: `sentinelRecord` is a 32-byte record whose bytes 20 and 21
are `0x0F` and `0x00` (not both `0xFF`), yet its recomputed checksums turn bytes 20 and
21 into `0xFF 0xFF`, which `verifyMsgChecksums` rejects outright. -/
theorem verify_recalc_counterexample :
    IsRecord sentinelRecord ∧
      ¬(sentinelRecord.getD 20 0 = 0xFF ∧ sentinelRecord.getD 21 0 = 0xFF) ∧
      (recalcMsgChecksums sentinelRecord).getD 20 0 = 0xFF ∧
      (recalcMsgChecksums sentinelRecord).getD 21 0 = 0xFF ∧
      verifyMsgChecksums (recalcMsgChecksums sentinelRecord) = false := by
  decide

/-- C2 (amended): for every 32-byte record `r`, `verifyMsgChecksums (recalcMsgChecksums r)`
is true exactly when the recomputed record does not carry the sentinel pair (its bytes
20 and 21 are not both `0xFF`); this is the case whenever the error nibble of `r` is not
`0xF`. -/
theorem verify_recalc_iff (r : List Nat) (h : IsRecord r) :
    (verifyMsgChecksums (recalcMsgChecksums r) = true ↔
      ¬((recalcMsgChecksums r).getD 20 0 = 0xFF ∧ (recalcMsgChecksums r).getD 21 0 = 0xFF)) ∧
    (r.getD 20 0 &&& 0x0F ≠ 0x0F → verifyMsgChecksums (recalcMsgChecksums r) = true) := by
  refine ⟨verify_recalc r h.1, fun herr => verify_recalc_of_low r h.1 ?_⟩
  rw [and15] at herr
  exact herr

/-- Witness of C2 (amended) on a concrete record with error nibble 3. -/
theorem verify_recalc_iff_witness :
    IsRecord sampleRecord ∧ sampleRecord.getD 20 0 &&& 0x0F ≠ 0x0F ∧
      verifyMsgChecksums (recalcMsgChecksums sampleRecord) = true :=
  ⟨by decide, by decide, (verify_recalc_iff sampleRecord (by decide)).2 (by decide)⟩

/-- C3: for every 32-byte record `r`, `verifyMsgChecksums r` is true if and only if bytes
20 and 21 are not both `0xFF` and `recalcMsgChecksums` leaves `r` unchanged; and `r` is
left unchanged exactly when its five stored checksum nibbles equal their recomputation. -/
theorem verify_iff_unchanged (r : List Nat) (h : IsRecord r) :
    (verifyMsgChecksums r = true ↔
      (¬(r.getD 20 0 = 0xFF ∧ r.getD 21 0 = 0xFF) ∧ recalcMsgChecksums r = r)) ∧
    (recalcMsgChecksums r = r ↔
      (r.getD 20 0 >>> 4 = calcNybbleSum r 0 7 false ∧
       r.getD 21 0 &&& 0x0F = calcNybbleSum r 8 15 false ∧
       r.getD 21 0 >>> 4 = calcNybbleSum r 16 20 true ∧
       r.getD 31 0 &&& 0x0F = calcNybbleSum r 22 23 false ∧
       r.getD 31 0 >>> 4 = calcNybbleSum r 24 30 false)) := by
  constructor
  · rw [verify_iff, recalc_fixed_iff r h.1]
  · rw [recalc_fixed_iff r h.1]
    simp only [and15, shr4]
    constructor
    · rintro ⟨a, b, c, d, e⟩
      exact ⟨a.symm, b.symm, c.symm, d.symm, e.symm⟩
    · rintro ⟨a, b, c, d, e⟩
      exact ⟨a.symm, b.symm, c.symm, d.symm, e.symm⟩

/-- Witness of C3: a concrete record that verifies and is a fixed point of the
recomputation. -/
theorem verify_iff_unchanged_witness :
    IsRecord sampleRecordValid ∧ verifyMsgChecksums sampleRecordValid = true ∧
      recalcMsgChecksums sampleRecordValid = sampleRecordValid :=
  ⟨by decide, by decide,
    ((verify_iff_unchanged sampleRecordValid (by decide)).1.mp (by decide)).2⟩

/-- C4: for every 32-byte record `r`, `recalcMsgChecksums r` is again a 32-byte record that
equals `r` outside bytes 20, 21 and 31; the low (error) nibble of byte 20 is kept; the
five checksum nibbles are `min(S, 255) & 0x0F` of the nybble sums of bytes 0..7, 8..15,
16..19 plus the low nibble of byte 20, 22..23 and 24..30.  Hence the primary checksums
are a function of bytes 0..19 and the low nibble of byte 20 only, and the secondary ones
of bytes 22..30 only. -/
theorem recalcMsgChecksums_spec (r : List Nat) (h : IsRecord r) :
    IsRecord (recalcMsgChecksums r) ∧
    (∀ i, i ≠ 20 → i ≠ 21 → i ≠ 31 → (recalcMsgChecksums r).getD i 0 = r.getD i 0) ∧
    (recalcMsgChecksums r).getD 20 0 &&& 0x0F = r.getD 20 0 &&& 0x0F ∧
    (recalcMsgChecksums r).getD 20 0 >>> 4 = min (nybbleSum r 0 7) 255 &&& 0x0F ∧
    (recalcMsgChecksums r).getD 21 0 &&& 0x0F = min (nybbleSum r 8 15) 255 &&& 0x0F ∧
    (recalcMsgChecksums r).getD 21 0 >>> 4 =
      min (nybbleSum r 16 19 + (r.getD 20 0 &&& 0x0F)) 255 &&& 0x0F ∧
    (recalcMsgChecksums r).getD 31 0 &&& 0x0F = min (nybbleSum r 22 23) 255 &&& 0x0F ∧
    (recalcMsgChecksums r).getD 31 0 >>> 4 = min (nybbleSum r 24 30) 255 &&& 0x0F ∧
    (∀ r2, IsRecord r2 → (∀ i, i < 20 → r2.getD i 0 = r.getD i 0) →
      r2.getD 20 0 &&& 0x0F = r.getD 20 0 &&& 0x0F →
      (recalcMsgChecksums r2).getD 20 0 >>> 4 = (recalcMsgChecksums r).getD 20 0 >>> 4 ∧
      (recalcMsgChecksums r2).getD 21 0 = (recalcMsgChecksums r).getD 21 0) ∧
    (∀ r2, IsRecord r2 → (∀ i, 22 ≤ i → i ≤ 30 → r2.getD i 0 = r.getD i 0) →
      (recalcMsgChecksums r2).getD 31 0 = (recalcMsgChecksums r).getD 31 0) := by
  have hlen := h.1
  have key : ∀ q : List Nat, q.length = 32 →
      (recalcMsgChecksums q).getD 20 0 = q.getD 20 0 % 16 + 16 * calcNybbleSum q 0 7 false ∧
      (recalcMsgChecksums q).getD 21 0 =
        calcNybbleSum q 8 15 false + 16 * calcNybbleSum q 16 20 true ∧
      (recalcMsgChecksums q).getD 31 0 =
        calcNybbleSum q 22 23 false + 16 * calcNybbleSum q 24 30 false := by
    intro q hq
    have e20 := recalc_getD q hq 20
    have e21 := recalc_getD q hq 21
    have e31 := recalc_getD q hq 31
    simp only [if_true, if_false, show (21 : Nat) ≠ 20 by decide,
      show (31 : Nat) ≠ 20 by decide, show (31 : Nat) ≠ 21 by decide] at e20 e21 e31
    exact ⟨e20, e21, e31⟩
  obtain ⟨e20, e21, e31⟩ := key r hlen
  have h1 := calcNybbleSum_lt r 0 7 false
  have h2 := calcNybbleSum_lt r 8 15 false
  have h3 := calcNybbleSum_lt r 16 20 true
  have h4 := calcNybbleSum_lt r 22 23 false
  have h5 := calcNybbleSum_lt r 24 30 false
  have f1 := calcNybbleSum_full r 0 7
  have f2 := calcNybbleSum_full r 8 15
  have f3 : calcNybbleSum r 16 20 true =
      min (nybbleSum r 16 19 + r.getD 20 0 % 16) 255 % 16 := calcNybbleSum_low r 16 19
  have f4 := calcNybbleSum_full r 22 23
  have f5 := calcNybbleSum_full r 24 30
  simp only [and15, shr4]
  refine ⟨recalc_isRecord h, fun i a b c => recalc_getD_other r a b c, by omega, by omega,
    by omega, by omega, by omega, by omega, ?_, ?_⟩
  · intro r2 hr2 hsame hlow
    obtain ⟨g20, g21, _⟩ := key r2 hr2.1
    have k1 := calcNybbleSum_lt r2 0 7 false
    have c1 : calcNybbleSum r2 0 7 false = calcNybbleSum r 0 7 false :=
      calcNybbleSum_congr (fun i _ hi => hsame i (by omega))
    have c2 : calcNybbleSum r2 8 15 false = calcNybbleSum r 8 15 false :=
      calcNybbleSum_congr (fun i _ hi => hsame i (by omega))
    have c3 : calcNybbleSum r2 16 20 true = calcNybbleSum r 16 20 true :=
      calcNybbleSum_low_congr (fun i _ hi => hsame i (by omega)) hlow
    rw [g20, g21, e20, e21, c1, c2, c3]
    omega
  · intro r2 hr2 hsame
    obtain ⟨_, _, g31⟩ := key r2 hr2.1
    have c4 : calcNybbleSum r2 22 23 false = calcNybbleSum r 22 23 false :=
      calcNybbleSum_congr (fun i hi1 hi2 => hsame i (by omega) (by omega))
    have c5 : calcNybbleSum r2 24 30 false = calcNybbleSum r 24 30 false :=
      calcNybbleSum_congr (fun i hi1 hi2 => hsame i (by omega) (by omega))
    rw [g31, e31, c4, c5]

/-- Witness of C4 on a concrete record: the recomputation of `sampleRecord` is
`sampleRecordValid`, which differs in bytes 20, 21 and 31 only. -/
theorem recalcMsgChecksums_spec_witness :
    IsRecord sampleRecord ∧ recalcMsgChecksums sampleRecord = sampleRecordValid ∧
      (recalcMsgChecksums sampleRecord).getD 20 0 >>> 4 =
        min (nybbleSum sampleRecord 0 7) 255 &&& 0x0F :=
  ⟨by decide, by decide, (recalcMsgChecksums_spec sampleRecord (by decide)).2.2.2.1⟩

theorem nybbleSum_replicate (n : Nat) (hn : 0 < n) :
    nybbleSum (List.replicate n 0xFF) 0 (n - 1) = 30 * n := by
  unfold nybbleSum
  have hcount : n - 1 + 1 - 0 = n := by omega
  rw [hcount]
  have hmap : (List.range' 0 n).map
      (fun i => (List.replicate n 0xFF).getD i 0 % 16 + (List.replicate n 0xFF).getD i 0 / 16)
      = (List.range' 0 n).map (fun _ => 30) := by
    apply List.map_congr_left
    intro i hi
    rw [List.mem_range'_1] at hi
    have hlt : i < (List.replicate n 0xFF).length := by
      rw [List.length_replicate]; omega
    rw [List.getD_eq_getElem _ _ hlt, List.getElem_replicate]
  rw [hmap, List.map_const', List.sum_const_nat, List.length_range']
  omega

/-! ## Capacity decoding: the claims -/

/-- C6: for every byte `b` (0..255), `SWAP_NIBBLES (SWAP_NIBBLES b) = b`, and
`SWAP_NIBBLES b` is again a byte value. -/
theorem swap_nibbles_involution (b : Nat) (hb : b < 256) :
    SWAP_NIBBLES (SWAP_NIBBLES b) = b ∧ SWAP_NIBBLES b < 256 :=
  ⟨(swap_table b hb).1, (swap_table b hb).2.1⟩

/-- Witness of C6 at the byte `0x21`, whose swap is `0x12`. -/
theorem swap_nibbles_involution_witness :
    SWAP_NIBBLES 0x21 = 0x12 ∧ SWAP_NIBBLES (SWAP_NIBBLES 0x21) = 0x21 :=
  ⟨by decide, (swap_nibbles_involution 0x21 (by decide)).1⟩

/-- C7: for every capacity byte `b`, `is_new_capacity_format b` holds iff
`SWAP_NIBBLES b > 60` and `1 <= b <= 8`; `get_capacity_mah b` is `b * 1000` when it holds
and `SWAP_NIBBLES b * 100` otherwise; `get_capacity_mah 0x05 = 5000` and
`get_capacity_mah 0x21 = 1800`. -/
theorem get_capacity_mah_spec (b : Nat) (hb : b < 256) :
    (is_new_capacity_format b = true ↔ (SWAP_NIBBLES b > 60 ∧ 1 ≤ b ∧ b ≤ 8)) ∧
    (is_new_capacity_format b = true → get_capacity_mah b = b * 1000) ∧
    (is_new_capacity_format b = false → get_capacity_mah b = SWAP_NIBBLES b * 100) ∧
    get_capacity_mah 0x05 = 5000 ∧ get_capacity_mah 0x21 = 1800 := by
  have hs := (swap_table b hb).2.1
  refine ⟨?_, ?_, ?_, by decide, by decide⟩
  · unfold is_new_capacity_format
    simp only [Nat.mod_eq_of_lt hs, Bool.and_eq_true, decide_eq_true_eq]
    omega
  · intro hnew
    unfold get_capacity_mah
    rw [if_pos hnew]
    omega
  · intro hold
    unfold get_capacity_mah
    rw [if_neg (by simp [hold])]
    omega

/-- Witness of C7 at the old-format byte `0x21`. -/
theorem get_capacity_mah_spec_witness :
    is_new_capacity_format 0x21 = false ∧ get_capacity_mah 0x21 = SWAP_NIBBLES 0x21 * 100 :=
  ⟨by decide, (get_capacity_mah_spec 0x21 (by decide)).2.2.1 (by decide)⟩

theorem round5_eq (n : Int) (hn : 0 ≤ n) :
    round5 n = n + ([0, -1, -2, 2, 1] : List Int).getD (n % 5).toNat 0 := by
  unfold round5 cAdd
  rw [Int.tmod_eq_emod hn (by decide)]

theorem round5_cases (n : Int) (hn : 0 ≤ n) :
    (n % 5 = 0 ∧ round5 n = n) ∨ (n % 5 = 1 ∧ round5 n = n - 1) ∨
    (n % 5 = 2 ∧ round5 n = n - 2) ∨ (n % 5 = 3 ∧ round5 n = n + 2) ∨
    (n % 5 = 4 ∧ round5 n = n + 1) := by
  rw [round5_eq n hn]
  have hr : n % 5 = 0 ∨ n % 5 = 1 ∨ n % 5 = 2 ∨ n % 5 = 3 ∨ n % 5 = 4 := by omega
  rcases hr with h | h | h | h | h <;> rw [h] <;> simp <;> omega

theorem round5_nearest (n : Int) (hn : 0 ≤ n) :
    5 ∣ round5 n ∧ |round5 n - n| ≤ 2 ∧ ∀ m : Int, 5 ∣ m → |round5 n - n| ≤ |m - n| := by
  have hc := round5_cases n hn
  refine ⟨by omega, ?_, ?_⟩
  · rw [abs_le]
    omega
  · intro m hm
    rcases abs_cases (round5 n - n) with ⟨e1, _⟩ | ⟨e1, _⟩ <;>
      rcases abs_cases (m - n) with ⟨e2, _⟩ | ⟨e2, _⟩ <;>
      rw [e1, e2] <;> omega

/-- C8: for every capacity byte `b`, `get_capacity_for_model b` is `b * 10` for a
new-format byte and otherwise the multiple of 5 nearest to `SWAP_NIBBLES b`; for every
`n >= 0`, `round5 n = n + {0,-1,-2,+2,+1}[n mod 5]` is a multiple of 5 with
`|round5 n - n| <= 2`, and no multiple of 5 is nearer to `n`; in particular
`get_capacity_for_model 0x05 = 50`. -/
theorem get_capacity_for_model_spec (b : Nat) (_hb : b < 256) (n : Int) (hn : 0 ≤ n) :
    (is_new_capacity_format b = true → get_capacity_for_model b = (b : Int) * 10) ∧
    (is_new_capacity_format b = false →
      get_capacity_for_model b = round5 (SWAP_NIBBLES b : Nat) ∧
      5 ∣ get_capacity_for_model b ∧
      |get_capacity_for_model b - (SWAP_NIBBLES b : Nat)| ≤ 2 ∧
      ∀ m : Int, 5 ∣ m →
        |get_capacity_for_model b - (SWAP_NIBBLES b : Nat)| ≤ |m - (SWAP_NIBBLES b : Nat)|) ∧
    (round5 n = n + ([0, -1, -2, 2, 1] : List Int).getD (n % 5).toNat 0 ∧
      5 ∣ round5 n ∧ |round5 n - n| ≤ 2 ∧
      ∀ m : Int, 5 ∣ m → |round5 n - n| ≤ |m - n|) ∧
    get_capacity_for_model 0x05 = 50 := by
  refine ⟨?_, ?_, ⟨round5_eq n hn, round5_nearest n hn⟩, by decide⟩
  · intro hnew
    unfold get_capacity_for_model
    rw [if_pos hnew]
  · intro hold
    have hdef : get_capacity_for_model b = round5 (SWAP_NIBBLES b : Nat) := by
      unfold get_capacity_for_model
      rw [if_neg (by simp [hold])]
    rw [hdef]
    exact ⟨rfl, round5_nearest _ (Int.natCast_nonneg _)⟩

/-- Witness of C8: the old-format byte `0x21` (swap 18) gives model capacity 20, and
`round5 18 = 20`. -/
theorem get_capacity_for_model_spec_witness :
    is_new_capacity_format 0x21 = false ∧ get_capacity_for_model 0x21 = 20 ∧
      5 ∣ get_capacity_for_model 0x21 ∧ round5 18 = 20 ∧ |round5 18 - 18| ≤ 2 :=
  ⟨by decide, by decide,
    ((get_capacity_for_model_spec 0x21 (by decide) 18 (by decide)).2.1 (by decide)).2.1,
    by decide, (get_capacity_for_model_spec 0x21 (by decide) 18 (by decide)).2.2.1.2.2.1⟩

/-! ## Buffers through the bus functions -/

theorem getD_take (l : List Nat) {i n : Nat} (h : i < n) :
    (l.take n).getD i 0 = l.getD i 0 := by
  simp [List.getD_eq_getElem?_getD, List.getElem?_take, h]

theorem verify_congr {m1 m2 : List Nat} (h : ∀ i, i < 32 → m1.getD i 0 = m2.getD i 0) :
    verifyMsgChecksums m1 = verifyMsgChecksums m2 := by
  have e20 := h 20 (by omega)
  have e21 := h 21 (by omega)
  have e31 := h 31 (by omega)
  have c1 : calcNybbleSum m1 0 7 false = calcNybbleSum m2 0 7 false :=
    calcNybbleSum_congr (fun i _ hi => h i (by omega))
  have c2 : calcNybbleSum m1 8 15 false = calcNybbleSum m2 8 15 false :=
    calcNybbleSum_congr (fun i _ hi => h i (by omega))
  have c3 : calcNybbleSum m1 16 20 true = calcNybbleSum m2 16 20 true :=
    calcNybbleSum_low_congr (fun i _ hi => h i (by omega)) (by rw [e20])
  have c4 : calcNybbleSum m1 22 23 false = calcNybbleSum m2 22 23 false :=
    calcNybbleSum_congr (fun i _ hi => h i (by omega))
  have c5 : calcNybbleSum m1 24 30 false = calcNybbleSum m2 24 30 false :=
    calcNybbleSum_congr (fun i _ hi => h i (by omega))
  simp only [verifyMsgChecksums, e20, e21, e31, c1, c2, c3, c4, c5]

theorem verify_take (l : List Nat) :
    verifyMsgChecksums (l.take 32) = verifyMsgChecksums l :=
  verify_congr (fun _ hi => getD_take l hi)

theorem memset_length (buf : List Nat) (v n : Nat) : (memset buf v n).length = buf.length := by
  induction n with
  | zero => rfl
  | succ k ih => simp [memset, ih]

theorem memset_bytes {buf : List Nat} (hb : ∀ x ∈ buf, x < 256) {v : Nat} (hv : v < 256)
    (n : Nat) : ∀ x ∈ memset buf v n, x < 256 := by
  induction n with
  | zero => exact hb
  | succ k ih => exact bytes_set ih k hv

theorem read_bytes_length (dev : Device) (count i : Nat) (buf : List Nat) (h : History) :
    (makita_read_bytes dev count i buf h).1.length = buf.length := by
  induction count generalizing i buf h with
  | zero => rfl
  | succ k ih => simp [makita_read_bytes, ih]

theorem read_bytes_bytes (dev : Device) (count i : Nat) (buf : List Nat) (h : History)
    (hb : ∀ x ∈ buf, x < 256) : ∀ x ∈ (makita_read_bytes dev count i buf h).1, x < 256 := by
  induction count generalizing i buf h with
  | zero => exact hb
  | succ k ih =>
    simp only [makita_read_bytes]
    exact ih _ _ _ (bytes_set hb i (Nat.mod_lt _ (by decide)))

theorem ite_buffer (c : Prop) [Decidable c] (x : List Nat) (y z : History) :
    (if c then (true, x, y) else (false, x, z)).2.1 = x := by
  split <;> rfl

theorem ite_pair_fst (Q : List Nat → Prop) (c : Prop) [Decidable c] (a1 a2 : List Nat)
    (b1 b2 : History) (h1 : Q a1) (h2 : Q a2) :
    Q (if c then (a1, b1) else (a2, b2)).1 := by
  split
  · exact h1
  · exact h2

theorem cmd_and_read_buffer (dev : Device) (initial : Nat) (cmd : List Nat) (cmd_len : Nat)
    (rsp : List Nat) (rsp_len : Nat) (h : History) (hb : ∀ x ∈ rsp, x < 256) :
    (cmd_and_read dev initial cmd cmd_len rsp rsp_len h).2.1.length = rsp.length ∧
    ∀ x ∈ (cmd_and_read dev initial cmd cmd_len rsp rsp_len h).2.1, x < 256 := by
  have hm : ∀ n, ∀ x ∈ memset rsp 0xFF n, x < 256 := memset_bytes hb (by decide)
  unfold cmd_and_read
  dsimp only
  split
  · exact ⟨memset_length _ _ _, hm _⟩
  · rw [ite_buffer]
    constructor
    · rw [read_bytes_length]
      exact ite_pair_fst (fun l => l.length = rsp.length) _ _ _ _ _
        ((read_bytes_length _ _ _ _ _).trans (memset_length _ _ _)) (memset_length _ _ _)
    · apply read_bytes_bytes
      exact ite_pair_fst (fun l => ∀ x ∈ l, x < 256) _ _ _ _ _
        (read_bytes_bytes _ _ _ _ _ (hm _)) (hm _)

theorem try_charger_loop_buffer (dev : Device) (n : Nat) (rsp : List Nat) (h : History)
    (hb : ∀ x ∈ rsp, x < 256) :
    (try_charger_loop dev n rsp h).2.1.length = rsp.length ∧
    ∀ x ∈ (try_charger_loop dev n rsp h).2.1, x < 256 := by
  induction n generalizing rsp h with
  | zero => exact ⟨rfl, hb⟩
  | succ k ih =>
    have hc := cmd_and_read_buffer dev 0x33 [0xF0, 0x00] 2 rsp 32 h hb
    simp only [try_charger_loop]
    split
    · exact hc
    · have := ih (charger_33_cmd dev rsp h).2.1 (charger_33_cmd dev rsp h).2.2 hc.2
      exact ⟨this.1.trans hc.1, this.2⟩

theorem try_charger_record (dev : Device) (h : History) :
    IsRecord (((try_charger dev (List.replicate 64 0) h).2.1.drop 8).take 32) := by
  have hz : ∀ x ∈ List.replicate 64 0, x < 256 := by decide
  have hb := try_charger_loop_buffer dev 20 (List.replicate 64 0) h hz
  constructor
  · unfold try_charger
    rw [List.length_take, List.length_drop, hb.1]
    rfl
  · intro x hx
    exact hb.2 x (List.mem_of_mem_drop (List.mem_of_mem_take hx))

/-! ## Lock decision -/

theorem memset_zero_buffer : memset (List.replicate 64 0) 0 64 = List.replicate 64 0 := by
  decide

theorem isBatteryLocked_read_failed (dev : Device) (h : History) (data : List Nat)
    (h2 : History) (hread : try_charger dev (List.replicate 64 0) h = (false, data, h2)) :
    isBatteryLocked dev h = (true, h2) := by
  unfold isBatteryLocked
  simp only [memset_zero_buffer, hread, if_true]

theorem isBatteryLocked_read_ok (dev : Device) (h : History) (data : List Nat)
    (h2 : History) (hread : try_charger dev (List.replicate 64 0) h = (true, data, h2)) :
    (isBatteryLocked dev h).2 = h2 ∧
    ((isBatteryLocked dev h).1 = false ↔
      ((((data.drop 8).take 32).getD 20 0 &&& 0x0F = 0 ∨
        ((data.drop 8).take 32).getD 20 0 &&& 0x0F = 5) ∧
       verifyMsgChecksums ((data.drop 8).take 32) = true)) := by
  rw [verify_take, getD_take _ (by decide : 20 < 32)]
  unfold isBatteryLocked
  simp only [memset_zero_buffer, hread, Bool.true_eq_false, if_false]
  split
  · rename_i herr
    refine ⟨rfl, ?_⟩
    constructor
    · intro hf
      exact Bool.noConfusion hf
    · intro hu
      rcases hu.1 with h0 | h5
      · exact absurd h0 herr.1
      · exact absurd h5 herr.2
  · rename_i herr
    refine ⟨rfl, ?_⟩
    have hnib : (data.drop 8).getD 20 0 &&& 0x0F = 0 ∨ (data.drop 8).getD 20 0 &&& 0x0F = 5 := by
      by_cases h0 : (data.drop 8).getD 20 0 &&& 0x0F = 0
      · exact Or.inl h0
      · by_cases h5 : (data.drop 8).getD 20 0 &&& 0x0F = 5
        · exact Or.inr h5
        · exact absurd ⟨h0, h5⟩ herr
    cases hv : verifyMsgChecksums (data.drop 8)
    · constructor
      · intro hf
        exact Bool.noConfusion hf
      · intro hu
        exact absurd hu.2 Bool.false_ne_true
    · exact ⟨fun _ => ⟨hnib, rfl⟩, fun _ => rfl⟩

theorem read_result_eta (x : Bool × List Nat × History) (b : Bool) (h : x.1 = b) :
    x = (b, x.2.1, x.2.2) := by
  subst h
  rfl

/-- C9: `isBatteryLocked` fails closed and otherwise decides from the record alone.  With
`(ok, data, h2)` the result of the record read `try_charger`: the call does nothing else on
the bus; it returns true when `ok` is false; and when `ok` is true the 32 bytes
`data[8..39]` are a record and the call returns false if and only if the error nibble
(low nibble of record byte 20) is 0 or 5 and `verifyMsgChecksums` holds.  So a record
with error nibble 1 and valid checksums is locked, one with error nibble 0 and valid
checksums is unlocked, and one with error nibble 0 and failing checksums is locked. -/
theorem isBatteryLocked_spec (dev : Device) (h : History) (ok : Bool) (data : List Nat)
    (h2 : History) (hread : try_charger dev (List.replicate 64 0) h = (ok, data, h2)) :
    (isBatteryLocked dev h).2 = h2 ∧
    (ok = false → (isBatteryLocked dev h).1 = true) ∧
    (ok = true →
      IsRecord ((data.drop 8).take 32) ∧
      ((isBatteryLocked dev h).1 = false ↔
        ((((data.drop 8).take 32).getD 20 0 &&& 0x0F = 0 ∨
          ((data.drop 8).take 32).getD 20 0 &&& 0x0F = 5) ∧
         verifyMsgChecksums ((data.drop 8).take 32) = true)) ∧
      (((data.drop 8).take 32).getD 20 0 &&& 0x0F = 1 →
        verifyMsgChecksums ((data.drop 8).take 32) = true →
        (isBatteryLocked dev h).1 = true) ∧
      (((data.drop 8).take 32).getD 20 0 &&& 0x0F = 0 →
        verifyMsgChecksums ((data.drop 8).take 32) = true →
        (isBatteryLocked dev h).1 = false) ∧
      (((data.drop 8).take 32).getD 20 0 &&& 0x0F = 0 →
        verifyMsgChecksums ((data.drop 8).take 32) = false →
        (isBatteryLocked dev h).1 = true)) := by
  have hrec := try_charger_record dev h
  rw [hread] at hrec
  cases ok with
  | false =>
    rw [isBatteryLocked_read_failed dev h data h2 hread]
    exact ⟨rfl, fun _ => rfl, fun hf => absurd hf (by decide)⟩
  | true =>
    obtain ⟨hhist, hiff⟩ := isBatteryLocked_read_ok dev h data h2 hread
    refine ⟨hhist, fun hf => absurd hf (by decide), fun _ => ⟨hrec, hiff, ?_, ?_, ?_⟩⟩
    · intro h1 _
      cases hl : (isBatteryLocked dev h).1
      · rcases (hiff.mp hl).1 with h0 | h5
        · rw [h1] at h0
          exact absurd h0 (by decide)
        · rw [h1] at h5
          exact absurd h5 (by decide)
      · rfl
    · intro h0 hv
      exact hiff.mpr ⟨Or.inl h0, hv⟩
    · intro _ hv
      cases hl : (isBatteryLocked dev h).1
      · rw [(hiff.mp hl).2] at hv
        exact absurd hv (by decide)
      · rfl

/-- Witness of C9: a device that serves a ROM id and then a record with error nibble 0
and valid checksums is reported unlocked; one serving a record with error nibble 1 and
valid checksums is reported locked; one serving a record with error nibble 0 and a
corrupted checksum byte is reported locked; a device that never answers is reported
locked. -/
theorem isBatteryLocked_spec_witness :
    (try_charger (scriptedDevice (sampleRom ++ unlockedRecord)) (List.replicate 64 0) []).1 = true ∧
    (isBatteryLocked (scriptedDevice (sampleRom ++ unlockedRecord)) []).1 = false ∧
    (isBatteryLocked (scriptedDevice (sampleRom ++ lockedRecord)) []).1 = true ∧
    (isBatteryLocked (scriptedDevice (sampleRom ++ corruptedRecord)) []).1 = true ∧
    (isBatteryLocked absentDevice []).1 = true :=
  ⟨by decide,
    ((isBatteryLocked_spec (scriptedDevice (sampleRom ++ unlockedRecord)) [] true
      (try_charger (scriptedDevice (sampleRom ++ unlockedRecord)) (List.replicate 64 0) []).2.1
      (try_charger (scriptedDevice (sampleRom ++ unlockedRecord)) (List.replicate 64 0) []).2.2
      (by decide)).2.2 rfl).2.2.2.1 (by decide) (by decide),
    ((isBatteryLocked_spec (scriptedDevice (sampleRom ++ lockedRecord)) [] true
      (try_charger (scriptedDevice (sampleRom ++ lockedRecord)) (List.replicate 64 0) []).2.1
      (try_charger (scriptedDevice (sampleRom ++ lockedRecord)) (List.replicate 64 0) []).2.2
      (by decide)).2.2 rfl).2.2.1 (by decide) (by decide),
    ((isBatteryLocked_spec (scriptedDevice (sampleRom ++ corruptedRecord)) [] true
      (try_charger (scriptedDevice (sampleRom ++ corruptedRecord)) (List.replicate 64 0) []).2.1
      (try_charger (scriptedDevice (sampleRom ++ corruptedRecord)) (List.replicate 64 0) []).2.2
      (by decide)).2.2 rfl).2.2.2.2 (by decide) (by decide),
    (isBatteryLocked_spec absentDevice [] false
      (try_charger absentDevice (List.replicate 64 0) []).2.1
      (try_charger absentDevice (List.replicate 64 0) []).2.2
      (read_result_eta _ false (by decide))).2.1 rfl⟩

/-! ## Unlock, phase 2: the record handed to the write protocol -/

/-- C10: for every 32-byte record `r`, the record `clearErrorWithChecksum r` that unlock
Phase 2 hands to the write protocol is a 32-byte record with error nibble 0; it does not
carry the sentinel pair and passes `verifyMsgChecksums`; whenever the record read returns
it, `isBatteryLocked` reports unlocked; and it differs from `r` only in bytes 20, 21
and 31. -/
theorem clearErrorWithChecksum_spec (r : List Nat) (hr : IsRecord r) :
    IsRecord (clearErrorWithChecksum r) ∧
    (clearErrorWithChecksum r).getD 20 0 &&& 0x0F = 0 ∧
    ¬((clearErrorWithChecksum r).getD 20 0 = 0xFF ∧
      (clearErrorWithChecksum r).getD 21 0 = 0xFF) ∧
    verifyMsgChecksums (clearErrorWithChecksum r) = true ∧
    (∀ (dev : Device) (h : History) (data : List Nat) (h2 : History),
      try_charger dev (List.replicate 64 0) h = (true, data, h2) →
      (data.drop 8).take 32 = clearErrorWithChecksum r →
      (isBatteryLocked dev h).1 = false) ∧
    (∀ i, i ≠ 20 → i ≠ 21 → i ≠ 31 →
      (clearErrorWithChecksum r).getD i 0 = r.getD i 0) := by
  have hlen : (r.set 20 ((r.getD 20 0 &&& 0xF0) % 256)).length = 32 := by
    rw [List.length_set]
    exact hr.1
  have hbytes : ∀ b ∈ r.set 20 ((r.getD 20 0 &&& 0xF0) % 256), b < 256 :=
    bytes_set hr.2 20 (Nat.mod_lt _ (by decide))
  have h20 : (r.set 20 ((r.getD 20 0 &&& 0xF0) % 256)).getD 20 0 = 16 * (r.getD 20 0 / 16) := by
    rw [getD_set_self _ _ (by rw [hr.1]; decide)]
    exact clear_table _ (getD_lt_of_bytes hr.2 20)
  have hlow := recalc_low20 _ hlen
  rw [h20] at hlow
  have hnib : (clearErrorWithChecksum r).getD 20 0 &&& 0x0F = 0 := by
    unfold clearErrorWithChecksum
    rw [and15]
    omega
  have hver : verifyMsgChecksums (clearErrorWithChecksum r) = true := by
    unfold clearErrorWithChecksum
    apply verify_recalc_of_low _ hlen
    rw [h20]
    omega
  refine ⟨recalc_isRecord ⟨hlen, hbytes⟩, hnib, ?_, hver, ?_, ?_⟩
  · intro hs
    rw [hs.1] at hnib
    exact absurd hnib (by decide)
  · intro dev h data h2 hread hdata
    apply (isBatteryLocked_read_ok dev h data h2 hread).2.mpr
    rw [hdata]
    exact ⟨Or.inl hnib, hver⟩
  · intro i i20 i21 i31
    unfold clearErrorWithChecksum
    rw [recalc_getD_other _ i20 i21 i31, getD_set_ne _ _ (Ne.symm i20)]

/-- Witness of C10: the locked `sampleRecord` (error nibble 3) is turned into a record
with error nibble 0 that verifies, and a device serving it is reported unlocked. -/
theorem clearErrorWithChecksum_spec_witness :
    IsRecord sampleRecord ∧ sampleRecord.getD 20 0 &&& 0x0F = 3 ∧
    verifyMsgChecksums (clearErrorWithChecksum sampleRecord) = true ∧
    (isBatteryLocked (scriptedDevice (sampleRom ++ clearErrorWithChecksum sampleRecord)) []).1
      = false :=
  ⟨by decide, by decide, (clearErrorWithChecksum_spec sampleRecord (by decide)).2.2.2.1,
    (clearErrorWithChecksum_spec sampleRecord (by decide)).2.2.2.2.1
      (scriptedDevice (sampleRom ++ clearErrorWithChecksum sampleRecord)) []
      (try_charger (scriptedDevice (sampleRom ++ clearErrorWithChecksum sampleRecord))
        (List.replicate 64 0) []).2.1
      (try_charger (scriptedDevice (sampleRom ++ clearErrorWithChecksum sampleRecord))
        (List.replicate 64 0) []).2.2
      (by decide) (by decide)⟩

/-! ## The bus primitives in a history -/

theorem read_bytes_history (dev : Device) (count i : Nat) (buf : List Nat) (h : History) :
    (makita_read_bytes dev count i buf h).2 = afterReads dev count h := by
  induction count generalizing i buf h with
  | zero => rfl
  | succ k ih => simp only [makita_read_bytes, afterReads, ih]

theorem read_bytes_getD_below (dev : Device) (count i : Nat) (buf : List Nat) (h : History)
    (j : Nat) (hj : j < i) :
    (makita_read_bytes dev count i buf h).1.getD j 0 = buf.getD j 0 := by
  induction count generalizing i buf h with
  | zero => rfl
  | succ k ih =>
    simp only [makita_read_bytes]
    rw [ih _ _ _ (by omega), getD_set_ne _ _ (by omega)]

theorem read_bytes_getD (dev : Device) (count i : Nat) (buf : List Nat) (h : History)
    (j : Nat) (hj : j < count) (hlen : i + j < buf.length) :
    (makita_read_bytes dev count i buf h).1.getD (i + j) 0 =
      (readValues dev count h).getD j 0 := by
  induction count generalizing i buf h j with
  | zero => omega
  | succ k ih =>
    simp only [makita_read_bytes, readValues]
    cases j with
    | zero =>
      have hi : i < buf.length := by omega
      rw [read_bytes_getD_below _ _ _ _ _ _ (by omega)]
      exact getD_set_self _ _ hi
    | succ j =>
      have := ih (i + 1) (buf.set i (makita_read dev h).1) (makita_read dev h).2 j
        (by omega) (by rw [List.length_set]; omega)
      rw [show i + (j + 1) = i + 1 + j by omega, this]
      rfl

theorem countP_afterReads (p : Event → Bool) (hread : ∀ v, p (Event.read v) = false)
    (dev : Device) (n : Nat) (h : History) :
    (afterReads dev n h).countP p = h.countP p := by
  induction n generalizing h with
  | zero => rfl
  | succ k ih =>
    simp only [afterReads, ih, makita_read]
    rw [List.countP_cons_of_neg]
    simp [hread]

theorem countP_write_bytes (p : Event → Bool) (hwrite : ∀ v, p (Event.write v) = false)
    (buf : List Nat) (count i : Nat) (h : History) :
    (makita_write_bytes buf count i h).countP p = h.countP p := by
  induction count generalizing i h with
  | zero => rfl
  | succ k ih =>
    simp only [makita_write_bytes, ih, makita_write]
    rw [List.countP_cons_of_neg]
    simp [hwrite]

theorem countP_trigger_power (p : Event → Bool) (henable : ∀ b, p (Event.enable b) = false)
    (hdelay : ∀ n, p (Event.delay n) = false) (h : History) :
    (trigger_power h).countP p = h.countP p := by
  simp [trigger_power, delay, set_enablepin, List.countP_cons, henable, hdelay]

theorem reset_loop_failed (dev : Device) (k : Nat) (h : History)
    (hf : (cmd_and_read_reset dev k h).1 = false) :
    (cmd_and_read_reset dev k h).2 = trigger_power (failedResets k h) := by
  induction k generalizing h with
  | zero =>
    simp only [cmd_and_read_reset] at hf ⊢
    split
    · rename_i hr
      rw [if_pos hr] at hf
      exact Bool.noConfusion hf
    · rename_i hr
      have hp : dev.present h = false := by simpa [makita_reset] using hr
      simp only [makita_reset, failedResets, hp]
  | succ k ih =>
    simp only [cmd_and_read_reset] at hf ⊢
    split
    · rename_i hr
      rw [if_pos hr] at hf
      exact Bool.noConfusion hf
    · rename_i hr
      rw [if_neg hr] at hf
      have hp : dev.present h = false := by simpa [makita_reset] using hr
      rw [ih _ hf]
      simp only [makita_reset, failedResets, hp]

theorem countP_reset_loop_ok (p : Event → Bool) (hreset : ∀ b, p (Event.reset b) = false)
    (hdelay : ∀ n, p (Event.delay n) = false) (dev : Device) (k : Nat) (h : History)
    (hok : (cmd_and_read_reset dev k h).1 = true) :
    (cmd_and_read_reset dev k h).2.countP p = h.countP p := by
  induction k generalizing h with
  | zero =>
    simp only [cmd_and_read_reset] at hok ⊢
    split
    · simp [makita_reset, List.countP_cons, hreset]
    · rename_i hr
      rw [if_neg hr] at hok
      exact Bool.noConfusion hok
  | succ k ih =>
    simp only [cmd_and_read_reset] at hok ⊢
    split
    · simp [makita_reset, List.countP_cons, hreset]
    · rename_i hr
      rw [if_neg hr] at hok
      rw [ih _ hok]
      simp [makita_reset, delay, List.countP_cons, hreset, hdelay]

theorem resetCount_reset_loop (dev : Device) (k : Nat) (h : History) :
    resetCount (cmd_and_read_reset dev k h).2 ≤ resetCount h + (k + 1) := by
  induction k generalizing h with
  | zero =>
    simp only [cmd_and_read_reset]
    split <;> simp [resetCount, makita_reset, trigger_power, delay, set_enablepin,
      List.countP_cons]
  | succ k ih =>
    simp only [cmd_and_read_reset]
    split
    · simp [resetCount, makita_reset, List.countP_cons]
    · have := ih (delay 500 (makita_reset dev h).2)
      have e : resetCount (delay 500 (makita_reset dev h).2) = resetCount h + 1 := by
        simp [resetCount, makita_reset, delay, List.countP_cons]
      omega

/-! ## The three outcomes of `cmd_and_read` -/

theorem cmd_and_read_failed_reset (dev : Device) (initial : Nat) (cmd : List Nat)
    (cmd_len : Nat) (rsp : List Nat) (rsp_len : Nat) (h : History)
    (hf : (cmd_and_read_reset dev 5 h).1 = false) :
    cmd_and_read dev initial cmd cmd_len rsp rsp_len h =
      (false, memset rsp 0xFF (rsp_len + (if initial = 0x33 then 8 else 0)),
        trigger_power (failedResets 5 h)) := by
  unfold cmd_and_read
  dsimp only
  rw [if_pos hf, reset_loop_failed dev 5 h hf]

theorem cmd_and_read_answered (dev : Device) (initial : Nat) (cmd : List Nat)
    (cmd_len : Nat) (rsp : List Nat) (rsp_len : Nat) (h hr : History)
    (hok : cmd_and_read_reset dev 5 h = (true, hr)) :
    ∃ B : List Nat,
      (rsp_len + (if initial = 0x33 then 8 else 0) ≤ rsp.length →
        ∀ j, j < rsp_len → B.getD ((if initial = 0x33 then 8 else 0) + j) 0 =
          (readValues dev rsp_len (cmd_and_read_sent dev initial cmd cmd_len hr)).getD j 0) ∧
      cmd_and_read dev initial cmd cmd_len rsp rsp_len h =
        if rsp_len < 3 ∨ ¬(B.getD (if initial = 0x33 then 8 else 0) 0 = 0xFF ∧
            B.getD (1 + (if initial = 0x33 then 8 else 0)) 0 = 0xFF ∧
            B.getD (2 + (if initial = 0x33 then 8 else 0)) 0 = 0xFF) then
          (true, B, afterReads dev rsp_len (cmd_and_read_sent dev initial cmd cmd_len hr))
        else
          (false, B, trigger_power
            (afterReads dev rsp_len (cmd_and_read_sent dev initial cmd cmd_len hr))) := by
  unfold cmd_and_read
  rw [hok]
  dsimp only
  rw [if_neg (fun hc => Bool.noConfusion hc)]
  by_cases hi : initial = 0x33
  · have hs : cmd_and_read_sent dev initial cmd cmd_len hr =
        makita_write_bytes cmd cmd_len 0
          (afterReads dev 8 (makita_write initial (delayMicroseconds 310 hr))) := by
      unfold cmd_and_read_sent
      rw [if_pos hi]
    rw [hs, if_pos hi, if_pos (by decide : (8 : Nat) ≠ 0)]
    dsimp only
    rw [read_bytes_history, read_bytes_history]
    refine ⟨_, ?_, rfl⟩
    intro hlen j hj
    exact read_bytes_getD _ _ _ _ _ _ hj
      (by rw [read_bytes_length, memset_length]; omega)
  · have hs : cmd_and_read_sent dev initial cmd cmd_len hr =
        makita_write_bytes cmd cmd_len 0
          (makita_write initial (delayMicroseconds 310 hr)) := by
      unfold cmd_and_read_sent
      rw [if_neg hi]
    rw [hs, if_neg hi, if_neg (by decide : ¬((0 : Nat) ≠ 0))]
    dsimp only
    rw [read_bytes_history]
    refine ⟨_, ?_, rfl⟩
    intro hlen j hj
    exact read_bytes_getD _ _ _ _ _ _ hj (by rw [memset_length]; omega)

theorem countP_sent (p : Event → Bool) (hread : ∀ v, p (Event.read v) = false)
    (hwrite : ∀ v, p (Event.write v) = false)
    (hus : ∀ n, p (Event.delayMicroseconds n) = false) (dev : Device) (n initial : Nat)
    (cmd : List Nat) (cmd_len : Nat) (hr : History) :
    (afterReads dev n (cmd_and_read_sent dev initial cmd cmd_len hr)).countP p =
      hr.countP p := by
  rw [countP_afterReads p hread]
  unfold cmd_and_read_sent
  split
  · rw [countP_write_bytes p hwrite, countP_afterReads p hread]
    simp [makita_write, delayMicroseconds, List.countP_cons, hwrite, hus]
  · rw [countP_write_bytes p hwrite]
    simp [makita_write, delayMicroseconds, List.countP_cons, hwrite, hus]

theorem powerOffCount_trigger_power (h : History) :
    powerOffCount (trigger_power h) = powerOffCount h + 1 := by
  simp [powerOffCount, trigger_power, delay, set_enablepin, List.count_cons]

theorem cmd_and_read_flag (c : Prop) [Decidable c] (B : List Nat) (x y : History) :
    ((if c then (true, B, x) else (false, B, y)).1 = false ↔ ¬c) ∧
    ((if c then (true, B, x) else (false, B, y)).1 = false →
      (if c then (true, B, x) else (false, B, y)).2.2 = y) ∧
    ((if c then (true, B, x) else (false, B, y)).1 = true →
      (if c then (true, B, x) else (false, B, y)).2.2 = x) := by
  by_cases hc : c
  · rw [if_pos hc]
    exact ⟨⟨fun hf => Bool.noConfusion hf, fun hn => absurd hc hn⟩,
      fun hf => Bool.noConfusion hf, fun _ => rfl⟩
  · rw [if_neg hc]
    exact ⟨⟨fun _ => hc, fun _ => rfl⟩, fun _ => rfl, fun hf => Bool.noConfusion hf⟩

/-! ## The command dispatcher: the claims -/

/-- C11: when the bus reset succeeds (`hr` is the history after it), `cmd_and_read` returns
false if and only if the expected response length is at least 3 and the first three
response bytes (the bytes read after the selector, the 8 ROM bytes in mode `0x33`, and the
command) are all `0xFF`; when it returns false the history ends with exactly one
`trigger_power` after the response, when it returns true there is none; with an expected
length below 3 it returns true whatever the response. -/
theorem cmd_and_read_sentinel (dev : Device) (initial : Nat) (cmd : List Nat) (cmd_len : Nat)
    (rsp : List Nat) (rsp_len : Nat) (h hr : History)
    (hok : cmd_and_read_reset dev 5 h = (true, hr))
    (hbuf : rsp_len + (if initial = 0x33 then 8 else 0) ≤ rsp.length) :
    ((cmd_and_read dev initial cmd cmd_len rsp rsp_len h).1 = false ↔
      (3 ≤ rsp_len ∧
        (readValues dev rsp_len (cmd_and_read_sent dev initial cmd cmd_len hr)).getD 0 0 = 0xFF ∧
        (readValues dev rsp_len (cmd_and_read_sent dev initial cmd cmd_len hr)).getD 1 0 = 0xFF ∧
        (readValues dev rsp_len (cmd_and_read_sent dev initial cmd cmd_len hr)).getD 2 0
          = 0xFF)) ∧
    ((cmd_and_read dev initial cmd cmd_len rsp rsp_len h).1 = false →
      (cmd_and_read dev initial cmd cmd_len rsp rsp_len h).2.2 =
        trigger_power (afterReads dev rsp_len (cmd_and_read_sent dev initial cmd cmd_len hr)) ∧
      powerOffCount (cmd_and_read dev initial cmd cmd_len rsp rsp_len h).2.2 =
        powerOffCount h + 1) ∧
    ((cmd_and_read dev initial cmd cmd_len rsp rsp_len h).1 = true →
      (cmd_and_read dev initial cmd cmd_len rsp rsp_len h).2.2 =
        afterReads dev rsp_len (cmd_and_read_sent dev initial cmd cmd_len hr) ∧
      powerOffCount (cmd_and_read dev initial cmd cmd_len rsp rsp_len h).2.2 =
        powerOffCount h) ∧
    (rsp_len < 3 → (cmd_and_read dev initial cmd cmd_len rsp rsp_len h).1 = true) := by
  obtain ⟨B, hB, heq⟩ := cmd_and_read_answered dev initial cmd cmd_len rsp rsp_len h hr hok
  have hB := hB hbuf
  have hpow : powerOffCount
      (afterReads dev rsp_len (cmd_and_read_sent dev initial cmd cmd_len hr)) =
      powerOffCount h := by
    have h1 := countP_sent (fun e => e == Event.enable false) (by simp) (by simp) (by simp)
      dev rsp_len initial cmd cmd_len hr
    have h2 := countP_reset_loop_ok (fun e => e == Event.enable false) (by simp) (by simp)
      dev 5 h (by rw [hok])
    rw [hok] at h2
    exact h1.trans h2
  rw [heq]
  obtain ⟨f1, f2, f3⟩ := cmd_and_read_flag
    (rsp_len < 3 ∨ ¬(B.getD (if initial = 0x33 then 8 else 0) 0 = 0xFF ∧
      B.getD (1 + (if initial = 0x33 then 8 else 0)) 0 = 0xFF ∧
      B.getD (2 + (if initial = 0x33 then 8 else 0)) 0 = 0xFF)) B
    (afterReads dev rsp_len (cmd_and_read_sent dev initial cmd cmd_len hr))
    (trigger_power (afterReads dev rsp_len (cmd_and_read_sent dev initial cmd cmd_len hr)))
  refine ⟨?_, ?_, ?_, ?_⟩
  · rw [f1]
    constructor
    · intro hn
      have h3 : 3 ≤ rsp_len := by
        by_contra hlt
        exact hn (Or.inl (by omega))
      have hall := Classical.not_not.mp (fun hx => hn (Or.inr hx))
      have e0 := hB 0 (by omega)
      have e1 := hB 1 (by omega)
      have e2 := hB 2 (by omega)
      rw [Nat.add_zero] at e0
      rw [Nat.add_comm] at e1 e2
      rw [← e0, ← e1, ← e2]
      exact ⟨h3, hall⟩
    · rintro ⟨h3, r0, r1, r2⟩ hc
      have e0 := hB 0 (by omega)
      have e1 := hB 1 (by omega)
      have e2 := hB 2 (by omega)
      rw [Nat.add_zero] at e0
      rw [Nat.add_comm] at e1 e2
      rcases hc with hlt | hx
      · omega
      · exact hx ⟨e0.trans r0, e1.trans r1, e2.trans r2⟩
  · intro hf
    rw [f2 hf]
    exact ⟨rfl, by rw [powerOffCount_trigger_power, hpow]⟩
  · intro ht
    rw [f3 ht]
    exact ⟨rfl, hpow⟩
  · intro hlt
    cases hfl : (if rsp_len < 3 ∨ ¬(B.getD (if initial = 0x33 then 8 else 0) 0 = 0xFF ∧
        B.getD (1 + (if initial = 0x33 then 8 else 0)) 0 = 0xFF ∧
        B.getD (2 + (if initial = 0x33 then 8 else 0)) 0 = 0xFF) then
          (true, B, afterReads dev rsp_len (cmd_and_read_sent dev initial cmd cmd_len hr))
        else (false, B, trigger_power
          (afterReads dev rsp_len (cmd_and_read_sent dev initial cmd cmd_len hr)))).1
    · exact absurd (Or.inl hlt) (f1.mp hfl)
    · rfl

/-- Witness of C11: a device that answers the reset pulse and then returns `0xFF` for
ever makes the record read command fail with one power cycle; a device that serves a
ROM id and a record makes it succeed with none. -/
theorem cmd_and_read_sentinel_witness :
    (cmd_and_read (scriptedDevice []) 0x33 [0xF0, 0x00] 2 (List.replicate 48 0) 32 []).1
      = false ∧
    powerOffCount
      (cmd_and_read (scriptedDevice []) 0x33 [0xF0, 0x00] 2 (List.replicate 48 0) 32 []).2.2
      = powerOffCount [] + 1 ∧
    powerOffCount
      (cmd_and_read (scriptedDevice (sampleRom ++ unlockedRecord)) 0x33 [0xF0, 0x00] 2
        (List.replicate 48 0) 32 []).2.2 = powerOffCount [] :=
  ⟨(cmd_and_read_sentinel (scriptedDevice []) 0x33 [0xF0, 0x00] 2 (List.replicate 48 0) 32
      [] [Event.reset true] (by decide) (by decide)).1.mpr (by decide),
    ((cmd_and_read_sentinel (scriptedDevice []) 0x33 [0xF0, 0x00] 2 (List.replicate 48 0) 32
      [] [Event.reset true] (by decide) (by decide)).2.1 (by decide)).2,
    ((cmd_and_read_sentinel (scriptedDevice (sampleRom ++ unlockedRecord)) 0x33 [0xF0, 0x00]
      2 (List.replicate 48 0) 32 [] [Event.reset true] (by decide) (by decide)).2.2.1
      (by decide)).2⟩

theorem resetCount_failedResets (k : Nat) (h : History) :
    resetCount (failedResets k h) = resetCount h + (k + 1) := by
  induction k generalizing h with
  | zero => simp [failedResets, resetCount, List.countP_cons]
  | succ k ih =>
    rw [failedResets, ih]
    simp [resetCount, delay, List.countP_cons]
    omega

theorem writeCount_failedResets (k : Nat) (h : History) :
    writeCount (failedResets k h) = writeCount h := by
  induction k generalizing h with
  | zero => simp [failedResets, writeCount, List.countP_cons]
  | succ k ih =>
    rw [failedResets, ih]
    simp [writeCount, delay, List.countP_cons]

theorem reset_loop_eta (dev : Device) (k : Nat) (h : History) (b : Bool)
    (hb : (cmd_and_read_reset dev k h).1 = b) :
    cmd_and_read_reset dev k h = (b, (cmd_and_read_reset dev k h).2) := by
  subst hb
  rfl

theorem ite_history_le (c : Prop) [Decidable c] (B : List Nat) (x y : History)
    (f : History → Nat) (n : Nat) (hx : f x ≤ n) (hy : f y ≤ n) :
    f (if c then (true, B, x) else (false, B, y)).2.2 ≤ n := by
  split
  · exact hx
  · exact hy

/-- C12, as stated, fails: on a device that never answers the reset pulse one call of
`cmd_and_read` sends six reset pulses, not at most five. -/
theorem cmd_and_read_reset_counterexample :
    resetCount
      (cmd_and_read absentDevice 0x33 [0xF0, 0x00] 2 (List.replicate 48 0) 32 []).2.2 = 6 ∧
    ¬(resetCount
      (cmd_and_read absentDevice 0x33 [0xF0, 0x00] 2 (List.replicate 48 0) 32 []).2.2
        ≤ resetCount [] + 5) := by
  decide

/-- C12 (amended): one call of `cmd_and_read` attempts the bus reset at most 6 times (the
first attempt and up to five retries, each after a 500 ms delay); if all six attempts
fail it runs the power-cycle recovery (power off, delay 200, power on, delay 500) right
after the sixth pulse, writes nothing to the bus, and returns false. -/
theorem cmd_and_read_reset_attempts (dev : Device) (initial : Nat) (cmd : List Nat)
    (cmd_len : Nat) (rsp : List Nat) (rsp_len : Nat) (h : History) :
    resetCount (cmd_and_read dev initial cmd cmd_len rsp rsp_len h).2.2 ≤ resetCount h + 6 ∧
    ((cmd_and_read_reset dev 5 h).1 = false →
      (cmd_and_read dev initial cmd cmd_len rsp rsp_len h).1 = false ∧
      (cmd_and_read dev initial cmd cmd_len rsp rsp_len h).2.2 =
        Event.delay 500 :: Event.enable true :: Event.delay 200 :: Event.enable false ::
          failedResets 5 h ∧
      resetCount (cmd_and_read dev initial cmd cmd_len rsp rsp_len h).2.2 =
        resetCount h + 6 ∧
      writeCount (cmd_and_read dev initial cmd cmd_len rsp rsp_len h).2.2 = writeCount h) := by
  have hfail : (cmd_and_read_reset dev 5 h).1 = false →
      (cmd_and_read dev initial cmd cmd_len rsp rsp_len h).1 = false ∧
      (cmd_and_read dev initial cmd cmd_len rsp rsp_len h).2.2 =
        Event.delay 500 :: Event.enable true :: Event.delay 200 :: Event.enable false ::
          failedResets 5 h ∧
      resetCount (cmd_and_read dev initial cmd cmd_len rsp rsp_len h).2.2 =
        resetCount h + 6 ∧
      writeCount (cmd_and_read dev initial cmd cmd_len rsp rsp_len h).2.2 = writeCount h := by
    intro hf
    rw [cmd_and_read_failed_reset dev initial cmd cmd_len rsp rsp_len h hf]
    refine ⟨rfl, rfl, ?_, ?_⟩
    · show resetCount (trigger_power (failedResets 5 h)) = resetCount h + 6
      unfold resetCount
      rw [countP_trigger_power _ (fun _ => rfl) (fun _ => rfl)]
      exact resetCount_failedResets 5 h
    · show writeCount (trigger_power (failedResets 5 h)) = writeCount h
      unfold writeCount
      rw [countP_trigger_power _ (fun _ => rfl) (fun _ => rfl)]
      exact writeCount_failedResets 5 h
  refine ⟨?_, hfail⟩
  cases hc : (cmd_and_read_reset dev 5 h).1
  · rw [(hfail hc).2.2.1]
  · have hok := reset_loop_eta dev 5 h true hc
    obtain ⟨B, _, heq⟩ := cmd_and_read_answered dev initial cmd cmd_len rsp rsp_len h _ hok
    have hloop := resetCount_reset_loop dev 5 h
    have hsent : resetCount (afterReads dev rsp_len
        (cmd_and_read_sent dev initial cmd cmd_len (cmd_and_read_reset dev 5 h).2)) =
        resetCount (cmd_and_read_reset dev 5 h).2 := by
      unfold resetCount
      exact countP_sent _ (fun _ => rfl) (fun _ => rfl) (fun _ => rfl) dev rsp_len initial
        cmd cmd_len _
    rw [heq]
    apply ite_history_le
    · rw [hsent]
      exact hloop
    · have ht : resetCount (trigger_power (afterReads dev rsp_len
          (cmd_and_read_sent dev initial cmd cmd_len (cmd_and_read_reset dev 5 h).2))) =
          resetCount (afterReads dev rsp_len
            (cmd_and_read_sent dev initial cmd cmd_len (cmd_and_read_reset dev 5 h).2)) := by
        unfold resetCount
        exact countP_trigger_power _ (fun _ => rfl) (fun _ => rfl) _
      rw [ht, hsent]
      exact hloop

/-- Witness of C12 (amended): the device that never answers gets six reset pulses, the
recovery, no byte written, and the call returns false. -/
theorem cmd_and_read_reset_attempts_witness :
    (cmd_and_read absentDevice 0x33 [0xF0, 0x00] 2 (List.replicate 48 0) 32 []).1 = false ∧
    resetCount
      (cmd_and_read absentDevice 0x33 [0xF0, 0x00] 2 (List.replicate 48 0) 32 []).2.2
        = resetCount [] + 6 ∧
    writeCount
      (cmd_and_read absentDevice 0x33 [0xF0, 0x00] 2 (List.replicate 48 0) 32 []).2.2
        = writeCount [] :=
  ⟨((cmd_and_read_reset_attempts absentDevice 0x33 [0xF0, 0x00] 2 (List.replicate 48 0) 32
      []).2 (by decide)).1,
    ((cmd_and_read_reset_attempts absentDevice 0x33 [0xF0, 0x00] 2 (List.replicate 48 0) 32
      []).2 (by decide)).2.2.1,
    ((cmd_and_read_reset_attempts absentDevice 0x33 [0xF0, 0x00] 2 (List.replicate 48 0) 32
      []).2 (by decide)).2.2.2⟩

/-! ## The cycle counter: the claim -/

theorem or_shl8 (lo hi : Nat) (hlo : lo < 256) : lo ||| (hi <<< 8) = lo + 256 * hi := by
  have h := Nat.mul_add_lt_is_or (show lo < 2 ^ 8 from hlo) hi
  rw [Nat.shiftLeft_eq, Nat.lor_comm, Nat.mul_comm hi, ← h]
  omega

theorem and_fff (x : Nat) : x &&& 0x0FFF = x % 4096 :=
  Nat.and_pow_two_sub_one_eq_mod x 12

theorem and_ff (x : Nat) : x &&& 0xFF = x % 256 :=
  Nat.and_pow_two_sub_one_eq_mod x 8

theorem shr8 (x : Nat) : x >>> 8 = x / 256 :=
  Nat.shiftRight_eq_div_pow x 8

theorem encode_bytes (msg : List Nat) (n : Nat) (hlen : 28 ≤ msg.length) (hn : n ≤ 4095) :
    (resetCycleCount_encode msg n).getD 26 0 = SWAP_NIBBLES ((n >>> 8) &&& 0xFF) ∧
    (resetCycleCount_encode msg n).getD 27 0 = SWAP_NIBBLES (n &&& 0xFF) := by
  unfold resetCycleCount_encode
  rw [if_neg (by omega)]
  dsimp only
  have h1 : (n >>> 8) &&& 0xFF < 256 := by rw [and_ff]; omega
  have h2 : n &&& 0xFF < 256 := by rw [and_ff]; omega
  rw [Nat.mod_eq_of_lt (swap_table _ h1).2.1, Nat.mod_eq_of_lt (swap_table _ h2).2.1]
  constructor
  · rw [getD_set_ne _ _ (by decide), getD_set_self _ _ (by omega)]
  · rw [getD_set_self _ _ (by rw [List.length_set]; omega)]

/-- The round trip of the cycle counter for a value `n` of the `int` `new_cycles` that is
not negative: for `n` in 0..4095 the bytes 26 and 27 are `SWAP_NIBBLES((n >> 8) & 0xFF)`
and `SWAP_NIBBLES(n & 0xFF)` and the readers decode `n`; the decoded value is in 0..4095
for every pair of bytes; and for `n` above 4095 the bytes are those of 4095. -/
theorem cycle_count_roundtrip (msg : List Nat) (n : Nat) (hlen : 28 ≤ msg.length) :
    (n ≤ 4095 →
      (resetCycleCount_encode msg n).getD 26 0 = SWAP_NIBBLES ((n >>> 8) &&& 0xFF) ∧
      (resetCycleCount_encode msg n).getD 27 0 = SWAP_NIBBLES (n &&& 0xFF) ∧
      cycle_count (resetCycleCount_encode msg n) = n) ∧
    cycle_count msg ≤ 4095 ∧
    (4095 < n →
      resetCycleCount_encode msg n = resetCycleCount_encode msg 4095 ∧
      cycle_count (resetCycleCount_encode msg n) = 4095) := by
  have hround : ∀ m, m ≤ 4095 → cycle_count (resetCycleCount_encode msg m) = m := by
    intro m hm
    obtain ⟨e26, e27⟩ := encode_bytes msg m hlen hm
    have h1 : (m >>> 8) &&& 0xFF < 256 := by rw [and_ff]; omega
    have h2 : m &&& 0xFF < 256 := by rw [and_ff]; omega
    unfold cycle_count
    rw [e26, e27, (swap_table _ h1).1, (swap_table _ h2).1, or_shl8 _ _ h2, and_fff,
      and_ff, and_ff, shr8]
    omega
  refine ⟨fun hn => ⟨(encode_bytes msg n hlen hn).1, (encode_bytes msg n hlen hn).2,
    hround n hn⟩, ?_, ?_⟩
  · unfold cycle_count
    rw [and_fff]
    omega
  · intro hn
    have he : resetCycleCount_encode msg n = resetCycleCount_encode msg 4095 := by
      unfold resetCycleCount_encode
      rw [if_pos hn, if_neg (by decide)]
    exact ⟨he, by rw [he]; exact hround 4095 (by decide)⟩

/-- The round trip on a concrete record: 1234 cycles are stored as bytes `0x40`, `0x2D`
and read back as 1234; the value 5000 reads back as 4095. -/
theorem cycle_count_roundtrip_witness :
    (resetCycleCount_encode sampleRecord 1234).getD 26 0 = 0x40 ∧
    (resetCycleCount_encode sampleRecord 1234).getD 27 0 = 0x2D ∧
    cycle_count (resetCycleCount_encode sampleRecord 1234) = 1234 ∧
    cycle_count (resetCycleCount_encode sampleRecord 5000) = 4095 :=
  ⟨by decide, by decide,
    ((cycle_count_roundtrip sampleRecord 1234 (by decide)).1 (by decide)).2.2,
    ((cycle_count_roundtrip sampleRecord 5000 (by decide)).2.2 (by decide)).2⟩

/-! ## The 10-cell decoder -/

theorem getD_set_rat (l : List ℚ) (i j : Nat) (v : ℚ) :
    (l.set i v).getD j 0 = if i = j ∧ j < l.length then v else l.getD j 0 := by
  simp only [List.getD_eq_getElem?_getD, List.getElem?_set]
  by_cases hij : i = j
  · subst hij
    by_cases hl : i < l.length
    · simp [hl]
    · simp [hl, List.getElem?_eq_none (Nat.le_of_not_lt hl)]
  · simp [hij]

theorem bl36_loop_length (rsp : List Nat) (n i : Nat) (v : List ℚ) (t mx mn : ℚ) :
    (bl36_loop rsp n i (v, t, mx, mn)).1.length = v.length := by
  induction n generalizing i v t mx mn with
  | zero => rfl
  | succ k ih =>
    simp only [bl36_loop]
    rw [ih, List.length_set]

theorem bl36_loop_below (rsp : List Nat) (n i : Nat) (v : List ℚ) (t mx mn : ℚ) (j : Nat)
    (hj : j < i) : (bl36_loop rsp n i (v, t, mx, mn)).1.getD j 0 = v.getD j 0 := by
  induction n generalizing i v t mx mn with
  | zero => rfl
  | succ k ih =>
    simp only [bl36_loop]
    rw [ih _ _ _ _ _ (by omega), getD_set_rat, if_neg (by omega)]

theorem bl36_loop_cell (rsp : List Nat) (n i : Nat) (v : List ℚ) (t mx mn : ℚ) (j : Nat)
    (h1 : i ≤ j) (h2 : j < i + n) (hlen : j < v.length) :
    (bl36_loop rsp n i (v, t, mx, mn)).1.getD j 0 =
      code_to_voltage_u16 (rsp.getD (j * 2) 0 ||| (rsp.getD (j * 2 + 1) 0 <<< 8)) := by
  induction n generalizing i v t mx mn with
  | zero => omega
  | succ k ih =>
    simp only [bl36_loop]
    by_cases hij : i = j
    · subst hij
      rw [bl36_loop_below _ _ _ _ _ _ _ _ (by omega), getD_set_rat, if_pos ⟨rfl, hlen⟩]
    · exact ih _ _ _ _ _ (by omega) (by omega) (by rw [List.length_set]; exact hlen)

theorem bl36_voltages_ok (dev : Device) (voltages : List ℚ) (h : History)
    (hok : (bl36_voltages dev voltages h).1 = true) :
    (bl36_voltages dev voltages h).2.1 =
      (((bl36_loop (bl36_block dev h) 10 0 (voltages, 0, -5, 5)).1.set 10
        ((bl36_loop (bl36_block dev h) 10 0 (voltages, 0, -5, 5)).2.2.1 -
          (bl36_loop (bl36_block dev h) 10 0 (voltages, 0, -5, 5)).2.2.2)).set 11
        (bl36_loop (bl36_block dev h) 10 0 (voltages, 0, -5, 5)).2.1).set 12 0 := by
  unfold bl36_voltages at hok ⊢
  unfold bl36_block
  dsimp only at hok ⊢
  by_cases ht : (bl36_testmode dev h).1 = false
  · rw [if_pos ht] at hok
    exact Bool.noConfusion hok
  · rw [if_neg ht] at hok ⊢
    by_cases hr : (cmd_and_read dev 0xd4 (memset (List.replicate 64 0) 0 64) 0
        (memset (List.replicate 64 0) 0 64) 20 (bl36_testmode dev h).2).1 = false
    · rw [if_pos hr] at hok
      exact Bool.noConfusion hok
    · rw [if_neg hr]

theorem code_to_voltage_eq (raw : Nat) (hraw : raw ≤ 65535) :
    code_to_voltage_u16 raw = 5.5 - (raw : ℚ) / 11916 := by
  unfold code_to_voltage_u16
  rw [Nat.mod_eq_of_lt (by omega)]

/-- C20: the 10-cell decoder converts every 16-bit code `raw` by
`voltage = 5.5 - raw / 11916` (exactly, over the rationals): raw 0 gives 5.5, raw 11916
gives 4.5, the map is strictly decreasing in `raw`, its value is positive and at most
5.5; and when `bl36_voltages` succeeds, cell `i` (0..9) of its output is the voltage of
`raw = byte[2i] + 256 * byte[2i+1]` of the 20-byte block. -/
theorem code_to_voltage_spec (raw raw2 : Nat) (hraw : raw ≤ 65535) (hraw2 : raw2 ≤ 65535) :
    code_to_voltage_u16 raw = 5.5 - (raw : ℚ) / 11916 ∧
    code_to_voltage_u16 0 = 5.5 ∧
    code_to_voltage_u16 11916 = 4.5 ∧
    (raw < raw2 → code_to_voltage_u16 raw2 < code_to_voltage_u16 raw) ∧
    0 < code_to_voltage_u16 raw ∧
    code_to_voltage_u16 raw ≤ 5.5 ∧
    (∀ (dev : Device) (voltages : List ℚ) (h : History) (i : Nat),
      voltages.length = 13 → (bl36_voltages dev voltages h).1 = true → i < 10 →
      (bl36_block dev h).getD (2 * i) 0 + 256 * (bl36_block dev h).getD (2 * i + 1) 0
        ≤ 65535 ∧
      (bl36_voltages dev voltages h).2.1.getD i 0 =
        5.5 - (((bl36_block dev h).getD (2 * i) 0 +
          256 * (bl36_block dev h).getD (2 * i + 1) 0 : Nat) : ℚ) / 11916) := by
  have hr : (raw : ℚ) ≤ 65535 := by exact_mod_cast hraw
  have hr0 : (0 : ℚ) ≤ (raw : ℚ) := Nat.cast_nonneg raw
  refine ⟨code_to_voltage_eq raw hraw, ?_, ?_, ?_, ?_, ?_, ?_⟩
  · rw [code_to_voltage_eq 0 (by decide)]
    norm_num
  · rw [code_to_voltage_eq 11916 (by decide)]
    norm_num
  · intro hlt
    rw [code_to_voltage_eq raw hraw, code_to_voltage_eq raw2 hraw2]
    have hq : (raw : ℚ) < (raw2 : ℚ) := by exact_mod_cast hlt
    have : (raw : ℚ) / 11916 < (raw2 : ℚ) / 11916 :=
      div_lt_div_of_pos_right hq (by norm_num)
    linarith
  · rw [code_to_voltage_eq raw hraw]
    have : (raw : ℚ) / 11916 ≤ 65535 / 11916 :=
      div_le_div_of_nonneg_right hr (by norm_num)
    have h2 : (65535 : ℚ) / 11916 < 5.5 := by norm_num
    linarith
  · rw [code_to_voltage_eq raw hraw]
    have : (0 : ℚ) ≤ (raw : ℚ) / 11916 := div_nonneg hr0 (by norm_num)
    linarith
  · intro dev voltages h i hlen hok hi
    have hbytes : ∀ x ∈ bl36_block dev h, x < 256 :=
      (cmd_and_read_buffer dev 0xd4 _ 0 _ 20 _
        (memset_bytes (by decide) (by decide) 64)).2
    have hlo := getD_lt_of_bytes hbytes (2 * i)
    have hhi := getD_lt_of_bytes hbytes (2 * i + 1)
    refine ⟨by omega, ?_⟩
    rw [bl36_voltages_ok dev voltages h hok, getD_set_rat, if_neg (by omega), getD_set_rat,
      if_neg (by omega), getD_set_rat, if_neg (by omega),
      bl36_loop_cell _ _ _ _ _ _ _ _ (Nat.zero_le i) (by omega) (by omega),
      Nat.mul_comm i 2, or_shl8 _ _ hlo, code_to_voltage_eq _ (by omega)]

/-- Witness of C20: code 11916 decodes to 4.5 V, and on a device that serves
`tenCellBlock` the first cell of `bl36_voltages` is decoded from bytes 0 and 1 of the
block. -/
theorem code_to_voltage_spec_witness :
    code_to_voltage_u16 11916 = 5.5 - ((11916 : Nat) : ℚ) / 11916 ∧
    code_to_voltage_u16 65535 < code_to_voltage_u16 11916 ∧
    (bl36_voltages (scriptedDevice tenCellBlock) (List.replicate 13 0) []).2.1.getD 0 0 =
      5.5 - (((bl36_block (scriptedDevice tenCellBlock) []).getD (2 * 0) 0 +
        256 * (bl36_block (scriptedDevice tenCellBlock) []).getD (2 * 0 + 1) 0 : Nat) : ℚ)
          / 11916 :=
  ⟨(code_to_voltage_spec 11916 65535 (by decide) (by decide)).1,
    (code_to_voltage_spec 11916 65535 (by decide) (by decide)).2.2.2.1 (by decide),
    ((code_to_voltage_spec 11916 65535 (by decide) (by decide)).2.2.2.2.2.2
      (scriptedDevice tenCellBlock) (List.replicate 13 0) [] 0 (by decide) (by decide)
      (by decide)).2⟩

/-! ## The cached read -/

theorem readValues_ff (dev : Device) (hff : ∀ hh, dev.answer hh % 256 = 0xFF) (n : Nat)
    (h : History) (j : Nat) (hj : j < n) : (readValues dev n h).getD j 0 = 0xFF := by
  induction n generalizing h j with
  | zero => omega
  | succ k ih =>
    simp only [readValues]
    cases j with
    | zero => exact hff h
    | succ j => exact ih _ j (by omega)

theorem charger_fails_ff (dev : Device) (hff : ∀ hh, dev.answer hh % 256 = 0xFF)
    (rsp : List Nat) (h : History) (hlen : 40 ≤ rsp.length) :
    (charger_33_cmd dev rsp h).1 = false := by
  unfold charger_33_cmd cmd_and_read_33
  cases hc : (cmd_and_read_reset dev 5 h).1
  · rw [cmd_and_read_failed_reset dev 0x33 _ 2 rsp 32 h hc]
  · obtain ⟨B, hB, heq⟩ := cmd_and_read_answered dev 0x33 [0xF0, 0x00] 2 rsp 32 h _
      (reset_loop_eta dev 5 h true hc)
    rw [if_pos rfl] at hB heq
    have hB := hB (by omega)
    have e0 := hB 0 (by omega)
    have e1 := hB 1 (by omega)
    have e2 := hB 2 (by omega)
    rw [readValues_ff dev hff _ _ _ (by omega)] at e0 e1 e2
    rw [heq, if_neg]
    intro hcond
    rcases hcond with hlt | hx
    · omega
    · exact hx ⟨e0, by rw [Nat.add_comm]; exact e1, by rw [Nat.add_comm]; exact e2⟩

theorem try_charger_loop_fails_ff (dev : Device) (hff : ∀ hh, dev.answer hh % 256 = 0xFF)
    (n : Nat) (rsp : List Nat) (h : History) (hlen : 40 ≤ rsp.length)
    (hb : ∀ x ∈ rsp, x < 256) : (try_charger_loop dev n rsp h).1 = false := by
  induction n generalizing rsp h with
  | zero => rfl
  | succ k ih =>
    have hc := cmd_and_read_buffer dev 0x33 [0xF0, 0x00] 2 rsp 32 h hb
    have hf := charger_fails_ff dev hff rsp h hlen
    simp only [try_charger_loop]
    rw [if_neg (by rw [hf]; exact Bool.noConfusion)]
    exact ih _ _ (by rw [show (charger_33_cmd dev rsp h).2.1.length = rsp.length from hc.1]
                     exact hlen) hc.2

theorem countP_failedResets (p : Event → Bool) (hreset : ∀ b, p (Event.reset b) = false)
    (hdelay : ∀ n, p (Event.delay n) = false) (k : Nat) (h : History) :
    (failedResets k h).countP p = h.countP p := by
  induction k generalizing h with
  | zero => simp [failedResets, List.countP_cons, hreset]
  | succ k ih =>
    rw [failedResets, ih]
    simp [delay, List.countP_cons, hreset, hdelay]

theorem recordReadCount_charger (dev : Device) (rsp : List Nat) (h : History) :
    recordReadCount (charger_33_cmd dev rsp h).2.2 ≤ recordReadCount h + 1 := by
  unfold charger_33_cmd cmd_and_read_33
  cases hc : (cmd_and_read_reset dev 5 h).1
  · rw [cmd_and_read_failed_reset dev 0x33 _ 2 rsp 32 h hc]
    show recordReadCount (trigger_power (failedResets 5 h)) ≤ _
    unfold recordReadCount List.count
    rw [countP_trigger_power _ (by simp) (by simp), countP_failedResets _ (by simp) (by simp)]
    omega
  · obtain ⟨B, _, heq⟩ := cmd_and_read_answered dev 0x33 [0xF0, 0x00] 2 rsp 32 h _
      (reset_loop_eta dev 5 h true hc)
    have hloop := countP_reset_loop_ok (fun e => e == Event.write 0xF0) (by simp) (by simp)
      dev 5 h hc
    have hsent : recordReadCount (afterReads dev 32 (cmd_and_read_sent dev 0x33 [0xF0, 0x00] 2
        (cmd_and_read_reset dev 5 h).2)) = recordReadCount h + 1 := by
      unfold recordReadCount List.count
      rw [countP_afterReads _ (by simp)]
      unfold cmd_and_read_sent
      rw [if_pos rfl]
      simp only [makita_write_bytes, makita_write, delayMicroseconds, List.getD_cons_zero,
        List.getD_cons_succ]
      rw [List.countP_cons_of_neg _ _ (by simp), List.countP_cons_of_pos _ _ (by simp),
        countP_afterReads _ (by simp), List.countP_cons_of_neg _ _ (by simp),
        List.countP_cons_of_neg _ _ (by simp), hloop]
    rw [heq]
    apply ite_history_le
    · rw [hsent]
    · have ht : recordReadCount (trigger_power (afterReads dev 32
          (cmd_and_read_sent dev 0x33 [0xF0, 0x00] 2 (cmd_and_read_reset dev 5 h).2))) =
          recordReadCount (afterReads dev 32
            (cmd_and_read_sent dev 0x33 [0xF0, 0x00] 2 (cmd_and_read_reset dev 5 h).2)) := by
        unfold recordReadCount List.count
        exact countP_trigger_power _ (by simp) (by simp) _
      rw [ht, hsent]

theorem recordReadCount_loop (dev : Device) (n : Nat) (rsp : List Nat) (h : History) :
    recordReadCount (try_charger_loop dev n rsp h).2.2 ≤ recordReadCount h + n := by
  induction n generalizing rsp h with
  | zero => exact Nat.le_refl _
  | succ k ih =>
    have hc := recordReadCount_charger dev rsp h
    simp only [try_charger_loop]
    split
    · show recordReadCount (charger_33_cmd dev rsp h).2.2 ≤ _
      omega
    · have := ih (charger_33_cmd dev rsp h).2.1 (charger_33_cmd dev rsp h).2.2
      omega

theorem get_voltage_info_output_false (w : Nat) (data : List Nat) (tc tm : ℚ)
    (out : List ℚ) (hf : (get_voltage_info_output w data tc tm out).1 = false) :
    (get_voltage_info_output w data tc tm out).2 = out := by
  unfold get_voltage_info_output at hf ⊢
  by_cases hc : data.getD 2 0 = 0xFF ∧ data.getD 3 0 = 0xFF
  · rw [if_pos hc]
  · rw [if_neg hc] at hf
    exact Bool.noConfusion hf

theorem get_voltage_info_false (w : Nat) (dev : Device) (out : List ℚ) (h : History)
    (hf : (get_voltage_info w dev out h).1 = false) :
    (get_voltage_info w dev out h).2.1 = out := by
  unfold get_voltage_info at hf ⊢
  dsimp only at hf ⊢
  by_cases hc : (read_data_request dev (memset (List.replicate 128 0) 0 128) h).2.1.getD 0 0
      = 0xFF ∧
      (read_data_request dev (memset (List.replicate 128 0) 0 128) h).2.1.getD 1 0 = 0xFF
  · rw [if_pos hc] at hf ⊢
    dsimp only at hf ⊢
    exact get_voltage_info_output_false w _ _ _ out hf
  · rw [if_neg hc] at hf ⊢
    dsimp only at hf ⊢
    exact get_voltage_info_output_false w _ _ _ out hf

theorem readAllBatteryData_failed (w : Nat) (dev : Device) (h : History)
    (hf : (try_charger dev (memset (List.replicate 48 0) 0 48) (warmup_battery dev h)).1
      = false) :
    readAllBatteryData w dev h =
      (false, BatteryData.zero,
        (try_charger dev (memset (List.replicate 48 0) 0 48) (warmup_battery dev h)).2.2) := by
  unfold readAllBatteryData
  dsimp only
  rw [if_pos hf]
  rfl

theorem readAllBatteryData_five (w : Nat) (dev : Device) (h : History)
    (ht : (try_charger dev (memset (List.replicate 48 0) 0 48) (warmup_battery dev h)).1
      = true)
    (hv : (get_voltage_info w dev (List.replicate 9 0) (readAll_voltage_start dev h)).1
      = true) :
    readAllBatteryData w dev h =
      (true,
        { rom := (try_charger dev (memset (List.replicate 48 0) 0 48)
            (warmup_battery dev h)).2.1.take 8,
          msg := ((try_charger dev (memset (List.replicate 48 0) 0 48)
            (warmup_battery dev h)).2.1.drop 8).take 32,
          voltages :=
            (get_voltage_info w dev (List.replicate 9 0) (readAll_voltage_start dev h)).2.1,
          valid := true, is_bl36 := false, cell_count := 5 },
        (get_voltage_info w dev (List.replicate 9 0) (readAll_voltage_start dev h)).2.2) := by
  unfold readAll_voltage_start at hv ⊢
  unfold readAllBatteryData
  dsimp only at hv ⊢
  rw [if_neg (by rw [ht]; exact Bool.noConfusion)]
  dsimp only [BatteryData.zero] at hv ⊢
  rw [if_pos hv]

theorem readAllBatteryData_ten (w : Nat) (dev : Device) (h : History)
    (ht : (try_charger dev (memset (List.replicate 48 0) 0 48) (warmup_battery dev h)).1
      = true)
    (hv : (get_voltage_info w dev (List.replicate 9 0) (readAll_voltage_start dev h)).1
      = false)
    (hb : (bl36_voltages dev (List.replicate 13 0)
      (get_voltage_info w dev (List.replicate 9 0) (readAll_voltage_start dev h)).2.2).1
      = true) :
    readAllBatteryData w dev h =
      (true,
        { rom := (try_charger dev (memset (List.replicate 48 0) 0 48)
            (warmup_battery dev h)).2.1.take 8,
          msg := ((try_charger dev (memset (List.replicate 48 0) 0 48)
            (warmup_battery dev h)).2.1.drop 8).take 32,
          voltages := (bl36_voltages dev (List.replicate 13 0)
            (get_voltage_info w dev (List.replicate 9 0)
              (readAll_voltage_start dev h)).2.2).2.1.take 9,
          valid := true, is_bl36 := true, cell_count := 10 },
        (bl36_voltages dev (List.replicate 13 0)
          (get_voltage_info w dev (List.replicate 9 0)
            (readAll_voltage_start dev h)).2.2).2.2) := by
  unfold readAll_voltage_start at hv hb ⊢
  unfold readAllBatteryData
  dsimp only at hv hb ⊢
  rw [if_neg (by rw [ht]; exact Bool.noConfusion)]
  dsimp only [BatteryData.zero] at hv hb ⊢
  rw [if_neg (by rw [hv]; exact Bool.noConfusion), if_pos hb]

theorem readAllBatteryData_none (w : Nat) (dev : Device) (h : History)
    (ht : (try_charger dev (memset (List.replicate 48 0) 0 48) (warmup_battery dev h)).1
      = true)
    (hv : (get_voltage_info w dev (List.replicate 9 0) (readAll_voltage_start dev h)).1
      = false)
    (hb : (bl36_voltages dev (List.replicate 13 0)
      (get_voltage_info w dev (List.replicate 9 0) (readAll_voltage_start dev h)).2.2).1
      = false) :
    readAllBatteryData w dev h =
      (true,
        { rom := (try_charger dev (memset (List.replicate 48 0) 0 48)
            (warmup_battery dev h)).2.1.take 8,
          msg := ((try_charger dev (memset (List.replicate 48 0) 0 48)
            (warmup_battery dev h)).2.1.drop 8).take 32,
          voltages := List.replicate 9 0,
          valid := true, is_bl36 := false, cell_count := 0 },
        (bl36_voltages dev (List.replicate 13 0)
          (get_voltage_info w dev (List.replicate 9 0)
            (readAll_voltage_start dev h)).2.2).2.2) := by
  have hout := get_voltage_info_false w dev (List.replicate 9 0)
    (readAll_voltage_start dev h) hv
  unfold readAll_voltage_start at hv hb hout ⊢
  unfold readAllBatteryData
  dsimp only at hv hb hout ⊢
  rw [if_neg (by rw [ht]; exact Bool.noConfusion)]
  dsimp only [BatteryData.zero] at hv hb hout ⊢
  rw [if_neg (by rw [hv]; exact Bool.noConfusion),
    if_neg (by rw [hb]; exact Bool.noConfusion), hout]

/-- C13: when every attempt of the ROM and record read fails, `readAllBatteryData`
returns false and leaves the cache invalid and entirely zeroed; this is the case on every
device whose reads all return `0xFF`; the read loop sends the record read command at most
20 times and stops at the first attempt that succeeds. -/
theorem readAllBatteryData_read_failed (w : Nat) (dev : Device) (h : History) :
    ((try_charger dev (memset (List.replicate 48 0) 0 48) (warmup_battery dev h)).1 = false →
      (readAllBatteryData w dev h).1 = false ∧
      (readAllBatteryData w dev h).2.1.valid = false ∧
      (readAllBatteryData w dev h).2.1.rom = List.replicate 8 0 ∧
      (readAllBatteryData w dev h).2.1.msg = List.replicate 32 0 ∧
      (readAllBatteryData w dev h).2.1.voltages = List.replicate 9 0 ∧
      (readAllBatteryData w dev h).2.1.cell_count = 0 ∧
      (readAllBatteryData w dev h).2.1.is_bl36 = false ∧
      (readAllBatteryData w dev h).2.2 =
        (try_charger dev (memset (List.replicate 48 0) 0 48) (warmup_battery dev h)).2.2) ∧
    ((∀ hh, dev.answer hh % 256 = 0xFF) →
      (readAllBatteryData w dev h).1 = false ∧
      (readAllBatteryData w dev h).2.1 = BatteryData.zero) ∧
    (∀ (rsp : List Nat) (hh : History),
      recordReadCount (try_charger dev rsp hh).2.2 ≤ recordReadCount hh + 20) ∧
    (∀ (n : Nat) (rsp : List Nat) (hh : History), (charger_33_cmd dev rsp hh).1 = true →
      try_charger_loop dev (n + 1) rsp hh = charger_33_cmd dev rsp hh) := by
  refine ⟨?_, ?_, ?_, ?_⟩
  · intro hf
    rw [readAllBatteryData_failed w dev h hf]
    exact ⟨rfl, rfl, rfl, rfl, rfl, rfl, rfl, rfl⟩
  · intro hff
    have hf : (try_charger dev (memset (List.replicate 48 0) 0 48)
        (warmup_battery dev h)).1 = false :=
      try_charger_loop_fails_ff dev hff 20 _ _ (by decide) (by decide)
    rw [readAllBatteryData_failed w dev h hf]
    exact ⟨rfl, rfl⟩
  · intro rsp hh
    exact recordReadCount_loop dev 20 rsp hh
  · intro n rsp hh hok
    simp only [try_charger_loop]
    rw [if_pos hok, ← hok]

/-- Witness of C13: on a device that answers every reset pulse and returns `0xFF` to
every read, and on a device that never answers, the read fails and the cache is zeroed. -/
theorem readAllBatteryData_read_failed_witness :
    (readAllBatteryData 16 (scriptedDevice []) []).1 = false ∧
    (readAllBatteryData 16 (scriptedDevice []) []).2.1 = BatteryData.zero ∧
    (readAllBatteryData 16 absentDevice []).1 = false ∧
    (readAllBatteryData 16 absentDevice []).2.1.valid = false :=
  ⟨((readAllBatteryData_read_failed 16 (scriptedDevice []) []).2.1 (fun _ => rfl)).1,
    ((readAllBatteryData_read_failed 16 (scriptedDevice []) []).2.1 (fun _ => rfl)).2,
    ((readAllBatteryData_read_failed 16 absentDevice []).1 (by decide)).1,
    ((readAllBatteryData_read_failed 16 absentDevice []).1 (by decide)).2.1⟩

/-- C14: `readAllBatteryData` returns true iff the ROM and record read succeeds, and the
cached `valid` flag equals the returned value.  When it returns true, `rom` and `msg`
hold bytes 0-7 and 8-39 of the response, and `(cell_count, is_bl36)` is `(5, false)` if
the 5-cell decode succeeded, otherwise `(10, true)` if the 10-cell decode succeeded,
otherwise `(0, false)` with all voltages zero. -/
theorem readAllBatteryData_spec (w : Nat) (dev : Device) (h : History) :
    ((readAllBatteryData w dev h).1 = true ↔ (try_charger dev (memset (List.replicate 48 0) 0 48) (warmup_battery dev h)).1 = true) ∧
    (readAllBatteryData w dev h).2.1.valid = (readAllBatteryData w dev h).1 ∧
    ((readAllBatteryData w dev h).1 = true →
      (readAllBatteryData w dev h).2.1.rom = (try_charger dev (memset (List.replicate 48 0) 0 48) (warmup_battery dev h)).2.1.take 8 ∧
      (readAllBatteryData w dev h).2.1.msg = ((try_charger dev (memset (List.replicate 48 0) 0 48) (warmup_battery dev h)).2.1.drop 8).take 32 ∧
      ((get_voltage_info w dev (List.replicate 9 0) (readAll_voltage_start dev h)).1 = true →
        (readAllBatteryData w dev h).2.1.cell_count = 5 ∧ (readAllBatteryData w dev h).2.1.is_bl36 = false) ∧
      ((get_voltage_info w dev (List.replicate 9 0) (readAll_voltage_start dev h)).1 = false →
        (bl36_voltages dev (List.replicate 13 0)
        (get_voltage_info w dev (List.replicate 9 0) (readAll_voltage_start dev h)).2.2).1 = true →
        (readAllBatteryData w dev h).2.1.cell_count = 10 ∧ (readAllBatteryData w dev h).2.1.is_bl36 = true) ∧
      ((get_voltage_info w dev (List.replicate 9 0) (readAll_voltage_start dev h)).1 = false →
        (bl36_voltages dev (List.replicate 13 0)
        (get_voltage_info w dev (List.replicate 9 0) (readAll_voltage_start dev h)).2.2).1 = false →
        (readAllBatteryData w dev h).2.1.cell_count = 0 ∧ (readAllBatteryData w dev h).2.1.is_bl36 = false ∧
        (readAllBatteryData w dev h).2.1.voltages = List.replicate 9 0)) := by
  cases ht : (try_charger dev (memset (List.replicate 48 0) 0 48) (warmup_battery dev h)).1
  · rw [readAllBatteryData_failed w dev h ht]
    exact ⟨⟨fun hf => Bool.noConfusion hf, fun hf => Bool.noConfusion hf⟩, rfl,
      fun hf => Bool.noConfusion hf⟩
  · cases hv : (get_voltage_info w dev (List.replicate 9 0) (readAll_voltage_start dev h)).1
    · cases hb : (bl36_voltages dev (List.replicate 13 0)
        (get_voltage_info w dev (List.replicate 9 0) (readAll_voltage_start dev h)).2.2).1
      · rw [readAllBatteryData_none w dev h ht hv hb]
        exact ⟨⟨fun _ => rfl, fun _ => rfl⟩, rfl, fun _ => ⟨rfl, rfl,
          fun hf => Bool.noConfusion hf, fun _ hf => Bool.noConfusion hf,
          fun _ _ => ⟨rfl, rfl, rfl⟩⟩⟩
      · rw [readAllBatteryData_ten w dev h ht hv hb]
        exact ⟨⟨fun _ => rfl, fun _ => rfl⟩, rfl, fun _ => ⟨rfl, rfl,
          fun hf => Bool.noConfusion hf, fun _ _ => ⟨rfl, rfl⟩,
          fun _ hf => Bool.noConfusion hf⟩⟩
    · rw [readAllBatteryData_five w dev h ht hv]
      exact ⟨⟨fun _ => rfl, fun _ => rfl⟩, rfl, fun _ => ⟨rfl, rfl,
        fun _ => ⟨rfl, rfl⟩, fun hf => Bool.noConfusion hf,
        fun hf => Bool.noConfusion hf⟩⟩

set_option maxRecDepth 1000000 in
theorem fiveCell_facts :
    (try_charger fiveCellDevice (memset (List.replicate 48 0) 0 48) (warmup_battery fiveCellDevice [])).1 = true ∧
    (get_voltage_info 16 fiveCellDevice (List.replicate 9 0) (readAll_voltage_start fiveCellDevice [])).1 = true ∧
    (readAllBatteryData 16 fiveCellDevice []).1 = true ∧
    (readAllBatteryData 16 fiveCellDevice []).2.1.valid = true := by
  decide

set_option maxRecDepth 1000000 in
theorem tenCell_facts :
    (try_charger tenCellDevice (memset (List.replicate 48 0) 0 48) (warmup_battery tenCellDevice [])).1 = true ∧
    (get_voltage_info 16 tenCellDevice (List.replicate 9 0) (readAll_voltage_start tenCellDevice [])).1 = false ∧
    (bl36_voltages tenCellDevice (List.replicate 13 0)
      (get_voltage_info 16 tenCellDevice (List.replicate 9 0) (readAll_voltage_start tenCellDevice [])).2.2).1 = true ∧
    (readAllBatteryData 16 tenCellDevice []).1 = true := by
  decide

/-- Witness of C14: with a well-formed 5-cell block the result is true, `cell_count` is 5
and `is_bl36` is false; on the 10-cell device the result is true with `(10, true)`. -/
theorem readAllBatteryData_spec_witness :
    (readAllBatteryData 16 fiveCellDevice []).1 = true ∧
    (readAllBatteryData 16 fiveCellDevice []).2.1.valid = true ∧
    (readAllBatteryData 16 fiveCellDevice []).2.1.cell_count = 5 ∧
    (readAllBatteryData 16 fiveCellDevice []).2.1.is_bl36 = false ∧
    (readAllBatteryData 16 tenCellDevice []).2.1.cell_count = 10 ∧
    (readAllBatteryData 16 tenCellDevice []).2.1.is_bl36 = true :=
  ⟨(readAllBatteryData_spec 16 fiveCellDevice []).1.mpr fiveCell_facts.1,
    fiveCell_facts.2.2.2,
    (((readAllBatteryData_spec 16 fiveCellDevice []).2.2 fiveCell_facts.2.2.1).2.2.1
      fiveCell_facts.2.1).1,
    (((readAllBatteryData_spec 16 fiveCellDevice []).2.2 fiveCell_facts.2.2.1).2.2.1
      fiveCell_facts.2.1).2,
    (((readAllBatteryData_spec 16 tenCellDevice []).2.2 tenCell_facts.2.2.2).2.2.2.1
      tenCell_facts.2.1 tenCell_facts.2.2.1).1,
    (((readAllBatteryData_spec 16 tenCellDevice []).2.2 tenCell_facts.2.2.2).2.2.2.1
      tenCell_facts.2.1 tenCell_facts.2.2.1).2⟩

set_option maxRecDepth 1000000 in
theorem tenCell_block :
    bl36_block tenCellDevice tenCellDecodeStart = tenCellBlock ++ List.replicate 44 0 := by
  decide

theorem tenCell_output :
    (bl36_voltages tenCellDevice (List.replicate 13 0) tenCellDecodeStart).2.1 =
      List.replicate 10 (4.5 : ℚ) ++ [0, 45, 0] := by
  rw [bl36_voltages_ok tenCellDevice (List.replicate 13 0) tenCellDecodeStart
    tenCell_facts.2.2.1, tenCell_block]
  have e : (140 ||| 46 <<< 8 : Nat) = 11916 := by decide
  norm_num [bl36_loop, code_to_voltage_u16, tenCellBlock, List.replicate, e]

theorem readAll_ten_voltages (w : Nat) (dev : Device) (h : History)
    (ht : (try_charger dev (memset (List.replicate 48 0) 0 48) (warmup_battery dev h)).1
      = true)
    (hv : (get_voltage_info w dev (List.replicate 9 0) (readAll_voltage_start dev h)).1
      = false)
    (hb : (bl36_voltages dev (List.replicate 13 0)
      (get_voltage_info w dev (List.replicate 9 0) (readAll_voltage_start dev h)).2.2).1
      = true) :
    (readAllBatteryData w dev h).2.1.is_bl36 = true ∧
    (readAllBatteryData w dev h).2.1.voltages =
      (bl36_voltages dev (List.replicate 13 0)
        (get_voltage_info w dev (List.replicate 9 0)
          (readAll_voltage_start dev h)).2.2).2.1.take 9 := by
  rw [readAllBatteryData_ten w dev h ht hv hb]
  exact ⟨rfl, rfl⟩

/-- C15, the code on a 10-cell pack whose ten cells all read 4.5 V: `bl36_voltages`
computes the spread 0 at index 10 and the pack total 45 at index 11 of its 13-element
output, but `readAllBatteryData` caches only elements 0..8, the first nine cell voltages.
Index 5 of the cache holds the voltage of cell 6 (4.5, not the spread 0) and index 6 the
voltage of cell 7 (4.5, not the total 45). -/
theorem readAllBatteryData_bl36_cache :
    (readAllBatteryData 16 tenCellDevice []).1 = true ∧
    (readAllBatteryData 16 tenCellDevice []).2.1.is_bl36 = true ∧
    (bl36_voltages tenCellDevice (List.replicate 13 0) tenCellDecodeStart).2.1 =
      List.replicate 10 (4.5 : ℚ) ++ [0, 45, 0] ∧
    (readAllBatteryData 16 tenCellDevice []).2.1.voltages = List.replicate 9 (4.5 : ℚ) ∧
    (readAllBatteryData 16 tenCellDevice []).2.1.voltages.getD 5 0 = 4.5 ∧
    (readAllBatteryData 16 tenCellDevice []).2.1.voltages.getD 6 0 = 4.5 := by
  have hout := tenCell_output
  have hten := readAll_ten_voltages 16 tenCellDevice [] tenCell_facts.1 tenCell_facts.2.1
    tenCell_facts.2.2.1
  have hv : (readAllBatteryData 16 tenCellDevice []).2.1.voltages =
      List.replicate 9 (4.5 : ℚ) := by
    have hout2 := hout
    unfold tenCellDecodeStart at hout2
    rw [hten.2, hout2]
    rfl
  refine ⟨tenCell_facts.2.2.2, hten.1, hout, hv, ?_, ?_⟩
  · rw [hv]
    rfl
  · rw [hv]
    rfl

/-! ## Notes through the bus functions -/

theorem notes_afterReads (dev : Device) (n : Nat) (h : History) :
    notes (afterReads dev n h) = notes h := by
  induction n generalizing h with
  | zero => rfl
  | succ k ih =>
    simp only [afterReads, ih]
    rfl

theorem notes_write_bytes (buf : List Nat) (count i : Nat) (h : History) :
    notes (makita_write_bytes buf count i h) = notes h := by
  induction count generalizing i h with
  | zero => rfl
  | succ k ih =>
    simp only [makita_write_bytes, ih]
    rfl

theorem notes_failedResets (k : Nat) (h : History) : notes (failedResets k h) = notes h := by
  induction k generalizing h with
  | zero => rfl
  | succ k ih =>
    rw [failedResets, ih]
    rfl

theorem notes_reset_loop (dev : Device) (k : Nat) (h : History) :
    notes (cmd_and_read_reset dev k h).2 = notes h := by
  induction k generalizing h with
  | zero =>
    simp only [cmd_and_read_reset]
    split <;> rfl
  | succ k ih =>
    simp only [cmd_and_read_reset]
    split
    · rfl
    · rw [ih]
      rfl

theorem notes_sent (dev : Device) (n initial : Nat) (cmd : List Nat) (cmd_len : Nat)
    (hr : History) :
    notes (afterReads dev n (cmd_and_read_sent dev initial cmd cmd_len hr)) = notes hr := by
  rw [notes_afterReads]
  unfold cmd_and_read_sent
  split
  · rw [notes_write_bytes, notes_afterReads]
    rfl
  · rw [notes_write_bytes]
    rfl

theorem ite_history_eq {α : Type} (c : Prop) [Decidable c] (B : List Nat) (x y : History)
    (f : History → α) (a : α) (hx : f x = a) (hy : f y = a) :
    f (if c then (true, B, x) else (false, B, y)).2.2 = a := by
  split
  · exact hx
  · exact hy

theorem notes_cmd_and_read (dev : Device) (initial : Nat) (cmd : List Nat) (cmd_len : Nat)
    (rsp : List Nat) (rsp_len : Nat) (h : History) :
    notes (cmd_and_read dev initial cmd cmd_len rsp rsp_len h).2.2 = notes h := by
  cases hc : (cmd_and_read_reset dev 5 h).1
  · rw [cmd_and_read_failed_reset dev initial cmd cmd_len rsp rsp_len h hc]
    show notes (trigger_power (failedResets 5 h)) = notes h
    exact notes_failedResets 5 h
  · obtain ⟨B, _, heq⟩ := cmd_and_read_answered dev initial cmd cmd_len rsp rsp_len h _
      (reset_loop_eta dev 5 h true hc)
    have hs := notes_sent dev rsp_len initial cmd cmd_len (cmd_and_read_reset dev 5 h).2
    rw [notes_reset_loop] at hs
    rw [heq]
    apply ite_history_eq
    · exact hs
    · exact hs

theorem notes_try_charger_loop (dev : Device) (n : Nat) (rsp : List Nat) (h : History) :
    notes (try_charger_loop dev n rsp h).2.2 = notes h := by
  induction n generalizing rsp h with
  | zero => rfl
  | succ k ih =>
    have hc : notes (charger_33_cmd dev rsp h).2.2 = notes h :=
      notes_cmd_and_read dev 0x33 _ 2 rsp 32 h
    simp only [try_charger_loop]
    split
    · exact hc
    · rw [ih, hc]

theorem isBatteryLocked_history (dev : Device) (h : History) :
    (isBatteryLocked dev h).2 = (try_charger dev (List.replicate 64 0) h).2.2 := by
  cases hc : (try_charger dev (List.replicate 64 0) h).1
  · rw [isBatteryLocked_read_failed dev h _ _ (read_result_eta _ false hc)]
  · exact (isBatteryLocked_read_ok dev h _ _ (read_result_eta _ true hc)).1

theorem notes_isBatteryLocked (dev : Device) (h : History) :
    notes (isBatteryLocked dev h).2 = notes h := by
  rw [isBatteryLocked_history]
  exact notes_try_charger_loop dev 20 _ h

theorem notes_testmode_cmd (dev : Device) (g : List Nat) (h : History) :
    notes (testmode_cmd dev g h).2 = Note.testmode :: notes h := by
  unfold testmode_cmd cmd_and_read_33
  rw [notes_cmd_and_read]
  rfl

theorem notes_reset_error_cmd (dev : Device) (g : List Nat) (h : History) :
    notes (reset_error_cmd dev g h).2 = Note.da 0x04 :: notes h := by
  unfold reset_error_cmd send_da_cmd cmd_and_read_33
  rw [notes_cmd_and_read]
  rfl

theorem notes_exit_testmode_cmd (dev : Device) (g : List Nat) (h : History) :
    notes (exit_testmode_cmd dev g h).2 = notes h := by
  unfold exit_testmode_cmd cmd_and_read_33
  exact notes_cmd_and_read _ _ _ _ _ _ _

theorem notes_store_reset (dev : Device) (k : Nat) (h : History) :
    notes (store_reset dev k h).2 = notes h := by
  induction k generalizing h with
  | zero => rfl
  | succ k ih =>
    simp only [store_reset]
    split
    · rfl
    · rw [ih]
      rfl

theorem notes_store_commit (dev : Device) (n : Nat) (rsp : List Nat) (h : History) :
    notes (store_commit dev n rsp h).2 = notes h := by
  induction n generalizing rsp h with
  | zero => rfl
  | succ k ih =>
    simp only [store_commit]
    rw [ih, read_bytes_history]
    show notes (afterReads dev 8 _) = notes h
    rw [notes_afterReads]
    exact notes_store_reset dev 5 h

theorem notes_store_cmd_direct (dev : Device) (data : List Nat) (h : History) :
    notes (store_cmd_direct dev data h) = notes h := by
  unfold store_cmd_direct
  dsimp only
  split
  · exact notes_store_reset dev 5 h
  · rw [notes_store_commit, read_bytes_history]
    show notes (makita_write_bytes data 32 0 _) = notes h
    rw [notes_write_bytes]
    show notes (afterReads dev 8 _) = notes h
    rw [notes_afterReads]
    exact notes_store_reset dev 5 h

theorem notes_write_msg_to_eeprom (dev : Device) (msg g : List Nat) (h : History) :
    notes (write_msg_to_eeprom dev msg g h).2 =
      Note.testmode :: Note.eepromWrite :: notes h := by
  unfold write_msg_to_eeprom
  dsimp only
  show notes (exit_testmode_cmd dev _ _).2 = _
  rw [notes_exit_testmode_cmd]
  show notes (store_cmd_direct dev msg _) = _
  rw [notes_store_cmd_direct]
  show notes (charger_33_cmd dev _ _).2.2 = _
  unfold charger_33_cmd cmd_and_read_33
  rw [notes_cmd_and_read]
  show notes (testmode_cmd dev g _).2 = _
  rw [notes_testmode_cmd]
  rfl

/-! ## The notes of `unlockBattery` -/

theorem flatten_replicate_snoc (x : List Note) (n : Nat) (t : List Note) :
    (List.replicate n x).flatten ++ (x ++ t) = (List.replicate (n + 1) x).flatten ++ t := by
  induction n with
  | zero => simp
  | succ k ih =>
    rw [List.replicate_succ, List.flatten_cons, List.append_assoc, ih]
    rw [List.replicate_succ (n := k + 1), List.flatten_cons, List.append_assoc]

theorem lockedRounds_snoc (c : List Note) (k : Nat) (t : List Note) :
    lockedRounds c k ++ (Note.lockCheck true :: (c ++ t)) = lockedRounds c (k + 1) ++ t := by
  unfold lockedRounds
  exact flatten_replicate_snoc (Note.lockCheck true :: c) k t

theorem notes_phase1_reps (dev : Device) (n : Nat) (g : List Nat) (h : History) :
    notes (unlock_phase1_reps dev n g h).2 =
      (List.replicate n [Note.da 0x04, Note.testmode]).flatten ++ notes h := by
  induction n generalizing g h with
  | zero => rfl
  | succ k ih =>
    simp only [unlock_phase1_reps]
    rw [ih, notes_reset_error_cmd, notes_testmode_cmd, ← flatten_replicate_snoc]
    rfl

theorem notes_phase3_reps (dev : Device) (n : Nat) (g : List Nat) (h : History) :
    notes (unlock_phase3_reps dev n g h).2 =
      (List.replicate n [Note.da 0x04, Note.testmode]).flatten ++ notes h := by
  induction n generalizing g h with
  | zero => rfl
  | succ k ih =>
    simp only [unlock_phase3_reps]
    rw [ih]
    show _ ++ notes (reset_error_cmd dev _ _).2 = _
    rw [notes_reset_error_cmd]
    show _ ++ (Note.da 4 :: notes (testmode_cmd dev g h).2) = _
    rw [notes_testmode_cmd, ← flatten_replicate_snoc]
    rfl

theorem notes_resetBatteryErrors_loop (dev : Device) (n : Nat) (g : List Nat) (h : History) :
    notes (resetBatteryErrors_loop dev n g h).2 =
      (List.replicate n [Note.da 0x04, Note.testmode]).flatten ++ notes h := by
  induction n generalizing g h with
  | zero => rfl
  | succ k ih =>
    simp only [resetBatteryErrors_loop]
    rw [ih, notes_reset_error_cmd, notes_testmode_cmd, ← flatten_replicate_snoc]
    rfl

theorem unlock_phase1_trace (dev : Device) (n : Nat) (g : List Nat) (h : History) :
    ((unlock_phase1 dev n g h).1 = false ∧
      notes (unlock_phase1 dev n g h).2.2 = lockedRounds phase1CycleNotes n ++ notes h) ∨
    ((unlock_phase1 dev n g h).1 = true ∧ ∃ j, j < n ∧
      notes (unlock_phase1 dev n g h).2.2 =
        Note.unlocked :: Note.lockCheck false ::
          (phase1CycleNotes ++ (lockedRounds phase1CycleNotes j ++ notes h)) ∧
      ∃ h0, (unlock_phase1 dev n g h).2.2 =
          Event.note Note.unlocked :: Event.note (Note.lockCheck false) ::
            (isBatteryLocked dev h0).2 ∧
        (isBatteryLocked dev h0).1 = false) := by
  induction n generalizing g h with
  | zero => exact Or.inl ⟨rfl, rfl⟩
  | succ n ih =>
    have hn : notes (isBatteryLocked dev (unlock_phase1_reps dev 5 g
          (trigger_power (Event.note Note.phase1Cycle :: h))).2).2 = phase1CycleNotes ++ notes h := by
      rw [notes_isBatteryLocked]
      rw [notes_phase1_reps]
      rfl
    simp only [unlock_phase1]
    cases hc : (isBatteryLocked dev (unlock_phase1_reps dev 5 g
          (trigger_power (Event.note Note.phase1Cycle :: h))).2).1
    · rw [if_pos rfl]
      refine Or.inr ⟨rfl, 0, Nat.succ_pos n, ?_, _, rfl, hc⟩
      show Note.unlocked :: Note.lockCheck false :: notes (isBatteryLocked dev _).2 = _
      rw [hn]
      rfl
    · rw [if_neg (fun hx => Bool.noConfusion hx)]
      have hn2 : notes (Event.note (Note.lockCheck true) ::
          (isBatteryLocked dev (unlock_phase1_reps dev 5 g
          (trigger_power (Event.note Note.phase1Cycle :: h))).2).2) =
          Note.lockCheck true :: (phase1CycleNotes ++ notes h) := by
        show Note.lockCheck true :: notes (isBatteryLocked dev _).2 = _
        rw [hn]
      rcases ih _ (Event.note (Note.lockCheck true) ::
          (isBatteryLocked dev (unlock_phase1_reps dev 5 g
          (trigger_power (Event.note Note.phase1Cycle :: h))).2).2) with ⟨h1, h2⟩ | ⟨h1, j, hj, h2, h3⟩
      · refine Or.inl ⟨h1, ?_⟩
        rw [h2, hn2, lockedRounds_snoc]
      · refine Or.inr ⟨h1, j + 1, Nat.succ_lt_succ hj, ?_, h3⟩
        rw [h2, hn2, lockedRounds_snoc]

theorem unlock_phase2_writes_trace (dev : Device) (raw_msg : List Nat) (n : Nat) (g : List Nat) (h : History) :
    ((unlock_phase2_writes dev raw_msg n g h).1 = false ∧
      notes (unlock_phase2_writes dev raw_msg n g h).2.2 = lockedRounds phase2WriteNotes n ++ notes h) ∨
    ((unlock_phase2_writes dev raw_msg n g h).1 = true ∧ ∃ j, j < n ∧
      notes (unlock_phase2_writes dev raw_msg n g h).2.2 =
        Note.unlocked :: Note.lockCheck false ::
          (phase2WriteNotes ++ (lockedRounds phase2WriteNotes j ++ notes h)) ∧
      ∃ h0, (unlock_phase2_writes dev raw_msg n g h).2.2 =
          Event.note Note.unlocked :: Event.note (Note.lockCheck false) ::
            (isBatteryLocked dev h0).2 ∧
        (isBatteryLocked dev h0).1 = false) := by
  induction n generalizing g h with
  | zero => exact Or.inl ⟨rfl, rfl⟩
  | succ n ih =>
    have hn : notes (isBatteryLocked dev (delay 1000 (set_enablepin true (delay 2000 (set_enablepin false
          (write_msg_to_eeprom dev raw_msg g (Event.note Note.phase2Write :: h)).2))))).2 = phase2WriteNotes ++ notes h := by
      rw [notes_isBatteryLocked]
      show notes (write_msg_to_eeprom dev raw_msg g _).2 = _
      rw [notes_write_msg_to_eeprom]
      rfl
    simp only [unlock_phase2_writes]
    cases hc : (isBatteryLocked dev (delay 1000 (set_enablepin true (delay 2000 (set_enablepin false
          (write_msg_to_eeprom dev raw_msg g (Event.note Note.phase2Write :: h)).2))))).1
    · rw [if_pos rfl]
      refine Or.inr ⟨rfl, 0, Nat.succ_pos n, ?_, _, rfl, hc⟩
      show Note.unlocked :: Note.lockCheck false :: notes (isBatteryLocked dev _).2 = _
      rw [hn]
      rfl
    · rw [if_neg (fun hx => Bool.noConfusion hx)]
      have hn2 : notes (Event.note (Note.lockCheck true) ::
          (isBatteryLocked dev (delay 1000 (set_enablepin true (delay 2000 (set_enablepin false
          (write_msg_to_eeprom dev raw_msg g (Event.note Note.phase2Write :: h)).2))))).2) =
          Note.lockCheck true :: (phase2WriteNotes ++ notes h) := by
        show Note.lockCheck true :: notes (isBatteryLocked dev _).2 = _
        rw [hn]
      rcases ih _ (Event.note (Note.lockCheck true) ::
          (isBatteryLocked dev (delay 1000 (set_enablepin true (delay 2000 (set_enablepin false
          (write_msg_to_eeprom dev raw_msg g (Event.note Note.phase2Write :: h)).2))))).2) with ⟨h1, h2⟩ | ⟨h1, j, hj, h2, h3⟩
      · refine Or.inl ⟨h1, ?_⟩
        rw [h2, hn2, lockedRounds_snoc]
      · refine Or.inr ⟨h1, j + 1, Nat.succ_lt_succ hj, ?_, h3⟩
        rw [h2, hn2, lockedRounds_snoc]

theorem unlock_phase3_trace (dev : Device) (n : Nat) (g : List Nat) (h : History) :
    ((unlock_phase3 dev n g h).1 = false ∧
      notes (unlock_phase3 dev n g h).2.2 = lockedRounds phase3CycleNotes n ++ notes h) ∨
    ((unlock_phase3 dev n g h).1 = true ∧ ∃ j, j < n ∧
      notes (unlock_phase3 dev n g h).2.2 =
        Note.unlocked :: Note.lockCheck false ::
          (phase3CycleNotes ++ (lockedRounds phase3CycleNotes j ++ notes h)) ∧
      ∃ h0, (unlock_phase3 dev n g h).2.2 =
          Event.note Note.unlocked :: Event.note (Note.lockCheck false) ::
            (isBatteryLocked dev h0).2 ∧
        (isBatteryLocked dev h0).1 = false) := by
  induction n generalizing g h with
  | zero => exact Or.inl ⟨rfl, rfl⟩
  | succ n ih =>
    have hn : notes (isBatteryLocked dev (unlock_phase3_reps dev 10 g
          (delay 1000 (set_enablepin true (delay 2000 (set_enablepin false
            (Event.note Note.phase3Cycle :: h)))))).2).2 = phase3CycleNotes ++ notes h := by
      rw [notes_isBatteryLocked]
      rw [notes_phase3_reps]
      rfl
    simp only [unlock_phase3]
    cases hc : (isBatteryLocked dev (unlock_phase3_reps dev 10 g
          (delay 1000 (set_enablepin true (delay 2000 (set_enablepin false
            (Event.note Note.phase3Cycle :: h)))))).2).1
    · rw [if_pos rfl]
      refine Or.inr ⟨rfl, 0, Nat.succ_pos n, ?_, _, rfl, hc⟩
      show Note.unlocked :: Note.lockCheck false :: notes (isBatteryLocked dev _).2 = _
      rw [hn]
      rfl
    · rw [if_neg (fun hx => Bool.noConfusion hx)]
      have hn2 : notes (Event.note (Note.lockCheck true) ::
          (isBatteryLocked dev (unlock_phase3_reps dev 10 g
          (delay 1000 (set_enablepin true (delay 2000 (set_enablepin false
            (Event.note Note.phase3Cycle :: h)))))).2).2) =
          Note.lockCheck true :: (phase3CycleNotes ++ notes h) := by
        show Note.lockCheck true :: notes (isBatteryLocked dev _).2 = _
        rw [hn]
      rcases ih _ (Event.note (Note.lockCheck true) ::
          (isBatteryLocked dev (unlock_phase3_reps dev 10 g
          (delay 1000 (set_enablepin true (delay 2000 (set_enablepin false
            (Event.note Note.phase3Cycle :: h)))))).2).2) with ⟨h1, h2⟩ | ⟨h1, j, hj, h2, h3⟩
      · refine Or.inl ⟨h1, ?_⟩
        rw [h2, hn2, lockedRounds_snoc]
      · refine Or.inr ⟨h1, j + 1, Nat.succ_lt_succ hj, ?_, h3⟩
        rw [h2, hn2, lockedRounds_snoc]

theorem unlock_phase2_trace (dev : Device) (g : List Nat) (h : History) :
    ((unlock_phase2 dev g h).1 = false ∧ ∃ k2, (k2 = 0 ∨ k2 = 3) ∧
      notes (unlock_phase2 dev g h).2.2 = lockedRounds phase2WriteNotes k2 ++ notes h ∧
      ((try_charger dev (memset (List.replicate 48 0) 0 48) h).1 = false → k2 = 0)) ∨
    ((unlock_phase2 dev g h).1 = true ∧ ∃ j, j < 3 ∧
      notes (unlock_phase2 dev g h).2.2 =
        Note.unlocked :: Note.lockCheck false ::
          (phase2WriteNotes ++ (lockedRounds phase2WriteNotes j ++ notes h)) ∧
      ∃ h0, (unlock_phase2 dev g h).2.2 =
          Event.note Note.unlocked :: Event.note (Note.lockCheck false) ::
            (isBatteryLocked dev h0).2 ∧
        (isBatteryLocked dev h0).1 = false) := by
  have hn : notes (try_charger dev (memset (List.replicate 48 0) 0 48) h).2.2 = notes h :=
    notes_try_charger_loop dev 20 _ h
  unfold unlock_phase2
  dsimp only
  cases ht : (try_charger dev (memset (List.replicate 48 0) 0 48) h).1
  · rw [if_neg (fun hx => Bool.noConfusion hx)]
    exact Or.inl ⟨rfl, 0, Or.inl rfl, hn, fun _ => rfl⟩
  · rw [if_pos rfl]
    rcases unlock_phase2_writes_trace dev
        (clearErrorWithChecksum ((try_charger dev (memset (List.replicate 48 0) 0 48) h).2.1.drop 8)) 3 g
        (try_charger dev (memset (List.replicate 48 0) 0 48) h).2.2 with ⟨h1, h2⟩ | ⟨h1, j, hj, h2, h3⟩
    · rw [hn] at h2
      exact Or.inl ⟨h1, 3, Or.inr rfl, h2, fun hx => Bool.noConfusion hx⟩
    · rw [hn] at h2
      exact Or.inr ⟨h1, j, hj, h2, h3⟩

theorem unlockBattery_p1 (dev : Device) (g : List Nat) (h : History)
    (h1 : (unlock_phase1 dev 5 g h).1 = true) :
    unlockBattery dev g h = unlock_phase1 dev 5 g h := by
  unfold unlockBattery
  dsimp only
  rw [if_pos h1]

theorem unlockBattery_p2 (dev : Device) (g : List Nat) (h : History)
    (h1 : (unlock_phase1 dev 5 g h).1 = false)
    (h2 : (unlock_phase2 dev (unlock_phase1 dev 5 g h).2.1 (unlock_phase1 dev 5 g h).2.2).1
      = true) :
    unlockBattery dev g h =
      unlock_phase2 dev (unlock_phase1 dev 5 g h).2.1 (unlock_phase1 dev 5 g h).2.2 := by
  unfold unlockBattery
  dsimp only
  rw [if_neg (by rw [h1]; exact Bool.noConfusion), if_pos h2]

theorem unlockBattery_p3 (dev : Device) (g : List Nat) (h : History)
    (h1 : (unlock_phase1 dev 5 g h).1 = false)
    (h2 : (unlock_phase2 dev (unlock_phase1 dev 5 g h).2.1 (unlock_phase1 dev 5 g h).2.2).1
      = false) :
    unlockBattery dev g h =
      if (unlock_phase3 dev 3
          (unlock_phase2 dev (unlock_phase1 dev 5 g h).2.1 (unlock_phase1 dev 5 g h).2.2).2.1
          (unlock_phase2 dev (unlock_phase1 dev 5 g h).2.1
            (unlock_phase1 dev 5 g h).2.2).2.2).1 = true then
        unlock_phase3 dev 3
          (unlock_phase2 dev (unlock_phase1 dev 5 g h).2.1 (unlock_phase1 dev 5 g h).2.2).2.1
          (unlock_phase2 dev (unlock_phase1 dev 5 g h).2.1 (unlock_phase1 dev 5 g h).2.2).2.2
      else
        (false,
          (unlock_phase3 dev 3
            (unlock_phase2 dev (unlock_phase1 dev 5 g h).2.1
              (unlock_phase1 dev 5 g h).2.2).2.1
            (unlock_phase2 dev (unlock_phase1 dev 5 g h).2.1
              (unlock_phase1 dev 5 g h).2.2).2.2).2.1,
          Event.note Note.unlockFailed ::
            (unlock_phase3 dev 3
              (unlock_phase2 dev (unlock_phase1 dev 5 g h).2.1
                (unlock_phase1 dev 5 g h).2.2).2.1
              (unlock_phase2 dev (unlock_phase1 dev 5 g h).2.1
                (unlock_phase1 dev 5 g h).2.2).2.2).2.2) := by
  unfold unlockBattery
  dsimp only
  rw [if_neg (by rw [h1]; exact Bool.noConfusion), if_neg (by rw [h2]; exact Bool.noConfusion)]

/-- The notes of a run of `unlockBattery` are those of one of the admissible paths. -/
theorem unlock_trace (dev : Device) (g : List Nat) (h : History) :
    ∃ k1 k2 k3, k1 ≤ 5 ∧ k2 ≤ 3 ∧ k3 ≤ 3 ∧
      unlockValid (unlockBattery dev g h).1 k1 k2 k3 = true ∧
      notes (unlockBattery dev g h).2.2 =
        unlockNotes (unlockBattery dev g h).1 k1 k2 k3 ++ notes h ∧
      ((unlock_phase1 dev 5 g h).1 = false →
        (try_charger dev (memset (List.replicate 48 0) 0 48) (unlock_phase1 dev 5 g h).2.2).1 = false →
        k2 = 0 ∧ 1 ≤ k3) ∧
      ((unlockBattery dev g h).1 = true →
        ∃ h0, (unlockBattery dev g h).2.2 =
            Event.note Note.unlocked :: Event.note (Note.lockCheck false) ::
              (isBatteryLocked dev h0).2 ∧
          (isBatteryLocked dev h0).1 = false) := by
  rcases unlock_phase1_trace dev 5 g h with ⟨a1, a2⟩ | ⟨a1, j, hj, a2, a3⟩
  · rcases unlock_phase2_trace dev (unlock_phase1 dev 5 g h).2.1 (unlock_phase1 dev 5 g h).2.2
      with ⟨b1, k2, hk2, b2, b3⟩ | ⟨b1, j, hj, b2, b3⟩
    · rw [a2] at b2
      have heq := unlockBattery_p3 dev g h a1 b1
      rcases unlock_phase3_trace dev 3
          (unlock_phase2 dev (unlock_phase1 dev 5 g h).2.1 (unlock_phase1 dev 5 g h).2.2).2.1
          (unlock_phase2 dev (unlock_phase1 dev 5 g h).2.1 (unlock_phase1 dev 5 g h).2.2).2.2
        with ⟨c1, c2⟩ | ⟨c1, j, hj, c2, c3⟩
      · rw [if_neg (by rw [c1]; exact Bool.noConfusion)] at heq
        rw [b2] at c2
        rw [heq]
        refine ⟨5, k2, 3, by decide, by omega, by decide, ?_, ?_, ?_,
          fun hx => Bool.noConfusion hx⟩
        · rcases hk2 with e | e <;> subst e <;> rfl
        · show Note.unlockFailed :: notes (unlock_phase3 dev 3 _ _).2.2 = _
          rw [c2]
          rcases hk2 with e | e <;> subst e <;> rfl
        · intro _ hread
          exact ⟨b3 hread, by decide⟩
      · rw [if_pos c1] at heq
        rw [b2] at c2
        rw [heq, c1]
        refine ⟨5, k2, j + 1, by decide, by omega, by omega, ?_, ?_, ?_, fun _ => c3⟩
        · rcases hk2 with e | e <;> subst e <;> interval_cases j <;> rfl
        · rw [c2]
          rcases hk2 with e | e <;> subst e <;> interval_cases j <;> rfl
        · intro _ hread
          exact ⟨b3 hread, by omega⟩
    · rw [a2] at b2
      rw [unlockBattery_p2 dev g h a1 b1, b1]
      refine ⟨5, j + 1, 0, by decide, by omega, by decide, ?_, ?_, ?_, fun _ => b3⟩
      · interval_cases j <;> rfl
      · rw [b2]
        interval_cases j <;> rfl
      · intro _ hread
        exfalso
        have hp2 : (unlock_phase2 dev (unlock_phase1 dev 5 g h).2.1
            (unlock_phase1 dev 5 g h).2.2).1 = false := by
          unfold unlock_phase2
          dsimp only
          rw [if_neg (by rw [hread]; exact Bool.noConfusion)]
        rw [hp2] at b1
        exact Bool.noConfusion b1
  · rw [unlockBattery_p1 dev g h a1, a1]
    refine ⟨j + 1, 0, 0, by omega, by decide, by decide, ?_, ?_, ?_, fun _ => a3⟩
    · interval_cases j <;> rfl
    · rw [a2]
      interval_cases j <;> rfl
    · intro hx
      exact Bool.noConfusion hx

set_option maxRecDepth 1000000 in
theorem unlockNotes_counts_success : ∀ k1, k1 < 6 → ∀ k2, k2 < 4 → ∀ k3, k3 < 4 →
    unlockValid true k1 k2 k3 = true →
      (unlockNotes true k1 k2 k3).count Note.phase1Cycle = k1 ∧
      (unlockNotes true k1 k2 k3).count Note.eepromWrite = k2 ∧
      (unlockNotes true k1 k2 k3).count Note.phase2Write = k2 ∧
      (unlockNotes true k1 k2 k3).count Note.phase3Cycle = k3 ∧
      (unlockNotes true k1 k2 k3).count (Note.da 0x04) = 5 * k1 + 10 * k3 ∧
      (unlockNotes true k1 k2 k3).count (Note.lockCheck true) + (unlockNotes true k1 k2 k3).count (Note.lockCheck false) = k1 + k2 + k3 ∧
      k1 + k2 + k3 ≤ 11 ∧
      (unlockNotes true k1 k2 k3).count (Note.lockCheck false) = 1 ∧
      Note.unlockFailed ∉ (unlockNotes true k1 k2 k3) := by
  intro k1 h1 k2 h2 k3 h3
  interval_cases k1 <;> interval_cases k2 <;> interval_cases k3 <;> decide

set_option maxRecDepth 1000000 in
theorem unlockNotes_counts_failure : ∀ k1, k1 < 6 → ∀ k2, k2 < 4 → ∀ k3, k3 < 4 →
    unlockValid false k1 k2 k3 = true →
      (unlockNotes false k1 k2 k3).count Note.phase1Cycle = k1 ∧
      (unlockNotes false k1 k2 k3).count Note.eepromWrite = k2 ∧
      (unlockNotes false k1 k2 k3).count Note.phase2Write = k2 ∧
      (unlockNotes false k1 k2 k3).count Note.phase3Cycle = k3 ∧
      (unlockNotes false k1 k2 k3).count (Note.da 0x04) = 5 * k1 + 10 * k3 ∧
      (unlockNotes false k1 k2 k3).count (Note.lockCheck true) + (unlockNotes false k1 k2 k3).count (Note.lockCheck false) = k1 + k2 + k3 ∧
      k1 + k2 + k3 ≤ 11 ∧
      (unlockNotes false k1 k2 k3).count (Note.lockCheck false) = 0 ∧
      Note.unlockFailed ∈ (unlockNotes false k1 k2 k3) ∧
      k1 = 5 ∧ (k2 = 0 ∨ k2 = 3) ∧ k3 = 3 := by
  intro k1 h1 k2 h2 k3 h3
  interval_cases k1 <;> interval_cases k2 <;> interval_cases k3 <;> decide

/-! ## C17: `unlockBattery` is bounded -/

/-- C17: `unlockBattery` is a total function, and the marks it adds to any history are
those of `k1 ≤ 5` Phase 1 cycles with 5 error resets each, `k2 ≤ 3` Phase 2 EEPROM
writes and `k3 ≤ 3` Phase 3 cycles with 10 error resets each, with one lock check per
cycle or write, so at most 11 lock checks.  When Phase 1 fails and the Phase 2 record
read fails, no EEPROM write is made and Phase 3 is entered.  The failure report is
printed exactly when the function returns false, and then all 5 + 3 Phase 3 cycles ran
and no lock check reported unlocked. -/
theorem unlockBattery_bounded (dev : Device) (g_buf : List Nat) (h : History) :
    ∃ k1 k2 k3 new,
      notes (unlockBattery dev g_buf h).2.2 = new ++ notes h ∧
      k1 ≤ 5 ∧ k2 ≤ 3 ∧ k3 ≤ 3 ∧
      new.count Note.phase1Cycle = k1 ∧
      new.count Note.eepromWrite = k2 ∧
      new.count Note.phase2Write = k2 ∧
      new.count Note.phase3Cycle = k3 ∧
      new.count (Note.da 0x04) = 5 * k1 + 10 * k3 ∧
      new.count (Note.lockCheck true) + new.count (Note.lockCheck false) = k1 + k2 + k3 ∧
      new.count (Note.lockCheck true) + new.count (Note.lockCheck false) ≤ 11 ∧
      ((unlock_phase1 dev 5 g_buf h).1 = false →
        (try_charger dev (memset (List.replicate 48 0) 0 48)
          (unlock_phase1 dev 5 g_buf h).2.2).1 = false →
        new.count Note.eepromWrite = 0 ∧ 1 ≤ new.count Note.phase3Cycle) ∧
      ((unlockBattery dev g_buf h).1 = false ↔ Note.unlockFailed ∈ new) ∧
      ((unlockBattery dev g_buf h).1 = false →
        new.count (Note.lockCheck false) = 0 ∧ new.count (Note.lockCheck true) = k1 + k2 + k3 ∧
        k1 = 5 ∧ (k2 = 0 ∨ k2 = 3) ∧ k3 = 3) := by
  obtain ⟨k1, k2, k3, h1, h2, h3, hv, hn, hread, _⟩ := unlock_trace dev g_buf h
  refine ⟨k1, k2, k3, unlockNotes (unlockBattery dev g_buf h).1 k1 k2 k3, hn, h1, h2, h3, ?_⟩
  cases hs : (unlockBattery dev g_buf h).1
  · rw [hs] at hv
    obtain ⟨c1, c2, c3, c4, c5, c6, c7, c8, c9, c10, c11, c12⟩ :=
      unlockNotes_counts_failure k1 (by omega) k2 (by omega) k3 (by omega) hv
    refine ⟨c1, c2, c3, c4, c5, c6, by omega, ?_, ?_, ?_⟩
    · intro ha hb
      obtain ⟨e1, e2⟩ := hread ha hb
      exact ⟨by omega, by omega⟩
    · exact ⟨fun _ => c9, fun _ => rfl⟩
    · intro _
      exact ⟨c8, by omega, c10, c11, c12⟩
  · rw [hs] at hv
    obtain ⟨c1, c2, c3, c4, c5, c6, c7, c8, c9⟩ :=
      unlockNotes_counts_success k1 (by omega) k2 (by omega) k3 (by omega) hv
    refine ⟨c1, c2, c3, c4, c5, c6, by omega, ?_, ?_, ?_⟩
    · intro ha hb
      obtain ⟨e1, e2⟩ := hread ha hb
      exact ⟨by omega, by omega⟩
    · exact ⟨fun hx => Bool.noConfusion hx, fun hx => absurd hx c9⟩
    · intro hx
      exact Bool.noConfusion hx

/-- C17 at a pack that never answers: every lock check fails to read and counts as
locked, so all 5 + 3 cycles run. -/
theorem unlockBattery_bounded_witness :
    ∃ k1 k2 k3 new,
      notes (unlockBattery absentDevice (List.replicate 64 0) []).2.2 = new ++ notes [] ∧
      k1 ≤ 5 ∧ k2 ≤ 3 ∧ k3 ≤ 3 ∧
      new.count Note.phase1Cycle = k1 ∧
      new.count Note.eepromWrite = k2 ∧
      new.count Note.phase2Write = k2 ∧
      new.count Note.phase3Cycle = k3 ∧
      new.count (Note.da 0x04) = 5 * k1 + 10 * k3 ∧
      new.count (Note.lockCheck true) + new.count (Note.lockCheck false) = k1 + k2 + k3 ∧
      new.count (Note.lockCheck true) + new.count (Note.lockCheck false) ≤ 11 ∧
      ((unlock_phase1 absentDevice 5 (List.replicate 64 0) []).1 = false →
        (try_charger absentDevice (memset (List.replicate 48 0) 0 48)
          (unlock_phase1 absentDevice 5 (List.replicate 64 0) []).2.2).1 = false →
        new.count Note.eepromWrite = 0 ∧ 1 ≤ new.count Note.phase3Cycle) ∧
      ((unlockBattery absentDevice (List.replicate 64 0) []).1 = false ↔
        Note.unlockFailed ∈ new) ∧
      ((unlockBattery absentDevice (List.replicate 64 0) []).1 = false →
        new.count (Note.lockCheck false) = 0 ∧ new.count (Note.lockCheck true) = k1 + k2 + k3 ∧
        k1 = 5 ∧ (k2 = 0 ∨ k2 = 3) ∧ k3 = 3) :=
  unlockBattery_bounded absentDevice (List.replicate 64 0) []

/-! ## C16: the first unlocked observation ends `unlockBattery` -/

theorem unlock_first_cycle (dev : Device) (g : List Nat) (h : History)
    (hfirst : (isBatteryLocked dev (unlock_phase1_reps dev 5 g
      (trigger_power (Event.note Note.phase1Cycle :: h))).2).1 = false) :
    unlockBattery dev g h =
      (true, (unlock_phase1_reps dev 5 g (trigger_power (Event.note Note.phase1Cycle :: h))).1,
        Event.note Note.unlocked :: Event.note (Note.lockCheck false) ::
          (isBatteryLocked dev (unlock_phase1_reps dev 5 g
            (trigger_power (Event.note Note.phase1Cycle :: h))).2).2) := by
  have hp : unlock_phase1 dev 5 g h =
      (true, (unlock_phase1_reps dev 5 g (trigger_power (Event.note Note.phase1Cycle :: h))).1,
        Event.note Note.unlocked :: Event.note (Note.lockCheck false) ::
          (isBatteryLocked dev (unlock_phase1_reps dev 5 g
            (trigger_power (Event.note Note.phase1Cycle :: h))).2).2) := by
    show unlock_phase1 dev (4 + 1) g h = _
    simp only [unlock_phase1]
    rw [if_pos hfirst, hfirst]
  rw [unlockBattery_p1 dev g h (by rw [hp]), hp]

theorem first_cycle_notes (dev : Device) (g : List Nat) (h : History) :
    notes (Event.note Note.unlocked :: Event.note (Note.lockCheck false) ::
      (isBatteryLocked dev (unlock_phase1_reps dev 5 g
        (trigger_power (Event.note Note.phase1Cycle :: h))).2).2) =
    Note.unlocked :: Note.lockCheck false :: (phase1CycleNotes ++ notes h) := by
  show Note.unlocked :: Note.lockCheck false :: notes (isBatteryLocked dev _).2 = _
  rw [notes_isBatteryLocked, notes_phase1_reps]
  show _ = Note.unlocked :: Note.lockCheck false ::
    (((List.replicate 5 [Note.da 0x04, Note.testmode]).flatten ++ [Note.phase1Cycle]) ++ notes h)
  rw [List.append_assoc]
  rfl

set_option maxRecDepth 1000000 in
theorem answering_facts :
    (isBatteryLocked answeringDevice (unlock_phase1_reps answeringDevice 5 (List.replicate 64 0)
      (trigger_power (Event.note Note.phase1Cycle :: []))).2).1 = false ∧
    powerOffCount (Event.note Note.unlocked :: Event.note (Note.lockCheck false) ::
      (isBatteryLocked answeringDevice (unlock_phase1_reps answeringDevice 5
        (List.replicate 64 0) (trigger_power (Event.note Note.phase1Cycle :: []))).2).2) = 1 := by
  decide

set_option maxRecDepth 1000000 in
theorem unanswered_facts :
    (isBatteryLocked unansweredDevice (unlock_phase1_reps unansweredDevice 5
      (List.replicate 64 0) (trigger_power (Event.note Note.phase1Cycle :: []))).2).1 = false ∧
    powerOffCount (Event.note Note.unlocked :: Event.note (Note.lockCheck false) ::
      (isBatteryLocked unansweredDevice (unlock_phase1_reps unansweredDevice 5
        (List.replicate 64 0) (trigger_power (Event.note Note.phase1Cycle :: []))).2).2) = 11 := by
  decide

/-! ### Power cycles of the commands -/

theorem ite_flag_prop (c : Prop) [Decidable c] (B : List Nat) (x y : History)
    (P : Bool → History → Prop) (hx : P true x) (hy : P false y) :
    P (if c then (true, B, x) else (false, B, y)).1
      (if c then (true, B, x) else (false, B, y)).2.2 := by
  split
  · exact hx
  · exact hy

theorem powerOffCount_note (n : Note) (h : History) :
    powerOffCount (Event.note n :: h) = powerOffCount h := by
  simp [powerOffCount, List.count_cons]

theorem power_cmd_and_read (dev : Device) (initial : Nat) (cmd : List Nat) (cmd_len : Nat)
    (rsp : List Nat) (rsp_len : Nat) (h : History) :
    powerOffCount h ≤ powerOffCount (cmd_and_read dev initial cmd cmd_len rsp rsp_len h).2.2 ∧
    powerOffCount (cmd_and_read dev initial cmd cmd_len rsp rsp_len h).2.2
      ≤ powerOffCount h + 1 ∧
    ((cmd_and_read dev initial cmd cmd_len rsp rsp_len h).1 = true →
      powerOffCount (cmd_and_read dev initial cmd cmd_len rsp rsp_len h).2.2
        = powerOffCount h) := by
  cases hc : (cmd_and_read_reset dev 5 h).1
  · rw [cmd_and_read_failed_reset dev initial cmd cmd_len rsp rsp_len h hc]
    have e : powerOffCount (trigger_power (failedResets 5 h)) = powerOffCount h + 1 := by
      rw [powerOffCount_trigger_power]
      have e2 := countP_failedResets (fun e => e == Event.enable false) (by simp) (by simp) 5 h
      exact congrArg (fun n => n + 1) e2
    refine ⟨?_, ?_, fun hx => Bool.noConfusion hx⟩
    · show powerOffCount h ≤ powerOffCount (trigger_power (failedResets 5 h))
      omega
    · show powerOffCount (trigger_power (failedResets 5 h)) ≤ powerOffCount h + 1
      omega
  · obtain ⟨B, _, heq⟩ := cmd_and_read_answered dev initial cmd cmd_len rsp rsp_len h _
      (reset_loop_eta dev 5 h true hc)
    have hpow : powerOffCount (afterReads dev rsp_len
        (cmd_and_read_sent dev initial cmd cmd_len (cmd_and_read_reset dev 5 h).2)) =
        powerOffCount h := by
      have h1 := countP_sent (fun e => e == Event.enable false) (by simp) (by simp) (by simp)
        dev rsp_len initial cmd cmd_len (cmd_and_read_reset dev 5 h).2
      have h2 := countP_reset_loop_ok (fun e => e == Event.enable false) (by simp) (by simp)
        dev 5 h hc
      exact h1.trans h2
    rw [heq]
    refine ite_flag_prop _ B _ _
      (fun b t => powerOffCount h ≤ powerOffCount t ∧ powerOffCount t ≤ powerOffCount h + 1 ∧
        (b = true → powerOffCount t = powerOffCount h)) ?_ ?_
    · exact ⟨by omega, by omega, fun _ => hpow⟩
    · have e := powerOffCount_trigger_power (afterReads dev rsp_len
        (cmd_and_read_sent dev initial cmd cmd_len (cmd_and_read_reset dev 5 h).2))
      exact ⟨by omega, by omega, fun hx => Bool.noConfusion hx⟩

theorem power_testmode_cmd (dev : Device) (g : List Nat) (h : History) :
    powerOffCount h ≤ powerOffCount (testmode_cmd dev g h).2 ∧
    powerOffCount (testmode_cmd dev g h).2 ≤ powerOffCount h + 1 := by
  have e := power_cmd_and_read dev 0x33 [0xD9, 0x96, 0xA5] 3 g 29 (Event.note Note.testmode :: h)
  rw [powerOffCount_note] at e
  exact ⟨e.1, e.2.1⟩

theorem power_reset_error_cmd (dev : Device) (g : List Nat) (h : History) :
    powerOffCount h ≤ powerOffCount (reset_error_cmd dev g h).2 ∧
    powerOffCount (reset_error_cmd dev g h).2 ≤ powerOffCount h + 1 := by
  have e := power_cmd_and_read dev 0x33 [0xDA, 0x04] 2 g 9 (Event.note (Note.da 0x04) :: h)
  rw [powerOffCount_note] at e
  exact ⟨e.1, e.2.1⟩

theorem power_phase1_reps (dev : Device) (n : Nat) (g : List Nat) (h : History) :
    powerOffCount h ≤ powerOffCount (unlock_phase1_reps dev n g h).2 ∧
    powerOffCount (unlock_phase1_reps dev n g h).2 ≤ powerOffCount h + 2 * n := by
  induction n generalizing g h with
  | zero => exact ⟨Nat.le_refl _, Nat.le_refl _⟩
  | succ k ih =>
    simp only [unlock_phase1_reps]
    have a := power_testmode_cmd dev g (delay 200 h)
    have b := power_reset_error_cmd dev (testmode_cmd dev g (delay 200 h)).1
      (testmode_cmd dev g (delay 200 h)).2
    have c := ih (reset_error_cmd dev (testmode_cmd dev g (delay 200 h)).1
      (testmode_cmd dev g (delay 200 h)).2).1
      (reset_error_cmd dev (testmode_cmd dev g (delay 200 h)).1
      (testmode_cmd dev g (delay 200 h)).2).2
    have d : powerOffCount (delay 200 h) = powerOffCount h := by
      simp [powerOffCount, delay, List.count_cons]
    rw [d] at a
    omega

theorem power_try_charger_loop (dev : Device) (n : Nat) (rsp : List Nat) (h : History) :
    powerOffCount h ≤ powerOffCount (try_charger_loop dev n rsp h).2.2 ∧
    powerOffCount (try_charger_loop dev n rsp h).2.2 ≤ powerOffCount h + n ∧
    ((try_charger_loop dev n rsp h).1 = true →
      powerOffCount (try_charger_loop dev n rsp h).2.2 + 1 ≤ powerOffCount h + n) := by
  induction n generalizing rsp h with
  | zero => exact ⟨Nat.le_refl _, Nat.le_refl _, fun hx => Bool.noConfusion hx⟩
  | succ k ih =>
    have a : powerOffCount h ≤ powerOffCount (charger_33_cmd dev rsp h).2.2 ∧
        powerOffCount (charger_33_cmd dev rsp h).2.2 ≤ powerOffCount h + 1 ∧
        ((charger_33_cmd dev rsp h).1 = true →
          powerOffCount (charger_33_cmd dev rsp h).2.2 = powerOffCount h) :=
      power_cmd_and_read dev 0x33 [0xF0, 0x00] 2 rsp 32 h
    simp only [try_charger_loop]
    split
    · rename_i ht
      have e := a.2.2 ht
      refine ⟨?_, ?_, fun _ => ?_⟩
      · show powerOffCount h ≤ powerOffCount (charger_33_cmd dev rsp h).2.2
        omega
      · show powerOffCount (charger_33_cmd dev rsp h).2.2 ≤ powerOffCount h + (k + 1)
        omega
      · show powerOffCount (charger_33_cmd dev rsp h).2.2 + 1 ≤ powerOffCount h + (k + 1)
        omega
    · have c := ih (charger_33_cmd dev rsp h).2.1 (charger_33_cmd dev rsp h).2.2
      refine ⟨by omega, by omega, fun hx => ?_⟩
      have c3 := c.2.2 hx
      omega

theorem power_isBatteryLocked (dev : Device) (h : History) :
    powerOffCount h ≤ powerOffCount (isBatteryLocked dev h).2 ∧
    powerOffCount (isBatteryLocked dev h).2 ≤ powerOffCount h + 20 ∧
    ((isBatteryLocked dev h).1 = false →
      powerOffCount (isBatteryLocked dev h).2 ≤ powerOffCount h + 19) := by
  have a := power_try_charger_loop dev 20 (List.replicate 64 0) h
  have e : (isBatteryLocked dev h).2 = (try_charger_loop dev 20 (List.replicate 64 0) h).2.2 :=
    isBatteryLocked_history dev h
  rw [e]
  refine ⟨a.1, a.2.1, fun hf => ?_⟩
  cases hc : (try_charger_loop dev 20 (List.replicate 64 0) h).1
  · have hl := isBatteryLocked_read_failed dev h _ _
      (read_result_eta (try_charger dev (List.replicate 64 0) h) false hc)
    rw [hl] at hf
    exact Bool.noConfusion hf
  · have a3 := a.2.2 hc
    omega

theorem power_first_cycle (dev : Device) (g : List Nat) (h : History) :
    powerOffCount h + 1 ≤ powerOffCount (isBatteryLocked dev (unlock_phase1_reps dev 5 g
      (trigger_power (Event.note Note.phase1Cycle :: h))).2).2 ∧
    ((isBatteryLocked dev (unlock_phase1_reps dev 5 g
      (trigger_power (Event.note Note.phase1Cycle :: h))).2).1 = false →
      powerOffCount (isBatteryLocked dev (unlock_phase1_reps dev 5 g
        (trigger_power (Event.note Note.phase1Cycle :: h))).2).2 ≤ powerOffCount h + 30) := by
  have a := power_isBatteryLocked dev (unlock_phase1_reps dev 5 g
    (trigger_power (Event.note Note.phase1Cycle :: h))).2
  have b := power_phase1_reps dev 5 g (trigger_power (Event.note Note.phase1Cycle :: h))
  rw [powerOffCount_trigger_power, powerOffCount_note] at b
  refine ⟨by omega, fun hf => ?_⟩
  have a3 := a.2.2 hf
  omega

/-! ### The exact number of power cycles -/

theorem power_cmd_and_read_exact (dev : Device) (initial : Nat) (cmd : List Nat)
    (cmd_len : Nat) (rsp : List Nat) (rsp_len : Nat) (h : History) :
    powerOffCount (cmd_and_read dev initial cmd cmd_len rsp rsp_len h).2.2 =
      powerOffCount h +
        (if (cmd_and_read dev initial cmd cmd_len rsp rsp_len h).1 then 0 else 1) := by
  cases hc : (cmd_and_read_reset dev 5 h).1
  · rw [cmd_and_read_failed_reset dev initial cmd cmd_len rsp rsp_len h hc]
    have e : powerOffCount (trigger_power (failedResets 5 h)) = powerOffCount h + 1 := by
      rw [powerOffCount_trigger_power]
      have e2 := countP_failedResets (fun e => e == Event.enable false) (by simp) (by simp) 5 h
      exact congrArg (fun n => n + 1) e2
    show powerOffCount (trigger_power (failedResets 5 h)) = powerOffCount h + 1
    exact e
  · obtain ⟨B, _, heq⟩ := cmd_and_read_answered dev initial cmd cmd_len rsp rsp_len h _
      (reset_loop_eta dev 5 h true hc)
    have hpow : powerOffCount (afterReads dev rsp_len
        (cmd_and_read_sent dev initial cmd cmd_len (cmd_and_read_reset dev 5 h).2)) =
        powerOffCount h := by
      have h1 := countP_sent (fun e => e == Event.enable false) (by simp) (by simp) (by simp)
        dev rsp_len initial cmd cmd_len (cmd_and_read_reset dev 5 h).2
      have h2 := countP_reset_loop_ok (fun e => e == Event.enable false) (by simp) (by simp)
        dev 5 h hc
      exact h1.trans h2
    rw [heq]
    refine ite_flag_prop _ B _ _
      (fun b t => powerOffCount t = powerOffCount h + (if b then 0 else 1)) ?_ ?_
    · exact hpow
    · have e := powerOffCount_trigger_power (afterReads dev rsp_len
        (cmd_and_read_sent dev initial cmd cmd_len (cmd_and_read_reset dev 5 h).2))
      show powerOffCount (trigger_power _) = powerOffCount h + 1
      rw [e, hpow]

theorem power_phase1_reps_exact (dev : Device) (n : Nat) (g : List Nat) (h : History) :
    powerOffCount (unlock_phase1_reps dev n g h).2 =
      powerOffCount h + unlock_phase1_unanswered dev n g h := by
  induction n generalizing g h with
  | zero => rfl
  | succ k ih =>
    simp only [unlock_phase1_reps, unlock_phase1_unanswered]
    have a := power_cmd_and_read_exact dev 0x33 [0xD9, 0x96, 0xA5] 3 g 29
      (Event.note Note.testmode :: delay 200 h)
    have b := power_cmd_and_read_exact dev 0x33 [0xDA, 0x04] 2
      (testmode_cmd dev g (delay 200 h)).1 9
      (Event.note (Note.da 0x04) :: (testmode_cmd dev g (delay 200 h)).2)
    have d : powerOffCount (Event.note Note.testmode :: delay 200 h) = powerOffCount h := by
      simp [powerOffCount, delay, List.count_cons]
    rw [powerOffCount_note] at b
    rw [d] at a
    rw [ih]
    have ea : powerOffCount (testmode_cmd dev g (delay 200 h)).2 = powerOffCount h +
        (if (cmd_and_read_33 dev [0xD9, 0x96, 0xA5] 3 g 29
          (Event.note Note.testmode :: delay 200 h)).1 then 0 else 1) := a
    have eb : powerOffCount (reset_error_cmd dev (testmode_cmd dev g (delay 200 h)).1
        (testmode_cmd dev g (delay 200 h)).2).2 =
        powerOffCount (testmode_cmd dev g (delay 200 h)).2 +
        (if (cmd_and_read_33 dev [0xDA, 0x04] 2 (testmode_cmd dev g (delay 200 h)).1 9
          (Event.note (Note.da 0x04) :: (testmode_cmd dev g (delay 200 h)).2)).1
          then 0 else 1) := b
    rw [eb, ea]
    omega

theorem power_try_charger_exact (dev : Device) (n : Nat) (rsp : List Nat) (h : History) :
    powerOffCount (try_charger_loop dev n rsp h).2.2 =
      powerOffCount h + try_charger_failed dev n rsp h := by
  induction n generalizing rsp h with
  | zero => rfl
  | succ k ih =>
    have a : powerOffCount (charger_33_cmd dev rsp h).2.2 = powerOffCount h +
        (if (charger_33_cmd dev rsp h).1 then 0 else 1) :=
      power_cmd_and_read_exact dev 0x33 [0xF0, 0x00] 2 rsp 32 h
    simp only [try_charger_loop, try_charger_failed]
    by_cases hc : (charger_33_cmd dev rsp h).1 = true
    · rw [if_pos hc, if_pos hc]
      rw [if_pos hc] at a
      exact a
    · rw [if_neg hc, if_neg hc, ih]
      rw [if_neg hc] at a
      omega

theorem power_first_cycle_exact (dev : Device) (g : List Nat) (h : History) :
    powerOffCount (isBatteryLocked dev (unlock_phase1_reps dev 5 g
      (trigger_power (Event.note Note.phase1Cycle :: h))).2).2 =
    powerOffCount h + 1 +
      unlock_phase1_unanswered dev 5 g (trigger_power (Event.note Note.phase1Cycle :: h)) +
      try_charger_failed dev 20 (List.replicate 64 0) (unlock_phase1_reps dev 5 g
        (trigger_power (Event.note Note.phase1Cycle :: h))).2 := by
  rw [isBatteryLocked_history]
  show powerOffCount (try_charger_loop dev 20 _ _).2.2 = _
  rw [power_try_charger_exact, power_phase1_reps_exact, powerOffCount_trigger_power,
    powerOffCount_note]

set_option maxRecDepth 1000000 in
theorem answering_counts :
    unlock_phase1_unanswered answeringDevice 5 (List.replicate 64 0)
      (trigger_power (Event.note Note.phase1Cycle :: [])) = 0 ∧
    try_charger_failed answeringDevice 20 (List.replicate 64 0)
      (unlock_phase1_reps answeringDevice 5 (List.replicate 64 0)
        (trigger_power (Event.note Note.phase1Cycle :: []))).2 = 0 ∧
    unlock_phase1_unanswered unansweredDevice 5 (List.replicate 64 0)
      (trigger_power (Event.note Note.phase1Cycle :: [])) = 10 ∧
    try_charger_failed unansweredDevice 20 (List.replicate 64 0)
      (unlock_phase1_reps unansweredDevice 5 (List.replicate 64 0)
        (trigger_power (Event.note Note.phase1Cycle :: []))).2 = 0 := by
  decide

/-- C16, counterexample to "exactly one power cycle": a pack that returns `0xFF` to the
ten commands of the first Phase 1 cycle and then serves an unlocked record.  The lock
check right after the first cycle reports unlocked and `unlockBattery` returns success,
but the power was switched off 11 times: once by `unlockBattery` and once by the recovery
`trigger_power` of `cmd_and_read` for each of the ten unanswered commands. -/
theorem unlockBattery_power_counterexample :
    (isBatteryLocked unansweredDevice (unlock_phase1_reps unansweredDevice 5 (List.replicate 64 0)
        (trigger_power (Event.note Note.phase1Cycle :: []))).2).1 = false ∧
    (unlockBattery unansweredDevice (List.replicate 64 0) []).1 = true ∧
    powerOffCount (unlockBattery unansweredDevice (List.replicate 64 0) []).2.2 = 11 := by
  have e := unlock_first_cycle unansweredDevice (List.replicate 64 0) [] unanswered_facts.1
  refine ⟨unanswered_facts.1, ?_, ?_⟩
  · rw [e]
  · rw [e]
    exact unanswered_facts.2

/-- C16 (amended): if `isBatteryLocked` is false right after the first Phase 1 cycle,
`unlockBattery` returns success with the success report directly after that lock check:
it ran one Phase 1 cycle (its own power cycle, then five repetitions of test mode and
error reset), no Phase 2 write and no Phase 3 cycle.  The power is switched off once by
`unlockBattery` and once more for every command that gets no answer (`cmd_and_read`
returns false and has run its recovery power cycle): one plus the number of unanswered
commands among the ten of the cycle plus the number of failed attempts of the record
read, which is between 1 and 30 and is exactly 1 when every command is answered.  In
general, when `unlockBattery` returns success its
history ends with the success report directly after a lock check that reported unlocked,
and no earlier lock check of the call reported unlocked; when it returns failure no lock
check reported unlocked. -/
theorem unlockBattery_first_unlocked (dev : Device) (g_buf : List Nat) (h : History) :
    ((isBatteryLocked dev (unlock_phase1_reps dev 5 g_buf (trigger_power (Event.note Note.phase1Cycle :: h))).2).1 = false →
      unlockBattery dev g_buf h =
        (true, (unlock_phase1_reps dev 5 g_buf (trigger_power (Event.note Note.phase1Cycle :: h))).1,
          Event.note Note.unlocked :: Event.note (Note.lockCheck false) ::
            (isBatteryLocked dev (unlock_phase1_reps dev 5 g_buf (trigger_power (Event.note Note.phase1Cycle :: h))).2).2) ∧
      notes (unlockBattery dev g_buf h).2.2 =
        Note.unlocked :: Note.lockCheck false :: (phase1CycleNotes ++ notes h) ∧
      phase1CycleNotes.count Note.phase1Cycle = 1 ∧
      phase1CycleNotes.count Note.testmode = 5 ∧
      phase1CycleNotes.count (Note.da 0x04) = 5 ∧
      phase1CycleNotes.count Note.eepromWrite = 0 ∧
      phase1CycleNotes.count Note.phase2Write = 0 ∧
      phase1CycleNotes.count Note.phase3Cycle = 0 ∧
      powerOffCount h + 1 ≤ powerOffCount (unlockBattery dev g_buf h).2.2 ∧
      powerOffCount (unlockBattery dev g_buf h).2.2 ≤ powerOffCount h + 30 ∧
      powerOffCount (unlockBattery dev g_buf h).2.2 =
        powerOffCount h + 1 +
          unlock_phase1_unanswered dev 5 g_buf
            (trigger_power (Event.note Note.phase1Cycle :: h)) +
          try_charger_failed dev 20 (List.replicate 64 0) (unlock_phase1_reps dev 5 g_buf (trigger_power (Event.note Note.phase1Cycle :: h))).2 ∧
      (unlock_phase1_unanswered dev 5 g_buf
          (trigger_power (Event.note Note.phase1Cycle :: h)) = 0 →
        try_charger_failed dev 20 (List.replicate 64 0) (unlock_phase1_reps dev 5 g_buf (trigger_power (Event.note Note.phase1Cycle :: h))).2 = 0 →
        powerOffCount (unlockBattery dev g_buf h).2.2 = powerOffCount h + 1)) ∧
    ((unlockBattery dev g_buf h).1 = true →
      ∃ h0 rest,
        (unlockBattery dev g_buf h).2.2 =
          Event.note Note.unlocked :: Event.note (Note.lockCheck false) ::
            (isBatteryLocked dev h0).2 ∧
        (isBatteryLocked dev h0).1 = false ∧
        notes (unlockBattery dev g_buf h).2.2 =
          Note.unlocked :: Note.lockCheck false :: (rest ++ notes h) ∧
        rest.count (Note.lockCheck false) = 0) ∧
    ((unlockBattery dev g_buf h).1 = false →
      ∃ new, notes (unlockBattery dev g_buf h).2.2 = new ++ notes h ∧
        new.count (Note.lockCheck false) = 0) := by
  obtain ⟨k1, k2, k3, h1, h2, h3, hv, hn, _, hsucc⟩ := unlock_trace dev g_buf h
  refine ⟨fun hfirst => ?_, fun hs => ?_, fun hs => ?_⟩
  · have e := unlock_first_cycle dev g_buf h hfirst
    have pw := power_first_cycle dev g_buf h
    have px := power_first_cycle_exact dev g_buf h
    refine ⟨e, ?_, by decide, by decide, by decide, by decide, by decide, by decide, ?_, ?_,
      ?_, ?_⟩
    · rw [e]
      exact first_cycle_notes dev g_buf h
    · rw [e]
      show powerOffCount h + 1 ≤ powerOffCount (Event.note Note.unlocked ::
        Event.note (Note.lockCheck false) :: (isBatteryLocked dev (unlock_phase1_reps dev 5 g_buf (trigger_power (Event.note Note.phase1Cycle :: h))).2).2)
      rw [powerOffCount_note, powerOffCount_note]
      exact pw.1
    · rw [e]
      show powerOffCount (Event.note Note.unlocked ::
        Event.note (Note.lockCheck false) :: (isBatteryLocked dev (unlock_phase1_reps dev 5 g_buf (trigger_power (Event.note Note.phase1Cycle :: h))).2).2)
          ≤ powerOffCount h + 30
      rw [powerOffCount_note, powerOffCount_note]
      exact pw.2 hfirst
    · rw [e]
      show powerOffCount (Event.note Note.unlocked ::
        Event.note (Note.lockCheck false) :: (isBatteryLocked dev (unlock_phase1_reps dev 5 g_buf (trigger_power (Event.note Note.phase1Cycle :: h))).2).2) = _
      rw [powerOffCount_note, powerOffCount_note]
      exact px
    · intro z1 z2
      rw [e]
      show powerOffCount (Event.note Note.unlocked ::
        Event.note (Note.lockCheck false) :: (isBatteryLocked dev (unlock_phase1_reps dev 5 g_buf (trigger_power (Event.note Note.phase1Cycle :: h))).2).2) = _
      rw [powerOffCount_note, powerOffCount_note, px, z1, z2]
  · obtain ⟨h0, e0, f0⟩ := hsucc hs
    rw [hs] at hn hv
    obtain ⟨_, _, _, _, _, _, _, c8, _⟩ :=
      unlockNotes_counts_success k1 (by omega) k2 (by omega) k3 (by omega) hv
    have eN : unlockNotes true k1 k2 k3 =
        Note.unlocked :: Note.lockCheck false ::
          (lockedRounds phase3CycleNotes k3 ++ lockedRounds phase2WriteNotes k2 ++
            lockedRounds phase1CycleNotes k1).tail := rfl
    rw [eN] at hn c8
    refine ⟨h0, _, e0, f0, hn, ?_⟩
    simpa [List.count_cons] using c8
  · rw [hs] at hn hv
    obtain ⟨_, _, _, _, _, _, _, c8, _⟩ :=
      unlockNotes_counts_failure k1 (by omega) k2 (by omega) k3 (by omega) hv
    exact ⟨_, hn, c8⟩

/-- C16 (amended) at a pack that answers the ten commands of the first Phase 1 cycle and
then serves an unlocked record: success after one cycle, no command is unanswered, and
the power was switched off exactly once. -/
theorem unlockBattery_first_unlocked_witness :
    (isBatteryLocked answeringDevice (unlock_phase1_reps answeringDevice 5 (List.replicate 64 0)
        (trigger_power (Event.note Note.phase1Cycle :: []))).2).1 = false ∧
    notes (unlockBattery answeringDevice (List.replicate 64 0) []).2.2 =
      Note.unlocked :: Note.lockCheck false :: (phase1CycleNotes ++ notes []) ∧
    powerOffCount [] + 1 ≤
      powerOffCount (unlockBattery answeringDevice (List.replicate 64 0) []).2.2 ∧
    powerOffCount (unlockBattery answeringDevice (List.replicate 64 0) []).2.2 =
      powerOffCount [] + 1 :=
  ⟨answering_facts.1,
    ((unlockBattery_first_unlocked answeringDevice (List.replicate 64 0) []).1
      answering_facts.1).2.1,
    ((unlockBattery_first_unlocked answeringDevice (List.replicate 64 0) []).1
      answering_facts.1).2.2.2.2.2.2.2.2.1,
    ((unlockBattery_first_unlocked answeringDevice (List.replicate 64 0) []).1
      answering_facts.1).2.2.2.2.2.2.2.2.2.2.2 answering_counts.1 answering_counts.2.1⟩

/-! ## C18: `resetBatteryErrors` on a legacy-family device -/

theorem notes_resetBatteryErrors (dev : Device) (g : List Nat) (h : History) :
    notes (resetBatteryErrors dev g h).2 =
      Note.resetComplete ::
        ((List.replicate 3 [Note.da 0x04, Note.testmode]).flatten ++ notes h) := by
  show Note.resetComplete :: notes (resetBatteryErrors_loop dev 3 g h).2 = _
  rw [notes_resetBatteryErrors_loop]

set_option maxRecDepth 1000000 in
theorem legacy_facts :
    (is_f0513 legacyDevice []).1 = true ∧
    (resetBatteryErrors legacyDevice (List.replicate 64 0) (is_f0513 legacyDevice []).2).2.count
      (Event.write 0xD9) = 3 ∧
    (resetBatteryErrors legacyDevice (List.replicate 64 0) (is_f0513 legacyDevice []).2).2.count
      (Event.write 0xDA) = 3 := by
  decide

/-- C18: `resetBatteryErrors` does not ask `is_f0513`.  On every device and from every
history it enters `testmode_cmd` and `reset_error_cmd` three times and prints
"Reset complete."; on the legacy-family pack `legacyDevice`, for which `is_f0513` has just
reported true, the command bytes `0xD9` (test mode) and `0xDA` (error reset) are written
to the bus three times each. -/
theorem resetBatteryErrors_legacy :
    (∀ (dev : Device) (g_buf : List Nat) (h : History),
      notes (resetBatteryErrors dev g_buf h).2 =
        Note.resetComplete :: Note.da 0x04 :: Note.testmode :: Note.da 0x04 :: Note.testmode ::
          Note.da 0x04 :: Note.testmode :: notes h) ∧
    (is_f0513 legacyDevice []).1 = true ∧
    (resetBatteryErrors legacyDevice (List.replicate 64 0) (is_f0513 legacyDevice []).2).2.count
      (Event.write 0xD9) = 3 ∧
    (resetBatteryErrors legacyDevice (List.replicate 64 0) (is_f0513 legacyDevice []).2).2.count
      (Event.write 0xDA) = 3 :=
  ⟨fun dev g_buf h => notes_resetBatteryErrors dev g_buf h, legacy_facts⟩

/-! ## C30: the range of the new capacity format -/

set_option maxRecDepth 1000000 in
theorem capacity_table : ∀ b, b < 256 →
    ((is_new_capacity_format b = true ↔ 4 ≤ b ∧ b ≤ 8) ∧ get_capacity_mah b ≤ 25500) := by
  decide

/-- C30: for every capacity byte `b`, `is_new_capacity_format b` is true exactly when
`4 <= b <= 8`; the bytes 1, 2 and 3 lie in `[1, 8]` but are decoded in the old format,
with `get_capacity_mah` 1600, 3200 and 4800; and `get_capacity_mah b` never exceeds
25500. -/
theorem is_new_capacity_format_range (b : Nat) (hb : b < 256) :
    (is_new_capacity_format b = true ↔ 4 ≤ b ∧ b ≤ 8) ∧
    is_new_capacity_format 1 = false ∧ is_new_capacity_format 2 = false ∧
    is_new_capacity_format 3 = false ∧
    get_capacity_mah 1 = 1600 ∧ get_capacity_mah 2 = 3200 ∧ get_capacity_mah 3 = 4800 ∧
    get_capacity_mah b ≤ 25500 :=
  ⟨(capacity_table b hb).1, by decide, by decide, by decide, by decide, by decide, by decide,
    (capacity_table b hb).2⟩

/-- Witness of C30 at the bytes `0x04` (the smallest new-format byte, 4000 mAh) and
`0xFF` (the largest old-format value, 25500 mAh). -/
theorem is_new_capacity_format_range_witness :
    is_new_capacity_format 4 = true ∧ get_capacity_mah 4 = 4000 ∧
    get_capacity_mah 0xFF = 25500 ∧ get_capacity_mah 0xFF ≤ 25500 :=
  ⟨(is_new_capacity_format_range 4 (by decide)).1.mpr ⟨by decide, by decide⟩, by decide,
    by decide, (is_new_capacity_format_range 0xFF (by decide)).2.2.2.2.2.2.2⟩

/-! ## C28: the clamp of `calcNybbleSum` on a record -/

theorem nybbleSum_le {r : List Nat} (hb : ∀ b ∈ r, b < 256) (a b : Nat) :
    nybbleSum r a b ≤ 30 * (b + 1 - a) := by
  unfold nybbleSum
  have h := List.sum_le_card_nsmul
    ((List.range' a (b + 1 - a)).map (fun i => r.getD i 0 % 16 + r.getD i 0 / 16)) 30
    (by
      intro x hx
      rw [List.mem_map] at hx
      obtain ⟨i, _, rfl⟩ := hx
      have := getD_lt_of_bytes hb i
      omega)
  rw [List.length_map, List.length_range', smul_eq_mul, Nat.mul_comm] at h
  exact h

/-- C28: on a 32-byte record none of the five nybble sums that `verifyMsgChecksums` and
`recalcMsgChecksums` have `calcNybbleSum` compute (bytes 0..7, 8..15, 16..19 plus the low
nibble of byte 20, 22..23 and 24..30) exceeds 240, so the clamp to 255 is never taken:
each of the five results of `calcNybbleSum` is the nybble sum modulo 16, and so is each
checksum nibble of the recomputed record. -/
theorem calcNybbleSum_record (r : List Nat) (h : IsRecord r) :
    nybbleSum r 0 7 ≤ 240 ∧ nybbleSum r 8 15 ≤ 240 ∧
    nybbleSum r 16 19 + (r.getD 20 0 &&& 0x0F) ≤ 240 ∧
    nybbleSum r 22 23 ≤ 240 ∧ nybbleSum r 24 30 ≤ 240 ∧
    calcNybbleSum r 0 7 false = nybbleSum r 0 7 % 16 ∧
    calcNybbleSum r 8 15 false = nybbleSum r 8 15 % 16 ∧
    calcNybbleSum r 16 20 true = (nybbleSum r 16 19 + (r.getD 20 0 &&& 0x0F)) % 16 ∧
    calcNybbleSum r 22 23 false = nybbleSum r 22 23 % 16 ∧
    calcNybbleSum r 24 30 false = nybbleSum r 24 30 % 16 ∧
    (recalcMsgChecksums r).getD 20 0 >>> 4 = nybbleSum r 0 7 % 16 ∧
    (recalcMsgChecksums r).getD 21 0 &&& 0x0F = nybbleSum r 8 15 % 16 ∧
    (recalcMsgChecksums r).getD 21 0 >>> 4 =
      (nybbleSum r 16 19 + (r.getD 20 0 &&& 0x0F)) % 16 ∧
    (recalcMsgChecksums r).getD 31 0 &&& 0x0F = nybbleSum r 22 23 % 16 ∧
    (recalcMsgChecksums r).getD 31 0 >>> 4 = nybbleSum r 24 30 % 16 := by
  have s1 := nybbleSum_le h.2 0 7
  have s2 := nybbleSum_le h.2 8 15
  have s3 := nybbleSum_le h.2 16 19
  have s4 := nybbleSum_le h.2 22 23
  have s5 := nybbleSum_le h.2 24 30
  have b20 := getD_lt_of_bytes h.2 20
  have c1 := calcNybbleSum_full r 0 7
  have c2 := calcNybbleSum_full r 8 15
  have c3 : calcNybbleSum r 16 20 true =
      min (nybbleSum r 16 19 + r.getD 20 0 % 16) 255 % 16 := calcNybbleSum_low r 16 19
  have c4 := calcNybbleSum_full r 22 23
  have c5 := calcNybbleSum_full r 24 30
  rw [Nat.min_eq_left (by omega)] at c1 c2 c3 c4 c5
  have e20 := recalc_getD r h.1 20
  have e21 := recalc_getD r h.1 21
  have e31 := recalc_getD r h.1 31
  simp only [if_true, if_false, show (21 : Nat) ≠ 20 by decide,
    show (31 : Nat) ≠ 20 by decide, show (31 : Nat) ≠ 21 by decide] at e20 e21 e31
  have l1 := calcNybbleSum_lt r 0 7 false
  have l2 := calcNybbleSum_lt r 8 15 false
  have l3 := calcNybbleSum_lt r 16 20 true
  have l4 := calcNybbleSum_lt r 22 23 false
  have l5 := calcNybbleSum_lt r 24 30 false
  simp only [and15, shr4]
  rw [e20, e21, e31]
  omega

/-- Witness of C28 on the record of 32 bytes `0xFF`, where the sums of bytes 0..7 and
8..15 reach the maximum 240. -/
theorem calcNybbleSum_record_witness :
    IsRecord (List.replicate 32 0xFF) ∧ nybbleSum (List.replicate 32 0xFF) 0 7 = 240 ∧
    nybbleSum (List.replicate 32 0xFF) 0 7 ≤ 240 ∧
    calcNybbleSum (List.replicate 32 0xFF) 0 7 false =
      nybbleSum (List.replicate 32 0xFF) 0 7 % 16 :=
  ⟨by decide, by decide, (calcNybbleSum_record (List.replicate 32 0xFF) (by decide)).1,
    (calcNybbleSum_record (List.replicate 32 0xFF) (by decide)).2.2.2.2.2.1⟩

/-! ## C21: the byte pair of raw code 11916 -/

theorem bl36_cell_of_bytes (dev : Device) (voltages : List ℚ) (h : History) (i lo hi : Nat)
    (hlen : voltages.length = 13) (hok : (bl36_voltages dev voltages h).1 = true)
    (hi10 : i < 10) (hlo : (bl36_block dev h).getD (2 * i) 0 = lo)
    (hhi : (bl36_block dev h).getD (2 * i + 1) 0 = hi) :
    (bl36_voltages dev voltages h).2.1.getD i 0 = code_to_voltage_u16 (lo ||| (hi <<< 8)) := by
  rw [bl36_voltages_ok dev voltages h hok, getD_set_rat, if_neg (by omega), getD_set_rat,
    if_neg (by omega), getD_set_rat, if_neg (by omega),
    bl36_loop_cell _ _ _ _ _ _ _ _ (Nat.zero_le i) (by omega) (by omega),
    Nat.mul_comm i 2, hlo, hhi]

set_option maxRecDepth 1000000 in
theorem pair_facts :
    (bl36_voltages (pairDevice 0x0C 0x2E) (List.replicate 13 0) []).1 = true ∧
    (bl36_block (pairDevice 0x0C 0x2E) []).getD (2 * 0) 0 = 0x0C ∧
    (bl36_block (pairDevice 0x0C 0x2E) []).getD (2 * 0 + 1) 0 = 0x2E ∧
    (bl36_voltages (pairDevice 0x8C 0x2E) (List.replicate 13 0) []).1 = true ∧
    (bl36_block (pairDevice 0x8C 0x2E) []).getD (2 * 0) 0 = 0x8C ∧
    (bl36_block (pairDevice 0x8C 0x2E) []).getD (2 * 0 + 1) 0 = 0x2E ∧
    (bl36_block (pairDevice 0x8C 0x2E) []).getD (2 * 1) 0 = 0 ∧
    (bl36_block (pairDevice 0x8C 0x2E) []).getD (2 * 1 + 1) 0 = 0 := by
  decide

/-- C21, as stated, fails: the block bytes `0x0C`, `0x2E` of a cell give the raw code
`0x2E0C = 11788`, not 11916, and the cell decodes to `5.5 - 11788 / 11916`, which is not
4.5. -/
theorem bl36_pair_counterexample :
    (0x0C ||| (0x2E <<< 8) : Nat) = 11788 ∧
    (bl36_voltages (pairDevice 0x0C 0x2E) (List.replicate 13 0) []).1 = true ∧
    (bl36_block (pairDevice 0x0C 0x2E) []).getD 0 0 = 0x0C ∧
    (bl36_block (pairDevice 0x0C 0x2E) []).getD 1 0 = 0x2E ∧
    (bl36_voltages (pairDevice 0x0C 0x2E) (List.replicate 13 0) []).2.1.getD 0 0 =
      5.5 - 11788 / 11916 ∧
    (bl36_voltages (pairDevice 0x0C 0x2E) (List.replicate 13 0) []).2.1.getD 0 0 ≠ 4.5 := by
  have e : (0x0C ||| (0x2E <<< 8) : Nat) = 11788 := by decide
  have hv := bl36_cell_of_bytes (pairDevice 0x0C 0x2E) (List.replicate 13 0) [] 0 0x0C 0x2E
    (by decide) pair_facts.1 (by decide) pair_facts.2.1 pair_facts.2.2.1
  rw [e, code_to_voltage_eq _ (by decide)] at hv
  refine ⟨e, pair_facts.1, pair_facts.2.1, pair_facts.2.2.1, ?_, ?_⟩
  · rw [hv]
    norm_num
  · rw [hv]
    norm_num

/-- C21 (amended): in the 10-cell decode the raw code 11916 is the byte pair
`(0x8C, 0x2E)`, low byte first: when `bl36_voltages` succeeds, a cell whose two block
bytes are `0x8C` then `0x2E` has raw code 11916 and decodes to 4.5, and a cell whose bytes
are `0x00`, `0x00` has raw code 0 and decodes to 5.5. -/
theorem bl36_cell_pairs (dev : Device) (voltages : List ℚ) (h : History) (i : Nat)
    (hlen : voltages.length = 13) (hok : (bl36_voltages dev voltages h).1 = true)
    (hi : i < 10) :
    (0x8C ||| (0x2E <<< 8) : Nat) = 11916 ∧
    ((bl36_block dev h).getD (2 * i) 0 = 0x8C → (bl36_block dev h).getD (2 * i + 1) 0 = 0x2E →
      (bl36_voltages dev voltages h).2.1.getD i 0 = code_to_voltage_u16 11916 ∧
      (bl36_voltages dev voltages h).2.1.getD i 0 = 4.5) ∧
    ((bl36_block dev h).getD (2 * i) 0 = 0x00 → (bl36_block dev h).getD (2 * i + 1) 0 = 0x00 →
      (bl36_voltages dev voltages h).2.1.getD i 0 = code_to_voltage_u16 0 ∧
      (bl36_voltages dev voltages h).2.1.getD i 0 = 5.5) := by
  have e : (0x8C ||| (0x2E <<< 8) : Nat) = 11916 := by decide
  have e0 : (0x00 ||| (0x00 <<< 8) : Nat) = 0 := by decide
  refine ⟨e, fun hlo hhi => ?_, fun hlo hhi => ?_⟩
  · have hv := bl36_cell_of_bytes dev voltages h i _ _ hlen hok hi hlo hhi
    rw [e] at hv
    refine ⟨hv, ?_⟩
    rw [hv, code_to_voltage_eq _ (by decide)]
    norm_num
  · have hv := bl36_cell_of_bytes dev voltages h i _ _ hlen hok hi hlo hhi
    rw [e0] at hv
    refine ⟨hv, ?_⟩
    rw [hv, code_to_voltage_eq _ (by decide)]
    norm_num

/-- Witness of C21 (amended) on a pack whose first cell has the bytes `0x8C`, `0x2E` and
whose second cell has the bytes 0, 0. -/
theorem bl36_cell_pairs_witness :
    (bl36_voltages (pairDevice 0x8C 0x2E) (List.replicate 13 0) []).2.1.getD 0 0 = 4.5 ∧
    (bl36_voltages (pairDevice 0x8C 0x2E) (List.replicate 13 0) []).2.1.getD 1 0 = 5.5 :=
  ⟨((bl36_cell_pairs (pairDevice 0x8C 0x2E) (List.replicate 13 0) [] 0 (by decide)
      pair_facts.2.2.2.1 (by decide)).2.1 pair_facts.2.2.2.2.1 pair_facts.2.2.2.2.2.1).2,
    ((bl36_cell_pairs (pairDevice 0x8C 0x2E) (List.replicate 13 0) [] 1 (by decide)
      pair_facts.2.2.2.1 (by decide)).2.2 pair_facts.2.2.2.2.2.2.1
      pair_facts.2.2.2.2.2.2.2).2⟩

/-! ## C22: spread and total of the 10-cell decode -/

theorem code_to_voltage_pos (raw : Nat) : 0 < code_to_voltage_u16 raw := by
  unfold code_to_voltage_u16
  have h1 : raw % 65536 < 65536 := Nat.mod_lt _ (by decide)
  have h2 : ((raw % 65536 : Nat) : ℚ) ≤ 65535 := by exact_mod_cast Nat.lt_succ_iff.mp h1
  have h3 : ((raw % 65536 : Nat) : ℚ) / 11916 ≤ 65535 / 11916 :=
    div_le_div_of_nonneg_right h2 (by norm_num)
  have h4 : (65535 : ℚ) / 11916 < 5.5 := by norm_num
  linarith

theorem bl36_loop_stats (rsp : List Nat) (n i : Nat) (v : List ℚ) (t mx mn : ℚ) :
    (bl36_loop rsp n i (v, t, mx, mn)).2.1 =
      t + ((List.range' i n).map (bl36_cell rsp)).sum ∧
    mx ≤ (bl36_loop rsp n i (v, t, mx, mn)).2.2.1 ∧
    (∀ j, i ≤ j → j < i + n → bl36_cell rsp j ≤ (bl36_loop rsp n i (v, t, mx, mn)).2.2.1) ∧
    ((bl36_loop rsp n i (v, t, mx, mn)).2.2.1 = mx ∨
      ∃ j, i ≤ j ∧ j < i + n ∧ (bl36_loop rsp n i (v, t, mx, mn)).2.2.1 = bl36_cell rsp j) ∧
    (bl36_loop rsp n i (v, t, mx, mn)).2.2.2 ≤ mn ∧
    (∀ j, i ≤ j → j < i + n → (bl36_loop rsp n i (v, t, mx, mn)).2.2.2 ≤ bl36_cell rsp j) ∧
    ((bl36_loop rsp n i (v, t, mx, mn)).2.2.2 = mn ∨
      ∃ j, i ≤ j ∧ j < i + n ∧ (bl36_loop rsp n i (v, t, mx, mn)).2.2.2 = bl36_cell rsp j) := by
  induction n generalizing i v t mx mn with
  | zero =>
    refine ⟨by simp [bl36_loop], le_refl _, fun j h1 h2 => by omega, Or.inl rfl, le_refl _,
      fun j h1 h2 => by omega, Or.inl rfl⟩
  | succ k ih =>
    simp only [bl36_loop]
    obtain ⟨a1, a2, a3, a4, a5, a6, a7⟩ := ih (i + 1)
      (v.set i (bl36_cell rsp i)) (t + bl36_cell rsp i)
      (if bl36_cell rsp i > mx then bl36_cell rsp i else mx)
      (if bl36_cell rsp i < mn then bl36_cell rsp i else mn)
    have hmx : mx ≤ (if bl36_cell rsp i > mx then bl36_cell rsp i else mx) ∧
        bl36_cell rsp i ≤ (if bl36_cell rsp i > mx then bl36_cell rsp i else mx) := by
      split
      · rename_i hc
        exact ⟨le_of_lt hc, le_refl _⟩
      · rename_i hc
        exact ⟨le_refl _, not_lt.mp hc⟩
    have hmn : (if bl36_cell rsp i < mn then bl36_cell rsp i else mn) ≤ mn ∧
        (if bl36_cell rsp i < mn then bl36_cell rsp i else mn) ≤ bl36_cell rsp i := by
      split
      · rename_i hc
        exact ⟨le_of_lt hc, le_refl _⟩
      · rename_i hc
        exact ⟨le_refl _, not_lt.mp hc⟩
    have hmx2 : (if bl36_cell rsp i > mx then bl36_cell rsp i else mx) = mx ∨
        (if bl36_cell rsp i > mx then bl36_cell rsp i else mx) = bl36_cell rsp i := by
      split
      · exact Or.inr rfl
      · exact Or.inl rfl
    have hmn2 : (if bl36_cell rsp i < mn then bl36_cell rsp i else mn) = mn ∨
        (if bl36_cell rsp i < mn then bl36_cell rsp i else mn) = bl36_cell rsp i := by
      split
      · exact Or.inr rfl
      · exact Or.inl rfl
    unfold bl36_cell at a1 a2 a3 a4 a5 a6 a7 hmx hmn hmx2 hmn2 ⊢
    refine ⟨?_, le_trans hmx.1 a2, ?_, ?_, le_trans a5 hmn.1, ?_, ?_⟩
    · rw [a1, List.range'_succ, List.map_cons, List.sum_cons]
      ring
    · intro j h1 h2
      by_cases hj : j = i
      · rw [hj]
        exact le_trans hmx.2 a2
      · exact a3 j (by omega) (by omega)
    · rcases a4 with a4 | ⟨j, j1, j2, j3⟩
      · rcases hmx2 with e | e
        · exact Or.inl (a4.trans e)
        · exact Or.inr ⟨i, le_refl _, by omega, a4.trans e⟩
      · exact Or.inr ⟨j, by omega, by omega, j3⟩
    · intro j h1 h2
      by_cases hj : j = i
      · rw [hj]
        exact le_trans a5 hmn.2
      · exact a6 j (by omega) (by omega)
    · rcases a7 with a7 | ⟨j, j1, j2, j3⟩
      · rcases hmn2 with e | e
        · exact Or.inl (a7.trans e)
        · exact Or.inr ⟨i, le_refl _, by omega, a7.trans e⟩
      · exact Or.inr ⟨j, by omega, by omega, j3⟩

theorem bl36_output (dev : Device) (voltages : List ℚ) (h : History)
    (hlen : voltages.length = 13) (hok : (bl36_voltages dev voltages h).1 = true) :
    (∀ i, i < 10 → (bl36_voltages dev voltages h).2.1.getD i 0 =
      bl36_cell (bl36_block dev h) i) ∧
    (bl36_voltages dev voltages h).2.1.getD 10 0 =
      (bl36_loop (bl36_block dev h) 10 0 (voltages, 0, -5, 5)).2.2.1 -
        (bl36_loop (bl36_block dev h) 10 0 (voltages, 0, -5, 5)).2.2.2 ∧
    (bl36_voltages dev voltages h).2.1.getD 11 0 =
      (bl36_loop (bl36_block dev h) 10 0 (voltages, 0, -5, 5)).2.1 := by
  have hl := bl36_loop_length (bl36_block dev h) 10 0 voltages 0 (-5) 5
  rw [bl36_voltages_ok dev voltages h hok]
  refine ⟨fun i hi => ?_, ?_, ?_⟩
  · rw [getD_set_rat, if_neg (by omega), getD_set_rat, if_neg (by omega), getD_set_rat,
      if_neg (by omega),
      bl36_loop_cell _ _ _ _ _ _ _ _ (Nat.zero_le i) (by omega) (by omega)]
    rfl
  · rw [getD_set_rat, if_neg (by omega), getD_set_rat, if_neg (by omega), getD_set_rat,
      if_pos ⟨rfl, by omega⟩]
  · rw [getD_set_rat, if_neg (by omega), getD_set_rat,
      if_pos ⟨rfl, by rw [List.length_set]; omega⟩]

theorem bl36_voltages_stats (dev : Device) (voltages : List ℚ) (h : History)
    (hlen : voltages.length = 13) (hok : (bl36_voltages dev voltages h).1 = true) :
    (bl36_voltages dev voltages h).2.1.getD 11 0 =
      ((List.range' 0 10).map (fun i => (bl36_voltages dev voltages h).2.1.getD i 0)).sum ∧
    ((∃ i, i < 10 ∧ (bl36_voltages dev voltages h).2.1.getD i 0 ≤ 5) →
      ∃ a b, a < 10 ∧ b < 10 ∧
        (bl36_voltages dev voltages h).2.1.getD 10 0 =
          (bl36_voltages dev voltages h).2.1.getD a 0 -
            (bl36_voltages dev voltages h).2.1.getD b 0 ∧
        ∀ i, i < 10 →
          (bl36_voltages dev voltages h).2.1.getD b 0 ≤
            (bl36_voltages dev voltages h).2.1.getD i 0 ∧
          (bl36_voltages dev voltages h).2.1.getD i 0 ≤
            (bl36_voltages dev voltages h).2.1.getD a 0) ∧
    ((∀ i, i < 10 → 5 < (bl36_voltages dev voltages h).2.1.getD i 0) →
      ∃ a, a < 10 ∧
        (bl36_voltages dev voltages h).2.1.getD 10 0 =
          (bl36_voltages dev voltages h).2.1.getD a 0 - 5 ∧
        ∀ i, i < 10 →
          (bl36_voltages dev voltages h).2.1.getD i 0 ≤
            (bl36_voltages dev voltages h).2.1.getD a 0) := by
  obtain ⟨hc, h10, h11⟩ := bl36_output dev voltages h hlen hok
  obtain ⟨s1, s2, s3, s4, s5, s6, s7⟩ :=
    bl36_loop_stats (bl36_block dev h) 10 0 voltages 0 (-5) 5
  have hpos := code_to_voltage_pos
    ((bl36_block dev h).getD (0 * 2) 0 ||| ((bl36_block dev h).getD (0 * 2 + 1) 0 <<< 8))
  have hmax : ∃ a, a < 10 ∧ (bl36_loop (bl36_block dev h) 10 0 (voltages, 0, -5, 5)).2.2.1 =
      bl36_cell (bl36_block dev h) a := by
    rcases s4 with e | ⟨j, _, j2, j3⟩
    · have h0 := s3 0 (le_refl _) (by omega)
      rw [e] at h0
      unfold bl36_cell at h0
      linarith
    · exact ⟨j, by omega, j3⟩
  obtain ⟨a, ha, hamax⟩ := hmax
  refine ⟨?_, ?_, ?_⟩
  · rw [h11, s1, zero_add]
    congr 1
    apply List.map_congr_left
    intro i hi
    rw [List.mem_range'_1] at hi
    rw [hc i (by omega)]
  · rintro ⟨i, hi, hle⟩
    rw [hc i hi] at hle
    have hmin : ∃ b, b < 10 ∧ (bl36_loop (bl36_block dev h) 10 0 (voltages, 0, -5, 5)).2.2.2 =
        bl36_cell (bl36_block dev h) b := by
      rcases s7 with e | ⟨j, _, j2, j3⟩
      · have h0 := s6 i (Nat.zero_le _) (by omega)
        rw [e] at h0
        exact ⟨i, hi, by rw [e]; linarith⟩
      · exact ⟨j, by omega, j3⟩
    obtain ⟨b, hb, hbmin⟩ := hmin
    refine ⟨a, b, ha, hb, ?_, fun k hk => ?_⟩
    · rw [h10, hc a ha, hc b hb, hamax, hbmin]
    · rw [hc a ha, hc b hb, hc k hk, ← hamax, ← hbmin]
      exact ⟨s6 k (Nat.zero_le _) (by omega), s3 k (Nat.zero_le _) (by omega)⟩
  · intro hall
    have hmin : (bl36_loop (bl36_block dev h) 10 0 (voltages, 0, -5, 5)).2.2.2 = 5 := by
      rcases s7 with e | ⟨j, _, j2, j3⟩
      · exact e
      · have hj := hall j (by omega)
        rw [hc j (by omega), ← j3] at hj
        linarith
    refine ⟨a, ha, ?_, fun k hk => ?_⟩
    · rw [h10, hc a ha, hamax, hmin]
    · rw [hc a ha, hc k hk, ← hamax]
      exact s3 k (Nat.zero_le _) (by omega)

set_option maxRecDepth 1000000 in
theorem zeroBlock_facts :
    (bl36_voltages zeroBlockDevice (List.replicate 13 0) []).1 = true ∧
    bl36_block zeroBlockDevice [] = List.replicate 64 0 := by
  decide

theorem zeroBlock_output :
    (bl36_voltages zeroBlockDevice (List.replicate 13 0) []).2.1 =
      List.replicate 10 (5.5 : ℚ) ++ [0.5, 55, 0] := by
  rw [bl36_voltages_ok zeroBlockDevice (List.replicate 13 0) [] zeroBlock_facts.1,
    zeroBlock_facts.2]
  have e : (0 ||| 0 <<< 8 : Nat) = 0 := by decide
  norm_num [bl36_loop, code_to_voltage_u16, List.replicate, e]

/-- C22, the code on a 10-cell pack whose 20-byte block is all zero: every one of the ten
cells decodes to 5.5 V, so their spread is 0, and the total 55 at index 11 is their sum;
but index 10 holds 0.5, the maximum 5.5 minus the initial value 5 of `min_v`, which no
cell above 5 V replaces. -/
theorem bl36_voltages_spread :
    (bl36_voltages zeroBlockDevice (List.replicate 13 0) []).1 = true ∧
    bl36_block zeroBlockDevice [] = List.replicate 64 0 ∧
    (bl36_voltages zeroBlockDevice (List.replicate 13 0) []).2.1 =
      List.replicate 10 (5.5 : ℚ) ++ [0.5, 55, 0] ∧
    (bl36_voltages zeroBlockDevice (List.replicate 13 0) []).2.1.getD 10 0 = 0.5 ∧
    (bl36_voltages zeroBlockDevice (List.replicate 13 0) []).2.1.getD 11 0 = 55 := by
  refine ⟨zeroBlock_facts.1, zeroBlock_facts.2, zeroBlock_output, ?_, ?_⟩
  · rw [zeroBlock_output]
    rfl
  · rw [zeroBlock_output]
    rfl

/-! ## C24: the temperature sentinel -/

theorem cell_temperature_eq (dev : Device) (h : History) :
    (cell_temperature dev h).1 =
      if (temperature_rsp dev [0xD7, 0x0E, 0x00, 0x02] h).2.1.getD 0 0 = 0xFF ∧
        (temperature_rsp dev [0xD7, 0x0E, 0x00, 0x02] h).2.1.getD 1 0 = 0xFF then (-999 : ℚ)
      else (((temperature_rsp dev [0xD7, 0x0E, 0x00, 0x02] h).2.1.getD 0 0 |||
        ((temperature_rsp dev [0xD7, 0x0E, 0x00, 0x02] h).2.1.getD 1 0 <<< 8) : Nat) : ℚ) / 10
          - 273.15 := by
  unfold cell_temperature temperature_rsp
  dsimp only
  split <;> rfl

theorem mosfet_temperature_eq (dev : Device) (h : History) :
    (mosfet_temperature dev h).1 =
      if (temperature_rsp dev [0xD7, 0x10, 0x00, 0x02] h).2.1.getD 0 0 = 0xFF ∧
        (temperature_rsp dev [0xD7, 0x10, 0x00, 0x02] h).2.1.getD 1 0 = 0xFF then (-999 : ℚ)
      else (((temperature_rsp dev [0xD7, 0x10, 0x00, 0x02] h).2.1.getD 0 0 |||
        ((temperature_rsp dev [0xD7, 0x10, 0x00, 0x02] h).2.1.getD 1 0 <<< 8) : Nat) : ℚ) / 10
          - 273.15 := by
  unfold mosfet_temperature temperature_rsp
  dsimp only
  split <;> rfl

theorem intValue_wide (w : Nat) (hw : 17 ≤ w) (x : Nat) (hx : x < 65536) :
    intValue w (x : Int) = (x : Int) := by
  unfold intValue
  have hp : (2 : Int) ^ w = 2 * 2 ^ (w - 1) := by
    rw [← pow_succ']
    congr 1
    omega
  have h16 : (2 : Int) ^ 16 ≤ 2 ^ (w - 1) :=
    pow_le_pow_right₀ (by norm_num) (by omega)
  have h16v : (2 : Int) ^ 16 = 65536 := by norm_num
  rw [hp, Int.emod_eq_of_lt (by omega) (by omega)]
  omega

theorem intValue_16 (x : Nat) (hx : x < 65536) :
    intValue 16 (x : Int) = if x < 32768 then (x : Int) else (x : Int) - 65536 := by
  unfold intValue
  norm_num
  split <;> omega

theorem cell_volts_wide (w : Nat) (hw : 17 ≤ w) (data : List Nat) (hb : ∀ b ∈ data, b < 256)
    (i : Nat) :
    cell_volts w data i = ((data.getD i 0 + 256 * data.getD (i + 1) 0 : Nat) : ℚ) / 1000 := by
  have h0 := getD_lt_of_bytes hb i
  have h1 := getD_lt_of_bytes hb (i + 1)
  unfold cell_volts
  rw [or_shl8 _ _ h0, intValue_wide w hw _ (by omega), Int.cast_natCast]

theorem cell_volts_16 (data : List Nat) (hb : ∀ b ∈ data, b < 256) (i : Nat) :
    cell_volts 16 data i =
      if data.getD (i + 1) 0 < 128 then
        ((data.getD i 0 + 256 * data.getD (i + 1) 0 : Nat) : ℚ) / 1000
      else ((data.getD i 0 + 256 * data.getD (i + 1) 0 : Nat) : ℚ) / 1000 - 65.536 := by
  have h0 := getD_lt_of_bytes hb i
  have h1 := getD_lt_of_bytes hb (i + 1)
  unfold cell_volts
  rw [or_shl8 _ _ h0, intValue_16 _ (by omega)]
  by_cases hc : data.getD (i + 1) 0 < 128
  · rw [if_pos hc, if_pos (by omega), Int.cast_natCast]
  · rw [if_neg hc, if_neg (by omega)]
    push_cast
    ring

theorem ite_max (a b : ℚ) : (if b > a then b else a) = max a b := by
  split
  · rename_i h
    exact (max_eq_right (le_of_lt h)).symm
  · rename_i h
    exact (max_eq_left (not_lt.mp h)).symm

theorem ite_min (a b : ℚ) : (if b < a then b else a) = min a b := by
  split
  · rename_i h
    exact (min_eq_right (le_of_lt h)).symm
  · rename_i h
    exact (min_eq_left (not_lt.mp h)).symm


theorem get_voltage_info_output_eq (w : Nat) (data : List Nat) (tc tm : ℚ) (out : List ℚ)
    (hns : ¬(data.getD 2 0 = 0xFF ∧ data.getD 3 0 = 0xFF)) :
    get_voltage_info_output w data tc tm out =
      (true, voltage_vector out (reported_cell w data 0) (reported_cell w data 1)
        (reported_cell w data 2) (reported_cell w data 3) (reported_cell w data 4) tc tm) := by
  unfold get_voltage_info_output
  rw [if_neg hns]
  rfl

theorem voltage_vector_spec (out : List ℚ) (hlen : out.length = 9)
    (v1 v2 v3 v4 v5 tc tm : ℚ) :
    (voltage_vector out v1 v2 v3 v4 v5 tc tm).length = 9 ∧
    (voltage_vector out v1 v2 v3 v4 v5 tc tm).getD 0 0 = v1 ∧
    (voltage_vector out v1 v2 v3 v4 v5 tc tm).getD 1 0 = v2 ∧
    (voltage_vector out v1 v2 v3 v4 v5 tc tm).getD 2 0 = v3 ∧
    (voltage_vector out v1 v2 v3 v4 v5 tc tm).getD 3 0 = v4 ∧
    (voltage_vector out v1 v2 v3 v4 v5 tc tm).getD 4 0 = v5 ∧
    (voltage_vector out v1 v2 v3 v4 v5 tc tm).getD 5 0 =
      max (max (max (max v1 v2) v3) v4) v5 - min (min (min (min v1 v2) v3) v4) v5 ∧
    (voltage_vector out v1 v2 v3 v4 v5 tc tm).getD 6 0 = v1 + v2 + v3 + v4 + v5 ∧
    (voltage_vector out v1 v2 v3 v4 v5 tc tm).getD 7 0 = tc ∧
    (voltage_vector out v1 v2 v3 v4 v5 tc tm).getD 8 0 = tm := by
  unfold voltage_vector
  simp only [ite_max, ite_min]
  generalize max (max (max (max v1 v2) v3) v4) v5 - min (min (min (min v1 v2) v3) v4) v5 = d
  simp [getD_set_rat, hlen]

theorem get_voltage_info_standard (w : Nat) (dev : Device) (out : List ℚ) (h : History)
    (hstd : ¬((read_data_request dev (memset (List.replicate 128 0) 0 128) h).2.1.getD 0 0
      = 0xFF ∧
      (read_data_request dev (memset (List.replicate 128 0) 0 128) h).2.1.getD 1 0 = 0xFF)) :
    (get_voltage_info w dev out h).1 =
      (get_voltage_info_output w
        (read_data_request dev (memset (List.replicate 128 0) 0 128) h).2.1
        (cell_temperature dev
          (read_data_request dev (memset (List.replicate 128 0) 0 128) h).2.2).1
        (mosfet_temperature dev (cell_temperature dev
          (read_data_request dev (memset (List.replicate 128 0) 0 128) h).2.2).2).1 out).1 ∧
    (get_voltage_info w dev out h).2.1 =
      (get_voltage_info_output w
        (read_data_request dev (memset (List.replicate 128 0) 0 128) h).2.1
        (cell_temperature dev
          (read_data_request dev (memset (List.replicate 128 0) 0 128) h).2.2).1
        (mosfet_temperature dev (cell_temperature dev
          (read_data_request dev (memset (List.replicate 128 0) 0 128) h).2.2).2).1 out).2 := by
  unfold get_voltage_info
  dsimp only
  rw [if_neg hstd]
  exact ⟨rfl, rfl⟩

set_option maxRecDepth 1000000 in
theorem wideCell_facts :
    (read_data_request wideCellDevice (memset (List.replicate 128 0) 0 128) []).2.1 =
      wideCellData ++ List.replicate 116 0 ∧
    (temperature_rsp wideCellDevice [0xD7, 0x0E, 0x00, 0x02]
      (read_data_request wideCellDevice (memset (List.replicate 128 0) 0 128) []).2.2).2.1 =
      [0xA5, 0x0B, 0x00, 0x00] ∧
    (temperature_rsp wideCellDevice [0xD7, 0x10, 0x00, 0x02]
      (cell_temperature wideCellDevice
        (read_data_request wideCellDevice (memset (List.replicate 128 0) 0 128) []).2.2).2).2.1 =
      [0xA5, 0x0B, 0x00, 0x00] := by
  decide

theorem wideCell_temperatures :
    (cell_temperature wideCellDevice
      (read_data_request wideCellDevice (memset (List.replicate 128 0) 0 128) []).2.2).1
      = 24.95 ∧
    (mosfet_temperature wideCellDevice (cell_temperature wideCellDevice
      (read_data_request wideCellDevice (memset (List.replicate 128 0) 0 128) []).2.2).2).1
      = 24.95 := by
  have e : (0xA5 ||| 0x0B <<< 8 : Nat) = 2981 := by decide
  constructor
  · rw [cell_temperature_eq, wideCell_facts.2.1]
    norm_num [e]
  · rw [mosfet_temperature_eq, wideCell_facts.2.2]
    norm_num [e]

set_option maxRecDepth 1000000 in
theorem wideCell_bytes : ∀ b ∈ wideCellData ++ List.replicate 116 0, b < 256 := by
  decide

theorem wideCell_cells :
    cell_volts 16 (wideCellData ++ List.replicate 116 0) 2 = 3.6 ∧
    cell_volts 16 (wideCellData ++ List.replicate 116 0) 4 = -32.768 ∧
    cell_volts 16 (wideCellData ++ List.replicate 116 0) 6 = 3.6 ∧
    cell_volts 16 (wideCellData ++ List.replicate 116 0) 8 = 3.6 ∧
    cell_volts 16 (wideCellData ++ List.replicate 116 0) 10 = 3.6 ∧
    cell_volts 32 (wideCellData ++ List.replicate 116 0) 2 = 3.6 ∧
    cell_volts 32 (wideCellData ++ List.replicate 116 0) 4 = 32.768 ∧
    cell_volts 32 (wideCellData ++ List.replicate 116 0) 6 = 3.6 ∧
    cell_volts 32 (wideCellData ++ List.replicate 116 0) 8 = 3.6 ∧
    cell_volts 32 (wideCellData ++ List.replicate 116 0) 10 = 3.6 := by
  have hb := wideCell_bytes
  refine ⟨?_, ?_, ?_, ?_, ?_, ?_, ?_, ?_, ?_, ?_⟩ <;>
    first
    | (rw [cell_volts_16 _ hb]; norm_num [wideCellData])
    | (rw [cell_volts_wide 32 (by decide) _ hb]; norm_num [wideCellData])

theorem wideCell_output (w : Nat) (c1 c2 c3 c4 c5 : ℚ) (v1 v2 v3 v4 v5 : ℚ)
    (h1 : cell_volts w (wideCellData ++ List.replicate 116 0) 2 = c1)
    (h2 : cell_volts w (wideCellData ++ List.replicate 116 0) 4 = c2)
    (h3 : cell_volts w (wideCellData ++ List.replicate 116 0) 6 = c3)
    (h4 : cell_volts w (wideCellData ++ List.replicate 116 0) 8 = c4)
    (h5 : cell_volts w (wideCellData ++ List.replicate 116 0) 10 = c5)
    (e1 : (if c1 > 5 ∨ c2 > 5 ∨ c3 > 5 ∨ c4 > 5 ∨ c5 > 5 then c1 / 2 else c1) = v1)
    (e2 : (if c1 > 5 ∨ c2 > 5 ∨ c3 > 5 ∨ c4 > 5 ∨ c5 > 5 then c2 / 2 else c2) = v2)
    (e3 : (if c1 > 5 ∨ c2 > 5 ∨ c3 > 5 ∨ c4 > 5 ∨ c5 > 5 then c3 / 2 else c3) = v3)
    (e4 : (if c1 > 5 ∨ c2 > 5 ∨ c3 > 5 ∨ c4 > 5 ∨ c5 > 5 then c4 / 2 else c4) = v4)
    (e5 : (if c1 > 5 ∨ c2 > 5 ∨ c3 > 5 ∨ c4 > 5 ∨ c5 > 5 then c5 / 2 else c5) = v5) :
    (get_voltage_info w wideCellDevice (List.replicate 9 0) []).1 = true ∧
    (get_voltage_info w wideCellDevice (List.replicate 9 0) []).2.1 =
      voltage_vector (List.replicate 9 0) v1 v2 v3 v4 v5 24.95 24.95 := by
  have hstd : ¬((read_data_request wideCellDevice (memset (List.replicate 128 0) 0 128)
      []).2.1.getD 0 0 = 0xFF ∧
      (read_data_request wideCellDevice (memset (List.replicate 128 0) 0 128) []).2.1.getD 1 0
        = 0xFF) := by
    rw [wideCell_facts.1]
    decide
  have hns : ¬((wideCellData ++ List.replicate 116 0).getD 2 0 = 0xFF ∧
      (wideCellData ++ List.replicate 116 0).getD 3 0 = 0xFF) := by decide
  obtain ⟨g1, g2⟩ := get_voltage_info_standard w wideCellDevice (List.replicate 9 0) [] hstd
  rw [wideCell_facts.1, wideCell_temperatures.1, wideCell_temperatures.2,
    get_voltage_info_output_eq w _ _ _ _ hns] at g1 g2
  refine ⟨g1, ?_⟩
  rw [g2]
  unfold reported_cell cells_doubled
  simp only [h1, h2, h3, h4, h5, e1, e2, e3, e4, e5]

theorem voltage_vector_16 :
    voltage_vector (List.replicate 9 0) 3.6 (-32.768) 3.6 3.6 3.6 24.95 24.95 =
      [3.6, -32.768, 3.6, 3.6, 3.6, 36.368, -18.368, 24.95, 24.95] := by
  norm_num [voltage_vector, List.replicate]

theorem voltage_vector_32 :
    voltage_vector (List.replicate 9 0) 1.8 16.384 1.8 1.8 1.8 24.95 24.95 =
      [1.8, 16.384, 1.8, 1.8, 1.8, 14.584, 23.584, 24.95, 24.95] := by
  norm_num [voltage_vector, List.replicate]

/-- C23, the code on the data block `wideCellData` with a 16-bit `int` (the Arduino Nano of
`main.cpp`): bytes 4 and 5 are `0x00`, `0x80`, so cell 2 is `(0 + 256 * 128) / 1000 =
32.768` by the claim and all five cells would be halved; the code forms
`(int)data[4] | ((int)data[5]) << 8` in an `int`, which wraps to -32768, reports cell 2
as -32.768 and halves nothing.  With a 32-bit `int` the same block gives the values of
the claim. -/
theorem get_voltage_info_wrap :
    (read_data_request wideCellDevice (memset (List.replicate 128 0) 0 128) []).2.1 =
      wideCellData ++ List.replicate 116 0 ∧
    ((wideCellData.getD 4 0 + 256 * wideCellData.getD 5 0 : Nat) : ℚ) / 1000 = 32.768 ∧
    (get_voltage_info 16 wideCellDevice (List.replicate 9 0) []).1 = true ∧
    (get_voltage_info 16 wideCellDevice (List.replicate 9 0) []).2.1 =
      [3.6, -32.768, 3.6, 3.6, 3.6, 36.368, -18.368, 24.95, 24.95] ∧
    (get_voltage_info 32 wideCellDevice (List.replicate 9 0) []).2.1 =
      [1.8, 16.384, 1.8, 1.8, 1.8, 14.584, 23.584, 24.95, 24.95] := by
  obtain ⟨a1, a2, a3, a4, a5, b1, b2, b3, b4, b5⟩ := wideCell_cells
  have o16 := wideCell_output 16 _ _ _ _ _ 3.6 (-32.768) 3.6 3.6 3.6 a1 a2 a3 a4 a5
    (by norm_num) (by norm_num) (by norm_num) (by norm_num) (by norm_num)
  have o32 := wideCell_output 32 _ _ _ _ _ 1.8 16.384 1.8 1.8 1.8 b1 b2 b3 b4 b5
    (by norm_num) (by norm_num) (by norm_num) (by norm_num) (by norm_num)
  refine ⟨wideCell_facts.1, ?_, o16.1, ?_, ?_⟩
  · norm_num [wideCellData]
  · rw [o16.2, voltage_vector_16]
  · rw [o32.2, voltage_vector_32]

theorem get_voltage_info_output_ok (w : Nat) (data : List Nat) (tc tm : ℚ) (out : List ℚ)
    (hlen : out.length = 9) (hns : ¬(data.getD 2 0 = 0xFF ∧ data.getD 3 0 = 0xFF)) :
    (get_voltage_info_output w data tc tm out).1 = true ∧
    (get_voltage_info_output w data tc tm out).2.length = 9 ∧
    (∀ k, k < 5 →
      (get_voltage_info_output w data tc tm out).2.getD k 0 = reported_cell w data k) ∧
    (get_voltage_info_output w data tc tm out).2.getD 5 0 =
      max (max (max (max (reported_cell w data 0) (reported_cell w data 1))
        (reported_cell w data 2)) (reported_cell w data 3)) (reported_cell w data 4) -
      min (min (min (min (reported_cell w data 0) (reported_cell w data 1))
        (reported_cell w data 2)) (reported_cell w data 3)) (reported_cell w data 4) ∧
    0 ≤ (get_voltage_info_output w data tc tm out).2.getD 5 0 ∧
    (get_voltage_info_output w data tc tm out).2.getD 6 0 =
      reported_cell w data 0 + reported_cell w data 1 + reported_cell w data 2 +
        reported_cell w data 3 + reported_cell w data 4 ∧
    (get_voltage_info_output w data tc tm out).2.getD 7 0 = tc ∧
    (get_voltage_info_output w data tc tm out).2.getD 8 0 = tm := by
  rw [get_voltage_info_output_eq w data tc tm out hns]
  obtain ⟨l, g0, g1, g2, g3, g4, g5, g6, g7, g8⟩ := voltage_vector_spec out hlen
    (reported_cell w data 0) (reported_cell w data 1) (reported_cell w data 2)
    (reported_cell w data 3) (reported_cell w data 4) tc tm
  refine ⟨rfl, l, ?_, g5, ?_, g6, g7, g8⟩
  · intro k hk
    interval_cases k
    · exact g0
    · exact g1
    · exact g2
    · exact g3
    · exact g4
  · show 0 ≤ (voltage_vector out _ _ _ _ _ tc tm).getD 5 0
    rw [g5, sub_nonneg]
    exact le_trans (min_le_left _ _) (le_trans (min_le_left _ _) (le_trans (min_le_left _ _)
      (le_trans (min_le_left _ _) (le_trans (le_max_left _ _) (le_trans (le_max_left _ _)
        (le_trans (le_max_left _ _) (le_max_left _ _)))))))

theorem reported_cell_wide (w : Nat) (hw : 17 ≤ w) (data : List Nat)
    (hb : ∀ b ∈ data, b < 256) (k : Nat) :
    (cells_doubled w data ↔
      (5 < ((data.getD 2 0 + 256 * data.getD 3 0 : Nat) : ℚ) / 1000 ∨
       5 < ((data.getD 4 0 + 256 * data.getD 5 0 : Nat) : ℚ) / 1000 ∨
       5 < ((data.getD 6 0 + 256 * data.getD 7 0 : Nat) : ℚ) / 1000 ∨
       5 < ((data.getD 8 0 + 256 * data.getD 9 0 : Nat) : ℚ) / 1000 ∨
       5 < ((data.getD 10 0 + 256 * data.getD 11 0 : Nat) : ℚ) / 1000)) ∧
    (cells_doubled w data → reported_cell w data k =
      ((data.getD (2 * k + 2) 0 + 256 * data.getD (2 * k + 3) 0 : Nat) : ℚ) / 1000 / 2) ∧
    (¬cells_doubled w data → reported_cell w data k =
      ((data.getD (2 * k + 2) 0 + 256 * data.getD (2 * k + 3) 0 : Nat) : ℚ) / 1000) := by
  refine ⟨?_, fun hd => ?_, fun hd => ?_⟩
  · unfold cells_doubled
    rw [cell_volts_wide w hw data hb, cell_volts_wide w hw data hb,
      cell_volts_wide w hw data hb, cell_volts_wide w hw data hb,
      cell_volts_wide w hw data hb]
  · unfold reported_cell
    rw [if_pos hd, cell_volts_wide w hw data hb]
  · unfold reported_cell
    rw [if_neg hd, cell_volts_wide w hw data hb]

/-! ## C25: overdischarge -/

set_option maxRecDepth 1000000 in
theorem overdischarge_facts :
    overdischarge_raw (scriptedDevice [0xFF, 0x00]) [] = 0xFF ∧
    (overdischarge (scriptedDevice [0xFF, 0x00]) []).1 = 0 ∧
    overdischarge_raw (scriptedDevice [0x20, 0x00]) [] = 0x20 ∧
    (overdischarge (scriptedDevice [0x20, 0x00]) []).1 = 64 := by
  decide

set_option maxRecDepth 1000000 in
theorem overdischarge_raw_any : ∀ raw, raw < 256 →
    overdischarge_raw (scriptedDevice [raw, 0x00]) [] = raw := by
  decide

/-- C25, as stated, fails at the raw byte `0xFF`: `overdischarge` returns 0 there, not
`min(0xFF * 2, 100) = 100`. -/
theorem overdischarge_counterexample :
    overdischarge_raw (scriptedDevice [0xFF, 0x00]) [] = 0xFF ∧
    (overdischarge (scriptedDevice [0xFF, 0x00]) []).1 = 0 ∧
    (overdischarge (scriptedDevice [0xFF, 0x00]) []).1 ≠ min (0xFF * 2) 100 := by
  refine ⟨overdischarge_facts.1, overdischarge_facts.2.1, ?_⟩
  rw [overdischarge_facts.2.1]
  decide

/-- C25 (amended): the raw response byte of `overdischarge` is a byte, every byte value
occurs, and the returned value is `min(raw * 2, 100)` for every raw byte other than
`0xFF`; for the raw byte `0xFF`, which is what an absent answer reads as, it is 0. -/
theorem overdischarge_spec (dev : Device) (h : History) (raw : Nat) (hraw : raw < 256) :
    overdischarge_raw dev h < 256 ∧
    (overdischarge_raw dev h ≠ 0xFF →
      (overdischarge dev h).1 = min (overdischarge_raw dev h * 2) 100) ∧
    (overdischarge_raw dev h = 0xFF → (overdischarge dev h).1 = 0) ∧
    overdischarge_raw (scriptedDevice [raw, 0x00]) [] = raw := by
  have hb : overdischarge_raw dev h < 256 :=
    getD_lt_of_bytes (cmd_and_read_buffer dev 0xcc _ 4 _ 2 h
      (memset_bytes (by decide) (by decide) 4)).2 0
  refine ⟨hb, fun hne => ?_, fun heq => ?_, overdischarge_raw_any raw hraw⟩
  · unfold overdischarge
    unfold overdischarge_raw at hne hb ⊢
    dsimp only
    rw [if_neg hne, Nat.shiftLeft_eq]
    show (if _ > 100 then 100 else _) % 256 = _
    split <;> omega
  · unfold overdischarge
    unfold overdischarge_raw at heq
    dsimp only
    rw [if_pos heq]

/-- Witness of C25 (amended) on a pack that answers the raw byte `0x20`. -/
theorem overdischarge_spec_witness :
    overdischarge_raw (scriptedDevice [0x20, 0x00]) [] = 0x20 ∧
    (overdischarge (scriptedDevice [0x20, 0x00]) []).1 = min (0x20 * 2) 100 := by
  have e := (overdischarge_spec (scriptedDevice [0x20, 0x00]) [] 0x20 (by decide)).2.1
  rw [overdischarge_facts.2.2.1] at e
  exact ⟨overdischarge_facts.2.2.1, e (by decide)⟩

/-! ## C27: the record `resetCycleCount` hands to the safe write -/

theorem encode_other (msg : List Nat) (n j : Nat) (h26 : j ≠ 26) (h27 : j ≠ 27) :
    (resetCycleCount_encode msg n).getD j 0 = msg.getD j 0 := by
  unfold resetCycleCount_encode
  dsimp only
  rw [getD_set_ne _ _ (Ne.symm h27), getD_set_ne _ _ (Ne.symm h26)]

theorem encode_isRecord {msg : List Nat} (h : IsRecord msg) (n : Nat) :
    IsRecord (resetCycleCount_encode msg n) := by
  unfold resetCycleCount_encode
  dsimp only
  refine ⟨by rw [List.length_set, List.length_set]; exact h.1, ?_⟩
  exact bytes_set (bytes_set h.2 26 (Nat.mod_lt _ (by decide))) 27 (Nat.mod_lt _ (by decide))

theorem cycle_count_encode (msg : List Nat) (n : Nat) (hlen : 28 ≤ msg.length)
    (hn : n ≤ 4095) : cycle_count (resetCycleCount_encode msg n) = n := by
  obtain ⟨e26, e27⟩ := encode_bytes msg n hlen hn
  have h1 : (n >>> 8) &&& 0xFF < 256 := by rw [and_ff]; omega
  have h2 : n &&& 0xFF < 256 := by rw [and_ff]; omega
  unfold cycle_count
  rw [e26, e27, (swap_table _ h1).1, (swap_table _ h2).1, or_shl8 _ _ h2, and_fff,
    and_ff, and_ff, shr8]
  omega

theorem recalc_encode_primary (r : List Nat) (n : Nat) (hr : IsRecord r)
    (hv : verifyMsgChecksums r = true) :
    (recalcMsgChecksums (resetCycleCount_encode r n)).getD 20 0 = r.getD 20 0 ∧
    (recalcMsgChecksums (resetCycleCount_encode r n)).getD 21 0 = r.getD 21 0 := by
  obtain ⟨_, v1, v2, v3, _, _⟩ := (verify_iff r).mp hv
  have he := encode_isRecord hr n
  have c1 : calcNybbleSum (resetCycleCount_encode r n) 0 7 false = calcNybbleSum r 0 7 false :=
    calcNybbleSum_congr (fun i _ h2 => encode_other r n i (by omega) (by omega))
  have c2 : calcNybbleSum (resetCycleCount_encode r n) 8 15 false =
      calcNybbleSum r 8 15 false :=
    calcNybbleSum_congr (fun i _ h2 => encode_other r n i (by omega) (by omega))
  have c3 : calcNybbleSum (resetCycleCount_encode r n) 16 20 true =
      calcNybbleSum r 16 20 true :=
    calcNybbleSum_low_congr (fun i _ h2 => encode_other r n i (by omega) (by omega))
      (by rw [encode_other r n 20 (by decide) (by decide)])
  have e20 := recalc_getD _ he.1 20
  have e21 := recalc_getD _ he.1 21
  simp only [if_true, if_false, show (21 : Nat) ≠ 20 by decide] at e20 e21
  rw [e20, e21, c1, c2, c3, encode_other r n 20 (by decide) (by decide), v1, v2, v3]
  have b21 := getD_lt_of_bytes hr.2 21
  constructor <;> omega

/-- C27: for every record `r` that passes `verifyMsgChecksums` and every `n` in 0..4095,
the record that `resetCycleCount` has `write_msg_safe` write (bytes 26 and 27 replaced by
the encoding of `n`, then `recalcMsgChecksums`) is a record that differs from `r` only in
bytes 26, 27 and 31, passes `verifyMsgChecksums`, keeps the error nibble of `r` and
decodes to the cycle count `n`. -/
theorem resetCycleCount_record (dev : Device) (g_buf : List Nat) (h : History) (r : List Nat)
    (n : Nat) (hr : IsRecord r) (hv : verifyMsgChecksums r = true) (hn : n ≤ 4095) :
    (write_msg_safe dev (resetCycleCount_encode r n) g_buf h).1 =
      recalcMsgChecksums (resetCycleCount_encode r n) ∧
    IsRecord (recalcMsgChecksums (resetCycleCount_encode r n)) ∧
    (∀ i, i ≠ 26 → i ≠ 27 → i ≠ 31 →
      (recalcMsgChecksums (resetCycleCount_encode r n)).getD i 0 = r.getD i 0) ∧
    verifyMsgChecksums (recalcMsgChecksums (resetCycleCount_encode r n)) = true ∧
    (recalcMsgChecksums (resetCycleCount_encode r n)).getD 20 0 &&& 0x0F =
      r.getD 20 0 &&& 0x0F ∧
    cycle_count (recalcMsgChecksums (resetCycleCount_encode r n)) = n := by
  have he := encode_isRecord hr n
  obtain ⟨p20, p21⟩ := recalc_encode_primary r n hr hv
  refine ⟨rfl, recalc_isRecord he, ?_, ?_, by rw [p20], ?_⟩
  · intro i h26 h27 h31
    by_cases h20 : i = 20
    · rw [h20, p20]
    · by_cases h21 : i = 21
      · rw [h21, p21]
      · rw [recalc_getD_other _ h20 h21 h31, encode_other r n i h26 h27]
  · rw [verify_recalc _ he.1, p20, p21]
    exact ((verify_iff r).mp hv).1
  · have hc := cycle_count_encode r n (by rw [hr.1]; decide) hn
    unfold cycle_count at hc ⊢
    rw [recalc_getD_other _ (by decide) (by decide) (by decide),
      recalc_getD_other _ (by decide) (by decide) (by decide)]
    exact hc

/-- Witness of C27 on the valid record `sampleRecordValid` with 1234 cycles. -/
theorem resetCycleCount_record_witness :
    IsRecord sampleRecordValid ∧ verifyMsgChecksums sampleRecordValid = true ∧
    verifyMsgChecksums (recalcMsgChecksums (resetCycleCount_encode sampleRecordValid 1234))
      = true ∧
    cycle_count (recalcMsgChecksums (resetCycleCount_encode sampleRecordValid 1234)) = 1234 :=
  ⟨by decide, by decide,
    (resetCycleCount_record absentDevice [] [] sampleRecordValid 1234 (by decide) (by decide)
      (by decide)).2.2.2.1,
    (resetCycleCount_record absentDevice [] [] sampleRecordValid 1234 (by decide) (by decide)
      (by decide)).2.2.2.2.2⟩

/-! ## C29: a single changed nybble is detected -/

theorem nybble_even (r : List Nat) (j : Nat) : nybble r (2 * j) = r.getD j 0 % 16 := by
  unfold nybble
  rw [if_pos (by omega), Nat.mul_div_cancel_left j (by decide : 0 < 2)]

theorem nybble_odd (r : List Nat) (j : Nat) : nybble r (2 * j + 1) = r.getD j 0 / 16 := by
  unfold nybble
  rw [if_neg (by omega), show (2 * j + 1) / 2 = j by omega]

theorem sum_map_split (l : List Nat) (hnd : l.Nodup) (i : Nat) (hi : i ∈ l) (f g : Nat → Nat)
    (hfg : ∀ j ∈ l, j ≠ i → f j = g j) :
    ∃ S, (l.map f).sum = S + f i ∧ (l.map g).sum = S + g i := by
  induction l with
  | nil => exact absurd hi (List.not_mem_nil i)
  | cons x xs ih =>
    rw [List.nodup_cons] at hnd
    by_cases hx : x = i
    · subst hx
      refine ⟨(xs.map f).sum, ?_, ?_⟩
      · rw [List.map_cons, List.sum_cons, Nat.add_comm]
      · have e : xs.map g = xs.map f :=
          List.map_congr_left (fun j hj =>
            (hfg j (List.mem_cons_of_mem _ hj) (fun hc => hnd.1 (hc ▸ hj))).symm)
        rw [List.map_cons, List.sum_cons, e, Nat.add_comm]
    · have hi2 : i ∈ xs := by
        rcases List.mem_cons.mp hi with h | h
        · exact absurd h.symm hx
        · exact h
      obtain ⟨S, e1, e2⟩ := ih hnd.2 hi2 (fun j hj hne => hfg j (List.mem_cons_of_mem _ hj) hne)
      refine ⟨f x + S, ?_, ?_⟩
      · rw [List.map_cons, List.sum_cons, e1, Nat.add_assoc]
      · rw [List.map_cons, List.sum_cons, e2, ← hfg x (List.mem_cons_self _ _) hx,
          Nat.add_assoc]

theorem nybbleSum_split (r r2 : List Nat) (a b i : Nat) (ha : a ≤ i) (hb : i ≤ b)
    (hsame : ∀ j, a ≤ j → j ≤ b → j ≠ i → r2.getD j 0 = r.getD j 0) :
    ∃ S, nybbleSum r a b = S + (r.getD i 0 % 16 + r.getD i 0 / 16) ∧
      nybbleSum r2 a b = S + (r2.getD i 0 % 16 + r2.getD i 0 / 16) := by
  unfold nybbleSum
  apply sum_map_split (List.range' a (b + 1 - a)) (List.nodup_range' a (b + 1 - a)) i
    (by rw [List.mem_range'_1]; omega)
    (fun j => r.getD j 0 % 16 + r.getD j 0 / 16)
    (fun j => r2.getD j 0 % 16 + r2.getD j 0 / 16)
  intro j hj hne
  rw [List.mem_range'_1] at hj
  show r.getD j 0 % 16 + r.getD j 0 / 16 = r2.getD j 0 % 16 + r2.getD j 0 / 16
  rw [hsame j hj.1 (by omega) hne]

theorem calcNybbleSum_mod16 (r : List Nat) (h : IsRecord r) :
    calcNybbleSum r 0 7 false = nybbleSum r 0 7 % 16 ∧
    calcNybbleSum r 8 15 false = nybbleSum r 8 15 % 16 ∧
    calcNybbleSum r 16 20 true = (nybbleSum r 16 19 + r.getD 20 0 % 16) % 16 ∧
    calcNybbleSum r 22 23 false = nybbleSum r 22 23 % 16 ∧
    calcNybbleSum r 24 30 false = nybbleSum r 24 30 % 16 := by
  have s1 := nybbleSum_le h.2 0 7
  have s2 := nybbleSum_le h.2 8 15
  have s3 := nybbleSum_le h.2 16 19
  have s4 := nybbleSum_le h.2 22 23
  have s5 := nybbleSum_le h.2 24 30
  have b20 := getD_lt_of_bytes h.2 20
  have c1 := calcNybbleSum_full r 0 7
  have c2 := calcNybbleSum_full r 8 15
  have c3 : calcNybbleSum r 16 20 true =
      min (nybbleSum r 16 19 + r.getD 20 0 % 16) 255 % 16 := calcNybbleSum_low r 16 19
  have c4 := calcNybbleSum_full r 22 23
  have c5 := calcNybbleSum_full r 24 30
  rw [Nat.min_eq_left (by omega)] at c1 c2 c3 c4 c5
  exact ⟨c1, c2, c3, c4, c5⟩

theorem mod16_differs (S x y c : Nat) (hx : x < 256) (hy : y < 256)
    (B : (y % 16 ≠ x % 16 ∧ y / 16 = x / 16) ∨ (y / 16 ≠ x / 16 ∧ y % 16 = x % 16))
    (h1 : (S + (x % 16 + x / 16)) % 16 = c) (h2 : (S + (y % 16 + y / 16)) % 16 = c) :
    False := by
  omega

theorem byte20_differs (M N x y c : Nat)
    (B : (y % 16 ≠ x % 16 ∧ y / 16 = x / 16) ∨ (y / 16 ≠ x / 16 ∧ y % 16 = x % 16))
    (v1 : M % 16 = x / 16) (w1 : M % 16 = y / 16)
    (v3 : (N + x % 16) % 16 = c) (w3 : (N + y % 16) % 16 = c) : False := by
  omega

theorem checksum_byte_differs (P Q x y : Nat)
    (B : (y % 16 ≠ x % 16 ∧ y / 16 = x / 16) ∨ (y / 16 ≠ x / 16 ∧ y % 16 = x % 16))
    (v2 : P % 16 = x % 16) (w2 : P % 16 = y % 16)
    (v3 : Q % 16 = x / 16) (w3 : Q % 16 = y / 16) : False := by
  omega

theorem verify_single_nybble (r r2 : List Nat) (k : Nat) (hr : IsRecord r) (hr2 : IsRecord r2)
    (hv : verifyMsgChecksums r = true) (hk : k < 64)
    (hdiff : nybble r2 k ≠ nybble r k)
    (hsame : ∀ j, j < 64 → j ≠ k → nybble r2 j = nybble r j) :
    verifyMsgChecksums r2 = false := by
  have A : ∀ j, j < 32 → j ≠ k / 2 → r2.getD j 0 = r.getD j 0 := by
    intro j hj hne
    have e1 := hsame (2 * j) (by omega) (by omega)
    have e2 := hsame (2 * j + 1) (by omega) (by omega)
    rw [nybble_even, nybble_even] at e1
    rw [nybble_odd, nybble_odd] at e2
    omega
  have B : (r2.getD (k / 2) 0 % 16 ≠ r.getD (k / 2) 0 % 16 ∧
        r2.getD (k / 2) 0 / 16 = r.getD (k / 2) 0 / 16) ∨
      (r2.getD (k / 2) 0 / 16 ≠ r.getD (k / 2) 0 / 16 ∧
        r2.getD (k / 2) 0 % 16 = r.getD (k / 2) 0 % 16) := by
    rcases Nat.even_or_odd' k with ⟨i, hi | hi⟩
    · have e2 := hsame (2 * i + 1) (by omega) (by omega)
      rw [hi, nybble_even, nybble_even] at hdiff
      rw [nybble_odd, nybble_odd] at e2
      have : k / 2 = i := by omega
      rw [this]
      exact Or.inl ⟨hdiff, e2⟩
    · have e2 := hsame (2 * i) (by omega) (by omega)
      rw [hi, nybble_odd, nybble_odd] at hdiff
      rw [nybble_even, nybble_even] at e2
      have : k / 2 = i := by omega
      rw [this]
      exact Or.inr ⟨hdiff, e2⟩
  have hi : k / 2 < 32 := by omega
  generalize k / 2 = i at A B hi
  cases hv2 : verifyMsgChecksums r2
  · rfl
  · exfalso
    obtain ⟨_, v1, v2, v3, v4, v5⟩ := (verify_iff r).mp hv
    obtain ⟨_, w1, w2, w3, w4, w5⟩ := (verify_iff r2).mp hv2
    obtain ⟨m1, m2, m3, m4, m5⟩ := calcNybbleSum_mod16 r hr
    obtain ⟨n1, n2, n3, n4, n5⟩ := calcNybbleSum_mod16 r2 hr2
    rw [m1] at v1
    rw [m2] at v2
    rw [m3] at v3
    rw [m4] at v4
    rw [m5] at v5
    rw [n1] at w1
    rw [n2] at w2
    rw [n3] at w3
    rw [n4] at w4
    rw [n5] at w5
    have bi := getD_lt_of_bytes hr.2 i
    have bi2 := getD_lt_of_bytes hr2.2 i
    have hg : i ≤ 7 ∨ (8 ≤ i ∧ i ≤ 15) ∨ (16 ≤ i ∧ i ≤ 19) ∨ i = 20 ∨ i = 21 ∨
        (22 ≤ i ∧ i ≤ 23) ∨ (24 ≤ i ∧ i ≤ 30) ∨ i = 31 := by omega
    rcases hg with g | g | g | g | g | g | g | g
    · obtain ⟨S, e1, e2⟩ := nybbleSum_split r r2 0 7 i (by omega) (by omega)
        (fun j _ hj hne => A j (by omega) hne)
      rw [e1] at v1
      rw [e2, A 20 (by omega) (by omega)] at w1
      exact mod16_differs S _ _ _ bi bi2 B v1 w1
    · obtain ⟨S, e1, e2⟩ := nybbleSum_split r r2 8 15 i (by omega) (by omega)
        (fun j _ hj hne => A j (by omega) hne)
      rw [e1] at v2
      rw [e2, A 21 (by omega) (by omega)] at w2
      exact mod16_differs S _ _ _ bi bi2 B v2 w2
    · obtain ⟨S, e1, e2⟩ := nybbleSum_split r r2 16 19 i (by omega) (by omega)
        (fun j _ hj hne => A j (by omega) hne)
      rw [e1, Nat.add_right_comm] at v3
      rw [e2, A 20 (by omega) (by omega), A 21 (by omega) (by omega),
        Nat.add_right_comm] at w3
      exact mod16_differs _ _ _ _ bi bi2 B v3 w3
    · subst g
      have s1 : nybbleSum r2 0 7 = nybbleSum r 0 7 :=
        nybbleSum_congr (fun j _ hj => A j (by omega) (by omega))
      have s3 : nybbleSum r2 16 19 = nybbleSum r 16 19 :=
        nybbleSum_congr (fun j _ hj => A j (by omega) (by omega))
      rw [s1] at w1
      rw [s3, A 21 (by omega) (by omega)] at w3
      exact byte20_differs _ _ _ _ _ B v1 w1 v3 w3
    · subst g
      have s2 : nybbleSum r2 8 15 = nybbleSum r 8 15 :=
        nybbleSum_congr (fun j _ hj => A j (by omega) (by omega))
      have s3 : nybbleSum r2 16 19 = nybbleSum r 16 19 :=
        nybbleSum_congr (fun j _ hj => A j (by omega) (by omega))
      rw [s2] at w2
      rw [s3, A 20 (by omega) (by omega)] at w3
      exact checksum_byte_differs _ _ _ _ B v2 w2 v3 w3
    · obtain ⟨S, e1, e2⟩ := nybbleSum_split r r2 22 23 i (by omega) (by omega)
        (fun j _ hj hne => A j (by omega) hne)
      rw [e1] at v4
      rw [e2, A 31 (by omega) (by omega)] at w4
      exact mod16_differs S _ _ _ bi bi2 B v4 w4
    · obtain ⟨S, e1, e2⟩ := nybbleSum_split r r2 24 30 i (by omega) (by omega)
        (fun j _ hj hne => A j (by omega) hne)
      rw [e1] at v5
      rw [e2, A 31 (by omega) (by omega)] at w5
      exact mod16_differs S _ _ _ bi bi2 B v5 w5
    · subst g
      have s4 : nybbleSum r2 22 23 = nybbleSum r 22 23 :=
        nybbleSum_congr (fun j _ hj => A j (by omega) (by omega))
      have s5 : nybbleSum r2 24 30 = nybbleSum r 24 30 :=
        nybbleSum_congr (fun j _ hj => A j (by omega) (by omega))
      rw [s4] at w4
      rw [s5] at w5
      exact checksum_byte_differs _ _ _ _ B v4 w4 v5 w5

/-- C29: if a 32-byte record `r` passes `verifyMsgChecksums` and the record `r2` differs
from it in the value of exactly one of the 64 nybbles (nybble `2 i` is the low and
nybble `2 i + 1` the high nibble of byte `i`), then `r2` fails `verifyMsgChecksums`, and
`isBatteryLocked` reports locked whenever the record it reads is `r2`. -/
theorem single_nybble_detected (r r2 : List Nat) (k : Nat) (hr : IsRecord r)
    (hr2 : IsRecord r2) (hv : verifyMsgChecksums r = true) (hk : k < 64)
    (hdiff : nybble r2 k ≠ nybble r k)
    (hsame : ∀ j, j < 64 → j ≠ k → nybble r2 j = nybble r j) :
    verifyMsgChecksums r2 = false ∧
    ∀ (dev : Device) (h : History) (data : List Nat) (h2 : History),
      try_charger dev (List.replicate 64 0) h = (true, data, h2) →
      (data.drop 8).take 32 = r2 → (isBatteryLocked dev h).1 = true := by
  have hf := verify_single_nybble r r2 k hr hr2 hv hk hdiff hsame
  refine ⟨hf, fun dev h data h2 hread hrec => ?_⟩
  cases hl : (isBatteryLocked dev h).1
  · have hx := ((isBatteryLocked_read_ok dev h data h2 hread).2.mp hl).2
    rw [hrec, hf] at hx
    exact Bool.noConfusion hx
  · rfl

set_option maxRecDepth 1000000 in
theorem tampered_facts :
    IsRecord tamperedRecord ∧ nybble tamperedRecord 0 ≠ nybble sampleRecordValid 0 ∧
    (∀ j, j < 64 → j ≠ 0 → nybble tamperedRecord j = nybble sampleRecordValid j) ∧
    (try_charger (scriptedDevice (sampleRom ++ tamperedRecord)) (List.replicate 64 0) []).1
      = true ∧
    ((try_charger (scriptedDevice (sampleRom ++ tamperedRecord)) (List.replicate 64 0)
      []).2.1.drop 8).take 32 = tamperedRecord := by
  decide

/-- Witness of C29: `tamperedRecord` is `sampleRecordValid` with nybble 0 changed; it
fails the verification, and a pack that serves it is reported locked. -/
theorem single_nybble_detected_witness :
    verifyMsgChecksums sampleRecordValid = true ∧
    verifyMsgChecksums tamperedRecord = false ∧
    (isBatteryLocked (scriptedDevice (sampleRom ++ tamperedRecord)) []).1 = true :=
  ⟨by decide,
    (single_nybble_detected sampleRecordValid tamperedRecord 0 (by decide) tampered_facts.1
      (by decide) (by decide) tampered_facts.2.1 tampered_facts.2.2.1).1,
    (single_nybble_detected sampleRecordValid tamperedRecord 0 (by decide) tampered_facts.1
      (by decide) (by decide) tampered_facts.2.1 tampered_facts.2.2.1).2
      (scriptedDevice (sampleRom ++ tamperedRecord)) [] _ _
      (read_result_eta _ true tampered_facts.2.2.2.1) tampered_facts.2.2.2.2⟩

/-! ## Rounding to a `float` -/

theorem roundTiesEven_bounds (q : ℚ) :
    Int.floor q ≤ roundTiesEven q ∧ roundTiesEven q ≤ Int.floor q + 1 := by
  unfold roundTiesEven
  split
  · omega
  · split
    · omega
    · split <;> omega

theorem roundTiesEven_int (n : Int) : roundTiesEven (n : ℚ) = n := by
  unfold roundTiesEven
  rw [Int.floor_intCast, sub_self, if_pos (by norm_num)]

theorem roundTiesEven_mono {p q : ℚ} (h : p ≤ q) : roundTiesEven p ≤ roundTiesEven q := by
  have hf : Int.floor p ≤ Int.floor q := Int.floor_le_floor h
  rcases lt_or_eq_of_le hf with hlt | heq
  · have h1 := (roundTiesEven_bounds p).2
    have h2 := (roundTiesEven_bounds q).1
    omega
  · unfold roundTiesEven
    rw [heq]
    have hpq : p - Int.floor q ≤ q - Int.floor q := by linarith
    by_cases a1 : p - Int.floor q < 1 / 2
    · rw [if_pos a1]
      split
      · exact le_refl _
      · split
        · omega
        · split <;> omega
    · rw [if_neg a1]
      have b1 : ¬(q - Int.floor q < 1 / 2) := fun hc => a1 (lt_of_le_of_lt hpq hc)
      rw [if_neg b1]
      by_cases a2 : 1 / 2 < p - Int.floor q
      · rw [if_pos a2, if_pos (lt_of_lt_of_le a2 hpq)]
      · rw [if_neg a2]
        by_cases b2 : 1 / 2 < q - Int.floor q
        · rw [if_pos b2]
          split <;> omega
        · rw [if_neg b2]

theorem roundTiesEven_near (q : ℚ) (n : Int) (h1 : (n : ℚ) - 1 / 2 < q)
    (h2 : q < (n : ℚ) + 1 / 2) : roundTiesEven q = n := by
  have hb := roundTiesEven_bounds q
  by_cases hq : (n : ℚ) ≤ q
  · have hf : Int.floor q = n := by
      rw [Int.floor_eq_iff]
      exact ⟨hq, by linarith⟩
    unfold roundTiesEven
    rw [hf, if_pos (by linarith)]
  · have hf : Int.floor q = n - 1 := by
      rw [Int.floor_eq_iff]
      push_cast
      exact ⟨by linarith, by linarith⟩
    unfold roundTiesEven
    rw [hf, if_neg (by push_cast; linarith), if_pos (by push_cast; linarith)]
    omega

theorem log_of_binade (x : ℚ) (e : Int) (hx : 0 < x) (h1 : (2 : ℚ) ^ e ≤ x)
    (h2 : x < (2 : ℚ) ^ (e + 1)) : Int.log 2 |x| = e := by
  rw [abs_of_pos hx]
  have a := (Int.zpow_le_iff_le_log (by norm_num : 1 < 2) hx).mp (by exact_mod_cast h1)
  have b := (Int.lt_zpow_iff_log_lt (by norm_num : 1 < 2) hx).mp (by exact_mod_cast h2)
  omega

theorem binade_of_pos (x : ℚ) (hx : 0 < x) :
    (2 : ℚ) ^ Int.log 2 |x| ≤ x ∧ x < (2 : ℚ) ^ (Int.log 2 |x| + 1) := by
  rw [abs_of_pos hx]
  have a := Int.zpow_log_le_self (by norm_num : 1 < 2) hx
  have b := Int.lt_zpow_succ_log_self (by norm_num : 1 < 2) x
  exact ⟨by exact_mod_cast a, by exact_mod_cast b⟩

theorem float32_of_binade (x : ℚ) (e : Int) (hx : 0 < x) (h1 : (2 : ℚ) ^ e ≤ x)
    (h2 : x < (2 : ℚ) ^ (e + 1)) :
    float32 x = roundTiesEven (x / 2 ^ (e - 23)) * 2 ^ (e - 23) := by
  unfold float32
  rw [if_neg (ne_of_gt hx), log_of_binade x e hx h1 h2]

theorem float32_binade (x : ℚ) (e : Int) (hx : 0 < x) (h1 : (2 : ℚ) ^ e ≤ x)
    (h2 : x < (2 : ℚ) ^ (e + 1)) :
    (2 : ℚ) ^ e ≤ float32 x ∧ float32 x ≤ (2 : ℚ) ^ (e + 1) := by
  rw [float32_of_binade x e hx h1 h2]
  have hu : (0 : ℚ) < 2 ^ (e - 23) := zpow_pos (by norm_num) _
  have e1 : ((2 ^ 23 : Int) : ℚ) * 2 ^ (e - 23) = 2 ^ e := by
    have : ((2 ^ 23 : Int) : ℚ) = (2 : ℚ) ^ (23 : Int) := by norm_num
    rw [this, ← zpow_add₀ (by norm_num : (2 : ℚ) ≠ 0)]
    congr 1
    omega
  have e2 : ((2 ^ 24 : Int) : ℚ) * 2 ^ (e - 23) = 2 ^ (e + 1) := by
    have : ((2 ^ 24 : Int) : ℚ) = (2 : ℚ) ^ (24 : Int) := by norm_num
    rw [this, ← zpow_add₀ (by norm_num : (2 : ℚ) ≠ 0)]
    congr 1
    omega
  have q1 : ((2 ^ 23 : Int) : ℚ) ≤ x / 2 ^ (e - 23) := by
    rw [le_div_iff₀ hu, e1]
    exact h1
  have q2 : x / 2 ^ (e - 23) ≤ ((2 ^ 24 : Int) : ℚ) := by
    rw [div_le_iff₀ hu, e2]
    exact le_of_lt h2
  have r1 := roundTiesEven_mono q1
  have r2 := roundTiesEven_mono q2
  rw [roundTiesEven_int] at r1 r2
  constructor
  · rw [← e1]
    exact mul_le_mul_of_nonneg_right (by exact_mod_cast r1) (le_of_lt hu)
  · rw [← e2]
    exact mul_le_mul_of_nonneg_right (by exact_mod_cast r2) (le_of_lt hu)

theorem float32_mono (x y : ℚ) (hx : 0 < x) (hxy : x ≤ y) : float32 x ≤ float32 y := by
  have hy : 0 < y := lt_of_lt_of_le hx hxy
  obtain ⟨a1, a2⟩ := binade_of_pos x hx
  obtain ⟨b1, b2⟩ := binade_of_pos y hy
  have hlog : Int.log 2 |x| ≤ Int.log 2 |y| := by
    rw [abs_of_pos hx, abs_of_pos hy]
    exact Int.log_mono_right hx hxy
  rcases lt_or_eq_of_le hlog with hlt | heq
  · have fx := (float32_binade x _ hx a1 a2).2
    have fy := (float32_binade y _ hy b1 b2).1
    have hp : (2 : ℚ) ^ (Int.log 2 |x| + 1) ≤ 2 ^ Int.log 2 |y| :=
      zpow_le_zpow_right₀ (by norm_num) (by omega)
    exact le_trans fx (le_trans hp fy)
  · rw [float32_of_binade x _ hx a1 a2, float32_of_binade y _ hy b1 b2, heq]
    have hu : (0 : ℚ) < 2 ^ (Int.log 2 |y| - 23) := zpow_pos (by norm_num) _
    apply mul_le_mul_of_nonneg_right _ (le_of_lt hu)
    have : x / 2 ^ (Int.log 2 |y| - 23) ≤ y / 2 ^ (Int.log 2 |y| - 23) :=
      div_le_div_of_nonneg_right hxy (le_of_lt hu)
    exact_mod_cast roundTiesEven_mono this

theorem float32_pos (x : ℚ) (hx : 0 < x) : 0 < float32 x := by
  obtain ⟨a1, a2⟩ := binade_of_pos x hx
  exact lt_of_lt_of_le (zpow_pos (by norm_num) _) (float32_binade x _ hx a1 a2).1

theorem float32_eq (x : ℚ) (e n : Int) (hx : 0 < x) (h1 : (2 : ℚ) ^ e ≤ x)
    (h2 : x < (2 : ℚ) ^ (e + 1)) (n1 : (n : ℚ) - 1 / 2 < x / 2 ^ (e - 23))
    (n2 : x / 2 ^ (e - 23) < (n : ℚ) + 1 / 2) :
    float32 x = n * 2 ^ (e - 23) := by
  rw [float32_of_binade x e hx h1 h2, roundTiesEven_near _ n n1 n2]

theorem float32_consts :
    float32 4.20 = 4404019 / 1048576 ∧ float32 3.00 = 3 ∧ float32 3.0 = 3 ∧
    float32 83.33 = 5461115 / 65536 ∧
    float32 (1258291 / 1048576) = 1258291 / 1048576 ∧
    float32 (13107199 / 131072) = 13107199 / 131072 := by
  refine ⟨?_, ?_, ?_, ?_, ?_, ?_⟩
  · rw [float32_eq 4.20 2 8808038 (by norm_num) (by norm_num) (by norm_num) (by norm_num)
      (by norm_num)]
    norm_num
  · rw [float32_eq 3.00 1 12582912 (by norm_num) (by norm_num) (by norm_num) (by norm_num)
      (by norm_num)]
    norm_num
  · rw [float32_eq 3.0 1 12582912 (by norm_num) (by norm_num) (by norm_num) (by norm_num)
      (by norm_num)]
    norm_num
  · rw [float32_eq 83.33 6 10922230 (by norm_num) (by norm_num) (by norm_num) (by norm_num)
      (by norm_num)]
    norm_num
  · rw [float32_eq (1258291 / 1048576) 0 10066328 (by norm_num) (by norm_num) (by norm_num)
      (by norm_num) (by norm_num)]
    norm_num
  · rw [float32_eq (13107199 / 131072) 6 13107199 (by norm_num) (by norm_num) (by norm_num)
      (by norm_num) (by norm_num)]
    norm_num

/-! ## C26: state of charge from the cell voltage -/

theorem voltage_to_soc_mid (v : ℚ) (h1 : 3 < v) (h2 : v < 4404019 / 1048576) :
    voltage_to_soc v =
      Int.toNat (Int.floor (float32 (float32 (v - 3) * (5461115 / 65536)))) ∧
    0 ≤ Int.floor (float32 (float32 (v - 3) * (5461115 / 65536))) ∧
    Int.floor (float32 (float32 (v - 3) * (5461115 / 65536))) ≤ 99 := by
  obtain ⟨c1, c2, c3, c4, c5, c6⟩ := float32_consts
  have hd0 : (0 : ℚ) < v - 3 := by linarith
  have hd : float32 (v - 3) ≤ 1258291 / 1048576 := by
    have := float32_mono (v - 3) (1258291 / 1048576) hd0 (by linarith)
    rw [c5] at this
    exact this
  have hdp := float32_pos (v - 3) hd0
  have hp0 : (0 : ℚ) < float32 (v - 3) * (5461115 / 65536) := by positivity
  have hp1 : float32 (v - 3) * (5461115 / 65536) ≤ 13107199 / 131072 := by
    have : float32 (v - 3) * (5461115 / 65536) ≤ 1258291 / 1048576 * (5461115 / 65536) :=
      mul_le_mul_of_nonneg_right hd (by norm_num)
    have h3 : (1258291 : ℚ) / 1048576 * (5461115 / 65536) ≤ 13107199 / 131072 := by norm_num
    linarith
  have hf := float32_mono _ _ hp0 hp1
  rw [c6] at hf
  have hfp := float32_pos _ hp0
  have f0 : 0 ≤ Int.floor (float32 (float32 (v - 3) * (5461115 / 65536))) :=
    Int.floor_nonneg.mpr (le_of_lt hfp)
  have f1 : Int.floor (float32 (float32 (v - 3) * (5461115 / 65536))) < 100 := by
    rw [Int.floor_lt]
    have : (13107199 : ℚ) / 131072 < 100 := by norm_num
    push_cast
    linarith
  refine ⟨?_, f0, by omega⟩
  unfold voltage_to_soc
  rw [c1, c2, c3, c4, if_neg (not_le.mpr h2), if_neg (not_le.mpr h1)]
  omega

/-- C26 (amended): in `float` arithmetic, `voltage_to_soc v` is 100 when `v` is at least
the float `4.20f = 4404019 / 1048576`, 0 when `v <= 3.00`, and otherwise the integer part
of the float product `(v - 3.0f) * 83.33f`, in which the difference and the product are
rounded to floats and `83.33f = 5461115 / 65536`; the result is at most 100, at most 99
for `v` below `4.20f`, and non-decreasing in `v`. -/
theorem voltage_to_soc_spec (v w : ℚ) :
    float32 4.20 = 4404019 / 1048576 ∧ float32 3.00 = 3 ∧ float32 3.0 = 3 ∧
    float32 83.33 = 5461115 / 65536 ∧
    (float32 4.20 ≤ v → voltage_to_soc v = 100) ∧
    (v ≤ 3.00 → voltage_to_soc v = 0) ∧
    (3.00 < v → v < float32 4.20 →
      ((voltage_to_soc v : Nat) : Int) =
        Int.floor (float32 (float32 (v - float32 3.0) * float32 83.33))) ∧
    voltage_to_soc v ≤ 100 ∧
    (v < float32 4.20 → voltage_to_soc v ≤ 99) ∧
    (v ≤ w → voltage_to_soc v ≤ voltage_to_soc w) := by
  obtain ⟨c1, c2, c3, c4, _, _⟩ := float32_consts
  have hhi : ∀ x : ℚ, 4404019 / 1048576 ≤ x → voltage_to_soc x = 100 := by
    intro x hx
    unfold voltage_to_soc
    rw [c1, if_pos hx]
  have hlo : ∀ x : ℚ, x ≤ 3 → voltage_to_soc x = 0 := by
    intro x hx
    unfold voltage_to_soc
    rw [c1, c2, if_neg (by
      intro hc
      have : (3 : ℚ) < 4404019 / 1048576 := by norm_num
      linarith), if_pos hx]
  have h99 : ∀ x : ℚ, x < 4404019 / 1048576 → voltage_to_soc x ≤ 99 := by
    intro x hx
    by_cases hx3 : x ≤ 3
    · rw [hlo x hx3]
      omega
    · obtain ⟨e, f0, f1⟩ := voltage_to_soc_mid x (not_le.mp hx3) hx
      rw [e]
      omega
  rw [c1, c3, c4]
  refine ⟨rfl, c2, rfl, rfl, hhi v, fun h => hlo v (by norm_num at h; exact h),
    fun h1 h2 => ?_, ?_, h99 v, fun hvw => ?_⟩
  · obtain ⟨e, f0, _⟩ := voltage_to_soc_mid v (by norm_num at h1; exact h1) h2
    rw [e]
    exact Int.toNat_of_nonneg f0
  · by_cases hv : v < 4404019 / 1048576
    · have := h99 v hv
      omega
    · rw [hhi v (not_lt.mp hv)]
  · by_cases hw : w < 4404019 / 1048576
    · by_cases hv3 : v ≤ 3
      · rw [hlo v hv3]
        omega
      · have hv : v < 4404019 / 1048576 := lt_of_le_of_lt hvw hw
        have hv0 : (0 : ℚ) < v - 3 := by linarith [not_le.mp hv3]
        obtain ⟨e1, _, _⟩ := voltage_to_soc_mid v (not_le.mp hv3) hv
        obtain ⟨e2, _, _⟩ := voltage_to_soc_mid w (lt_of_lt_of_le (not_le.mp hv3) hvw) hw
        rw [e1, e2]
        apply Int.toNat_le_toNat
        apply Int.floor_le_floor
        have hm := float32_mono (v - 3) (w - 3) hv0 (by linarith)
        have hp := float32_pos (v - 3) hv0
        exact float32_mono _ _ (by positivity)
          (mul_le_mul_of_nonneg_right hm (by norm_num))
    · rw [hhi w (not_lt.mp hw)]
      by_cases hv : v < 4404019 / 1048576
      · have := h99 v hv
        omega
      · rw [hhi v (not_lt.mp hv)]

theorem voltage_to_soc_at :
    voltage_to_soc (15099595 / 4194304) = 50 ∧ voltage_to_soc (7 / 2) = 41 := by
  constructor
  · have e1 : float32 ((15099595 : ℚ) / 4194304 - 3) = 2516683 / 4194304 := by
      rw [float32_eq _ (-1) 10066732 (by norm_num) (by norm_num) (by norm_num) (by norm_num)
        (by norm_num)]
      norm_num
    have e2 : float32 ((2516683 : ℚ) / 4194304 * (5461115 / 65536)) = 50 := by
      rw [float32_eq _ 5 13107200 (by norm_num) (by norm_num) (by norm_num) (by norm_num)
        (by norm_num)]
      norm_num
    rw [(voltage_to_soc_mid _ (by norm_num) (by norm_num)).1, e1, e2]
    have : Int.floor (50 : ℚ) = 50 := by
      rw [Int.floor_eq_iff]
      norm_num
    rw [this]
    rfl
  · have e1 : float32 ((7 : ℚ) / 2 - 3) = 1 / 2 := by
      rw [float32_eq _ (-1) 8388608 (by norm_num) (by norm_num) (by norm_num) (by norm_num)
        (by norm_num)]
      norm_num
    have e2 : float32 ((1 : ℚ) / 2 * (5461115 / 65536)) = 5461115 / 131072 := by
      rw [float32_eq _ 5 10922230 (by norm_num) (by norm_num) (by norm_num) (by norm_num)
        (by norm_num)]
      norm_num
    rw [(voltage_to_soc_mid _ (by norm_num) (by norm_num)).1, e1, e2]
    have : Int.floor ((5461115 : ℚ) / 131072) = 41 := by
      rw [Int.floor_eq_iff]
      norm_num
    rw [this]
    rfl

/-- C26, as stated, fails in `float` arithmetic.  At the float `v = 15099595 / 4194304`,
between 3.00 and 4.20, the exact product `(v - 3.0) * 83.33` has integer part 49, but the
float product rounds to 50.0 and `voltage_to_soc` returns 50.  At the float
`4404019 / 1048576`, which is `4.20f` and lies below 4.20, `voltage_to_soc` returns 100,
not at most 99. -/
theorem voltage_to_soc_counterexample :
    (3.00 : ℚ) < 15099595 / 4194304 ∧ (15099595 / 4194304 : ℚ) < 4.20 ∧
    float32 (15099595 / 4194304) = 15099595 / 4194304 ∧
    Int.floor (((15099595 / 4194304 : ℚ) - 3.0) * 83.33) = 49 ∧
    voltage_to_soc (15099595 / 4194304) = 50 ∧
    (4404019 / 1048576 : ℚ) < 4.20 ∧
    float32 (4404019 / 1048576) = 4404019 / 1048576 ∧
    voltage_to_soc (4404019 / 1048576) = 100 := by
  refine ⟨by norm_num, by norm_num, ?_, ?_, voltage_to_soc_at.1, by norm_num, ?_, ?_⟩
  · rw [float32_eq _ 1 15099595 (by norm_num) (by norm_num) (by norm_num) (by norm_num)
      (by norm_num)]
    norm_num
  · rw [Int.floor_eq_iff]
    norm_num
  · rw [float32_eq _ 2 8808038 (by norm_num) (by norm_num) (by norm_num) (by norm_num)
      (by norm_num)]
    norm_num
  · unfold voltage_to_soc
    rw [float32_consts.1, if_pos (le_refl _)]

/-- Witness of C26 (amended): the float `4.20f` gives 100, 3.0 gives 0, 3.5 gives 41 (the
float product is `5461115 / 131072 = 41.66...`), and 3.5 gives no more than 4.0. -/
theorem voltage_to_soc_spec_witness :
    voltage_to_soc (4404019 / 1048576) = 100 ∧ voltage_to_soc 3 = 0 ∧
    voltage_to_soc (7 / 2) ≤ 99 ∧ voltage_to_soc (7 / 2) ≤ voltage_to_soc 4 :=
  ⟨(voltage_to_soc_spec (4404019 / 1048576) 0).2.2.2.2.1
      (by rw [(voltage_to_soc_spec 0 0).1]),
    (voltage_to_soc_spec 3 0).2.2.2.2.2.1 (by norm_num),
    (voltage_to_soc_spec (7 / 2) 0).2.2.2.2.2.2.2.2.1
      (by rw [(voltage_to_soc_spec 0 0).1]; norm_num),
    (voltage_to_soc_spec (7 / 2) 4).2.2.2.2.2.2.2.2.2 (by norm_num)⟩

/-! ## C5: the clamp of `calcNybbleSum` and the `int` accumulator -/

theorem intValue_of_lt (w : Nat) (hw : 1 ≤ w) (x : Int) (h0 : 0 ≤ x) (h1 : x < 2 ^ (w - 1)) :
    intValue w x = x := by
  unfold intValue
  have hp : (2 : Int) ^ w = 2 * 2 ^ (w - 1) := by
    rw [← pow_succ']
    congr 1
    omega
  rw [hp, Int.emod_eq_of_lt (by omega) (by omega)]
  omega

theorem foldl_int_exact (w : Nat) (hw : 1 ≤ w) (f : Nat → Nat) (l : List Nat) (init : Nat)
    (h : init + (l.map f).sum < 2 ^ (w - 1)) :
    l.foldl (fun s i => intValue w (s + ((f i : Nat) : Int))) (init : Int) =
      ((init + (l.map f).sum : Nat) : Int) := by
  induction l generalizing init with
  | nil => simp
  | cons x xs ih =>
    rw [List.map_cons, List.sum_cons] at h
    have h1 : init + f x < 2 ^ (w - 1) := by omega
    have h2 : ((init : Int) + ((f x : Nat) : Int)) < 2 ^ (w - 1) := by exact_mod_cast h1
    rw [List.foldl_cons, intValue_of_lt w hw _ (by omega) h2]
    have e : (init : Int) + ((f x : Nat) : Int) = ((init + f x : Nat) : Int) := by
      push_cast
      rfl
    rw [e, ih (init + f x) (by rw [Nat.add_assoc]; exact h), List.map_cons, List.sum_cons,
      Nat.add_assoc]

theorem calcNybbleSum_int_full (w : Nat) (hw : 1 ≤ w) (msg : List Nat) (a b : Nat)
    (h : nybbleSum msg a b < 2 ^ (w - 1)) :
    calcNybbleSum_int w msg a b false = min (nybbleSum msg a b) 255 % 16 := by
  unfold calcNybbleSum_int
  simp only [Bool.false_eq_true, if_false, and15, shr4]
  have e := foldl_int_exact w hw (fun i => msg.getD i 0 % 16 + msg.getD i 0 / 16)
    (List.range' a (b + 1 - a)) 0 (by
      rw [Nat.zero_add]
      exact h)
  rw [Nat.zero_add] at e
  rw [show ((0 : Nat) : Int) = 0 from rfl] at e
  rw [e]
  unfold nybbleSum
  split <;> omega

theorem calcNybbleSum_int_low (w : Nat) (hw : 1 ≤ w) (msg : List Nat) (a b : Nat)
    (h : nybbleSum msg a b + msg.getD (b + 1) 0 % 16 < 2 ^ (w - 1)) :
    calcNybbleSum_int w msg a (b + 1) true =
      min (nybbleSum msg a b + msg.getD (b + 1) 0 % 16) 255 % 16 := by
  unfold calcNybbleSum_int
  simp only [if_true, and15, shr4]
  have e := foldl_int_exact w hw (fun i => msg.getD i 0 % 16 + msg.getD i 0 / 16)
    (List.range' a (b + 1 - a)) 0 (by
      rw [Nat.zero_add]
      unfold nybbleSum at h
      omega)
  rw [Nat.zero_add] at e
  rw [show ((0 : Nat) : Int) = 0 from rfl] at e
  rw [e]
  unfold nybbleSum at h ⊢
  have h2 : ((((List.range' a (b + 1 - a)).map
      (fun i => msg.getD i 0 % 16 + msg.getD i 0 / 16)).sum : Nat) : Int) +
      ((msg.getD (b + 1) 0 % 16 : Nat) : Int) < 2 ^ (w - 1) := by exact_mod_cast h
  rw [intValue_of_lt w hw _ (by omega) h2]
  split <;> omega

theorem calcNybbleSum_int_eq (w : Nat) (hw : 1 ≤ w) (msg : List Nat) (a b : Nat) :
    (nybbleSum msg a b < 2 ^ (w - 1) →
      calcNybbleSum_int w msg a b false = calcNybbleSum msg a b false) ∧
    (nybbleSum msg a b + msg.getD (b + 1) 0 % 16 < 2 ^ (w - 1) →
      calcNybbleSum_int w msg a (b + 1) true = calcNybbleSum msg a (b + 1) true) :=
  ⟨fun h => by rw [calcNybbleSum_int_full w hw msg a b h, calcNybbleSum_full],
    fun h => by rw [calcNybbleSum_int_low w hw msg a b h, calcNybbleSum_low]⟩

theorem sum_ff (N n : Nat) (hn : n ≤ N) :
    ((List.range' 0 n).map (fun i => (List.replicate N 0xFF).getD i 0 % 16 +
      (List.replicate N 0xFF).getD i 0 / 16)).sum = 30 * n := by
  have hmap : (List.range' 0 n).map
      (fun i => (List.replicate N 0xFF).getD i 0 % 16 + (List.replicate N 0xFF).getD i 0 / 16)
      = (List.range' 0 n).map (fun _ => 30) := by
    apply List.map_congr_left
    intro i hi
    rw [List.mem_range'_1] at hi
    have hlt : i < (List.replicate N 0xFF).length := by
      rw [List.length_replicate]; omega
    rw [List.getD_eq_getElem _ _ hlt, List.getElem_replicate]
  rw [hmap, List.map_const', List.sum_const_nat, List.length_range']
  omega

theorem calcNybbleSum_int_ff (w : Nat) (hw : 1 ≤ w) (n : Nat) (h : 30 * n < 2 ^ (w - 1)) :
    calcNybbleSum_int w (List.replicate (n + 1) 0xFF) 0 n false =
      (Int.toNat ((if intValue w (((30 * n : Nat) : Int) + 30) > 255 then 255
        else intValue w (((30 * n : Nat) : Int) + 30)) % 16)) % 256 := by
  unfold calcNybbleSum_int
  simp only [Bool.false_eq_true, if_false, and15, shr4]
  rw [show n + 1 - 0 = n + 1 from rfl, List.range'_concat, List.foldl_append,
    List.foldl_cons, List.foldl_nil]
  have e := foldl_int_exact w hw
    (fun i => (List.replicate (n + 1) 0xFF).getD i 0 % 16 +
      (List.replicate (n + 1) 0xFF).getD i 0 / 16)
    (List.range' 0 n) 0 (by
      rw [sum_ff (n + 1) n (by omega)]
      omega)
  rw [sum_ff (n + 1) n (by omega), Nat.zero_add] at e
  rw [show ((0 : Nat) : Int) = 0 from rfl] at e
  rw [e]
  have hl : (List.replicate (n + 1) 0xFF).getD (0 + 1 * n) 0 = 0xFF := by
    rw [List.getD_eq_getElem _ _ (by rw [List.length_replicate]; omega),
      List.getElem_replicate]
  rw [hl]
  rfl

theorem calcNybbleSum_int_wrap :
    calcNybbleSum_int 16 (List.replicate 1093 0xFF) 0 1092 false = 6 := by
  rw [calcNybbleSum_int_ff 16 (by decide) 1092 (by decide)]
  decide

theorem calcNybbleSum_int_record (w : Nat) (hw : 16 ≤ w) (r : List Nat) (h : IsRecord r) :
    calcNybbleSum_int w r 0 7 false = calcNybbleSum r 0 7 false ∧
    calcNybbleSum_int w r 8 15 false = calcNybbleSum r 8 15 false ∧
    calcNybbleSum_int w r 16 20 true = calcNybbleSum r 16 20 true ∧
    calcNybbleSum_int w r 22 23 false = calcNybbleSum r 22 23 false ∧
    calcNybbleSum_int w r 24 30 false = calcNybbleSum r 24 30 false := by
  have hp : 2 ^ 15 ≤ 2 ^ (w - 1) := Nat.pow_le_pow_right (by decide) (by omega)
  have s1 := nybbleSum_le h.2 0 7
  have s2 := nybbleSum_le h.2 8 15
  have s3 := nybbleSum_le h.2 16 19
  have s4 := nybbleSum_le h.2 22 23
  have s5 := nybbleSum_le h.2 24 30
  exact ⟨(calcNybbleSum_int_eq w (by omega) r 0 7).1 (by omega),
    (calcNybbleSum_int_eq w (by omega) r 8 15).1 (by omega),
    (calcNybbleSum_int_eq w (by omega) r 16 19).2 (by omega),
    (calcNybbleSum_int_eq w (by omega) r 22 23).1 (by omega),
    (calcNybbleSum_int_eq w (by omega) r 24 30).1 (by omega)⟩

/-- C5, as stated, fails on the 16-bit `int` of the target: 1093 bytes of `0xFF` have the
nybble sum 32790, above 255, but the accumulator `int sum` wraps to -32746, the test
`sum > 255` fails and `calcNybbleSum` returns 6, not `0x0F`. -/
theorem calcNybbleSum_wrap_counterexample :
    nybbleSum (List.replicate 1093 0xFF) 0 1092 = 32790 ∧
    255 < nybbleSum (List.replicate 1093 0xFF) 0 1092 ∧
    intValue 16 32790 = -32746 ∧
    calcNybbleSum_int 16 (List.replicate 1093 0xFF) 0 1092 false = 6 ∧
    calcNybbleSum_int 16 (List.replicate 1093 0xFF) 0 1092 false ≠ 0x0F := by
  have hs : nybbleSum (List.replicate 1093 0xFF) 0 1092 = 32790 :=
    nybbleSum_replicate 1093 (by decide)
  refine ⟨hs, ?_, by decide, calcNybbleSum_int_wrap, ?_⟩
  · rw [hs]
    decide
  · rw [calcNybbleSum_int_wrap]
    decide

/-- C5 (amended): with an `int` of `w >= 16` bits, whenever the nybble sum of the byte
range exceeds 255 and fits the `int` (it is below `2 ^ (w - 1)`, that is at most 32767 on
the 16-bit target) and the last index is below `INT_MAX`, `calcNybbleSum` returns exactly
`0x0F`, both for a full last byte and for a last byte counted by its low nibble only; in
particular on `n` bytes of `0xFF` for `n >= 17` with `30 * n` below `2 ^ (w - 1)` (17 to
1092 bytes on the target). -/
theorem calcNybbleSum_clamp (w : Nat) (hw : 16 ≤ w) (msg : List Nat) (a b n : Nat) :
    (255 < nybbleSum msg a b → nybbleSum msg a b < 2 ^ (w - 1) → b + 1 < 2 ^ (w - 1) →
      calcNybbleSum_int w msg a b false = 0x0F) ∧
    (255 < nybbleSum msg a b + (msg.getD (b + 1) 0 &&& 0x0F) →
      nybbleSum msg a b + (msg.getD (b + 1) 0 &&& 0x0F) < 2 ^ (w - 1) →
      b + 1 < 2 ^ (w - 1) →
      calcNybbleSum_int w msg a (b + 1) true = 0x0F) ∧
    (17 ≤ n → 30 * n < 2 ^ (w - 1) →
      255 < nybbleSum (List.replicate n 0xFF) 0 (n - 1) ∧
      calcNybbleSum_int w (List.replicate n 0xFF) 0 (n - 1) false = 0x0F) := by
  refine ⟨?_, ?_, ?_⟩
  · intro hs hfit _
    rw [calcNybbleSum_int_full w (by omega) msg a b hfit]
    omega
  · intro hs hfit _
    rw [and15] at hs hfit
    rw [calcNybbleSum_int_low w (by omega) msg a b hfit]
    omega
  · intro hn hfit
    have hsum := nybbleSum_replicate n (by omega)
    rw [calcNybbleSum_int_full w (by omega) _ 0 (n - 1) (by rw [hsum]; exact hfit), hsum]
    omega

/-- Witness of C5 (amended) on the 16-bit `int`: seventeen bytes of `0xFF` have nybble
sum 510 and checksum `0x0F`, and so have 1092 bytes of `0xFF`, the longest run whose sum
fits. -/
theorem calcNybbleSum_clamp_witness :
    nybbleSum (List.replicate 17 0xFF) 0 16 = 510 ∧
    calcNybbleSum_int 16 (List.replicate 17 0xFF) 0 16 false = 0x0F ∧
    calcNybbleSum_int 16 (List.replicate 1092 0xFF) 0 1091 false = 0x0F :=
  ⟨by decide,
    (calcNybbleSum_clamp 16 (by decide) (List.replicate 17 0xFF) 0 16 17).1 (by decide)
      (by decide) (by decide),
    ((calcNybbleSum_clamp 16 (by decide) [] 0 0 1092).2.2 (by decide) (by decide)).2⟩

/-! ## C19: the cycle counter and the typed number -/

theorem atoi_small (w : Nat) (hw : 1 ≤ w) (typed : Nat) (h : typed < 2 ^ (w - 1)) :
    atoi w typed = (typed : Int) := by
  unfold atoi
  exact intValue_of_lt w hw _ (Int.natCast_nonneg _) (by exact_mod_cast h)

theorem int_bytes (n : Nat) :
    Int.toNat (((n : Int) >>> (8 : Nat)) % 256) = (n >>> 8) &&& 0xFF ∧
    Int.toNat ((n : Int) % 256) = n &&& 0xFF := by
  rw [and_ff, and_ff, shr8, Int.shiftRight_eq_div_pow]
  constructor
  · have : ((n : Int) / ((2 ^ 8 : Nat) : Int)) % 256 = ((n / 256 % 256 : Nat) : Int) := by
      push_cast
      rfl
    rw [this, Int.toNat_natCast]
  · have : (n : Int) % 256 = ((n % 256 : Nat) : Int) := by
      push_cast
      rfl
    rw [this, Int.toNat_natCast]

theorem resetCycleCount_typed_eq (w : Nat) (hw : 1 ≤ w) (msg : List Nat) (typed : Nat)
    (h : typed < 2 ^ (w - 1)) :
    resetCycleCount_typed w msg typed = resetCycleCount_encode msg typed := by
  unfold resetCycleCount_typed resetCycleCount_encode
  rw [atoi_small w hw typed h]
  dsimp only
  by_cases hc : typed > 4095
  · rw [if_pos hc, if_pos (by exact_mod_cast hc)]
    rw [show ((4095 : Int) >>> (8 : Nat) % 256).toNat = (4095 >>> 8) &&& 0xFF from by decide,
      show ((4095 : Int) % 256).toNat = 4095 &&& 0xFF from by decide]
  · rw [if_neg hc, if_neg (by exact_mod_cast hc), (int_bytes typed).1, (int_bytes typed).2]

/-- C19, the code on the 16-bit `int` of the target when 40000 is typed: `atoi` wraps to
-25536, which is not above 4095, so nothing is clamped; bytes 26 and 27 become `0xC9` and
`0x04` and the readers decode 3136, where the claim stores 4095.  Typing 32768 stores 0.
Typing 5000, which fits the `int`, stores 4095, and so does 40000 on a 32-bit `int`. -/
theorem resetCycleCount_wrap :
    atoi 16 40000 = -25536 ∧
    (resetCycleCount_typed 16 sampleRecord 40000).getD 26 0 = 0xC9 ∧
    (resetCycleCount_typed 16 sampleRecord 40000).getD 27 0 = 0x04 ∧
    cycle_count (resetCycleCount_typed 16 sampleRecord 40000) = 3136 ∧
    cycle_count (resetCycleCount_typed 16 sampleRecord 32768) = 0 ∧
    cycle_count (resetCycleCount_typed 16 sampleRecord 5000) = 4095 ∧
    cycle_count (resetCycleCount_typed 32 sampleRecord 40000) = 4095 := by
  decide

end Makita
